import Mathlib

/-!
# HSE c1 ingest I/O core and token bucket

A shallow embedding of `src/util/src/token_bucket.c` and `src/c1/c1_io.c`.

Machine integers are natural numbers reduced modulo `2^64` wherever the C
arithmetic can wrap.  The clock (`get_time_ns`) is an explicit argument.
-/

/-! ## Token bucket (`token_bucket.c`) -/

/-- Largest value of a `u64`. -/
def U64_MAX : Nat := 2 ^ 64 - 1

/-- Nanoseconds per second (`NSEC_PER_SEC` of `hse_util/timing.h`). -/
def NSEC_PER_SEC : Nat := 1000000000

/-- Addition of two `u64` values (modulo `U64_MAX + 1`). -/
def u64_add (a b : Nat) : Nat := (a + b) % 2 ^ 64

/-- Subtraction of two `u64` values (modulo `U64_MAX + 1`). -/
def u64_sub (a b : Nat) : Nat := (a + (2 ^ 64 - b % 2 ^ 64)) % 2 ^ 64

/-- Multiplication of two `u64` values (modulo `U64_MAX + 1`). -/
def u64_mul (a b : Nat) : Nat := (a * b) % 2 ^ 64

/-- The fields of `struct tbkt` (the spin lock is not modelled). -/
structure tbkt where
  tb_burst : Nat
  tb_rate : Nat
  tb_balance : Nat
  tb_refill_time : Nat
  tb_dt_max : Nat
  tb_requests : Nat
  deriving DecidableEq, Repr

/-- The bucket after `memset(self, 0, sizeof(*self))`. -/
def tbkt_zero : tbkt :=
  { tb_burst := 0, tb_rate := 0, tb_balance := 0, tb_refill_time := 0,
    tb_dt_max := 0, tb_requests := 0 }

/-- Function `tbkti_in_debt`: the balance lies strictly above the burst size. -/
def tbkti_in_debt (self : tbkt) : Bool :=
  decide (self.tb_balance > self.tb_burst)

/-- Function `tbkti_status`: the debt flag and the amount of debt or credit. -/
def tbkti_status (self : tbkt) : Bool × Nat :=
  let in_debt := tbkti_in_debt self
  if in_debt then
    (in_debt, u64_add (u64_sub U64_MAX self.tb_balance) 1)
  else
    (in_debt, self.tb_balance)

/-- Function `tbkti_burst_set`: change the burst size, snapping the balance when the
change alone would flip the bucket between credit and debt. -/
def tbkti_burst_set (self : tbkt) (burst : Nat) : tbkt :=
  let had_debt := tbkti_in_debt self
  let self1 := { self with tb_burst := burst }
  let still_have_debt := tbkti_in_debt self1
  if had_debt && !still_have_debt then
    { self1 with tb_balance := u64_add burst 1 }
  else if !had_debt && still_have_debt then
    { self1 with tb_balance := burst }
  else
    self1

/-- Function `tbkti_rate_set`: set the rate and the overflow ceiling `tb_dt_max`. -/
def tbkti_rate_set (self : tbkt) (rate : Nat) : tbkt :=
  { self with tb_rate := rate,
              tb_dt_max := if rate ≠ 0 then U64_MAX / rate else U64_MAX }

/-- Function `tbkti_init`; `now` is the value returned by `get_time_ns()`. -/
def tbkti_init (self : tbkt) (burst rate now : Nat) : tbkt :=
  let s1 := tbkti_burst_set self burst
  let s2 := tbkti_rate_set s1 rate
  { s2 with tb_balance := burst, tb_refill_time := now }

/-- Function `tbkti_balance`: the balance the bucket would have at time `now`.
The argument `fp rate dt` stands for the C expression
`(u64) ((double) rate * dt * 1e-9)`, whose rounding is not modelled. -/
def tbkti_balance (fp : Nat → Nat → Nat) (self : tbkt) (now : Nat) : Nat :=
  if self.tb_refill_time > now then
    self.tb_balance
  else
    let dt := now - self.tb_refill_time
    if dt > self.tb_dt_max then
      self.tb_burst
    else
      let refill := fp self.tb_rate dt % 2 ^ 64
      if refill > u64_sub self.tb_burst self.tb_balance then
        self.tb_burst
      else
        u64_add self.tb_balance refill

/-- Function `tbkti_refill`; `now` is the value returned by `get_time_ns()`. -/
def tbkti_refill (fp : Nat → Nat → Nat) (self : tbkt) (now : Nat) : tbkt :=
  { self with tb_balance := tbkti_balance fp self now, tb_refill_time := now }

/-- Function `tbkt_adjust`: set the burst, refill, then set the rate. -/
def tbkt_adjust (fp : Nat → Nat → Nat) (self : tbkt) (burst rate now : Nat) : tbkt :=
  let s1 := tbkti_burst_set self burst
  let s2 := tbkti_refill fp s1 now
  tbkti_rate_set s2 rate

/-- Function `tbkt_init`: zero the bucket, then `tbkti_init`. -/
def tbkt_init (burst rate now : Nat) : tbkt :=
  tbkti_init tbkt_zero burst rate now

/-- The function `tbkt_burst_get`. -/
def tbkt_burst_get (self : tbkt) : Nat := self.tb_burst

/-- The function `tbkt_rate_get`. -/
def tbkt_rate_get (self : tbkt) : Nat := self.tb_rate

/-- Function `tbkt_request`: the bucket after the call and the delay in nanoseconds
the caller should observe. -/
def tbkt_request (fp : Nat → Nat → Nat) (self : tbkt) (request now : Nat) : tbkt × Nat :=
  if request = 0 ∨ self.tb_rate = 0 then
    (self, 0)
  else
    let s1 := { self with tb_requests := u64_add self.tb_requests 1 }
    let s2 := tbkti_refill fp s1 now
    let request_max := u64_sub (u64_sub s2.tb_balance s2.tb_burst) 1
    let request1 := if request > request_max then request_max else request
    let s3 := { s2 with tb_balance := u64_sub s2.tb_balance request1 }
    let rate := s3.tb_rate
    let st := tbkti_status s3
    let delay := if st.1 then u64_mul st.2 NSEC_PER_SEC / rate else 0
    (s3, delay)

/-- A run of `tbkt_request` calls, all made while the clock reads `now`;
returns the final bucket and the delays in call order. -/
def tbkt_request_seq (fp : Nat → Nat → Nat) (now : Nat) : tbkt → List Nat → tbkt × List Nat
  | self, [] => (self, [])
  | self, n :: ns =>
    let r := tbkt_request fp self n now
    let rest := tbkt_request_seq fp now r.1 ns
    (rest.1, r.2 :: rest.2)

/-- The semantic value of a bucket: the credit as a non-negative integer,
the debt as a negative one (the notes at the head of `token_bucket.c`). -/
def tbkt_value (self : tbkt) : Int :=
  if self.tb_balance ≤ self.tb_burst then (self.tb_balance : Int)
  else -(((2 ^ 64 - self.tb_balance : Nat)) : Int)

/-! ## c1 ingest I/O (`c1_io.c`)

The collaborators of the engine (the log tree, the record-size oracle, the
bundle iterator, the allocator) are not part of `c1_io.c`.  Every call made
to them is appended to a log, and their answers are given by an environment
that sees the log up to and including the call being answered, so that any
deterministic collaborator, stateful or not, is covered.  Mutexes, condition
variables and performance counters are not modelled: each dispatcher
operation and each pass of the worker loop is one atomic step. -/

/-- Modelled from the spec: an error value `merr_t` (`hse_util/hse_err.h` is
absent); zero is success, and a non-zero value is the errno it carries. -/
abbrev merr_t := Nat

/-- The errno `ENOMEM`. -/
def ENOMEM : Nat := 12

/-- Modelled from the spec: `merr(errno)` builds the error carrying `errno`. -/
def merr (errno : Nat) : merr_t := errno

/-- Modelled from the spec: `merr_errno(err)` is the errno carried by `err`. -/
def merr_errno (err : merr_t) : Nat := err

/-- Modelled from the spec: the `async` sync mode (`c1_private.h` is absent;
`c1_io_txn_abort` stores it as `c1q_sync = 0`). -/
def C1_INGEST_ASYNC : Nat := 0

/-- Modelled from the spec: the `sync` sync mode (`c1_private.h` is absent). -/
def C1_INGEST_SYNC : Nat := 1

/-- Modelled from the spec: the `INVALID` ingest id stored in begin and abort
records (`c1_private.h` is absent). -/
def C1_INVALID_SEQNO : Nat := U64_MAX

/-- Number of preallocated work items, `NELEM(io->c1io_ioqv)`. -/
def C1_IOQV_NELEM : Nat := 61

/-- Modelled from the spec: the counter of an `atomic_t` (`hse_util/atomic.h`
is absent) is a C `int`, 32 bits in two's complement; `atomic_wrap` brings an
integer back into its range. -/
def atomic_wrap (v : Int) : Int := (v + 2 ^ 31) % 2 ^ 32 - 2 ^ 31

/-- Modelled from the spec: `atomic_inc` adds one to the counter, wrapping
around at the end of the range. -/
def atomic_inc (v : Int) : Int := atomic_wrap (v + 1)

/-- Modelled from the spec: `atomic_dec` takes one off the counter, wrapping
around at the end of the range. -/
def atomic_dec (v : Int) : Int := atomic_wrap (v - 1)

/-- The command of a transaction record (`c1t_cmd`). -/
inductive c1_txn_cmd where
  | C1_TYPE_TXN_BEGIN
  | C1_TYPE_TXN_COMMIT
  | C1_TYPE_TXN_ABORT
  deriving DecidableEq, Repr

/-- The record types asked of `c1_record_type2len`. -/
inductive c1_rec_type where
  | C1_TYPE_KVT
  | C1_TYPE_VT
  | C1_TYPE_KVB
  | C1_TYPE_TXN
  deriving DecidableEq, Repr

/-- The fields of `struct c1_ttxn` written by `c1_io.c`. -/
structure c1_ttxn where
  c1t_segno : Nat
  c1t_gen : Nat
  c1t_txnid : Nat
  c1t_ingestid : Nat
  c1t_cmd : c1_txn_cmd
  c1t_flag : Nat
  deriving DecidableEq, Repr

/-- A log tree handle with the two fields `c1_io.c` reads from it. -/
structure c1_tree where
  c1t_seqno : Nat
  c1t_gen : Nat
  deriving DecidableEq, Repr

/-- A bundle iterator handle: its address and the two fields the pump reads. -/
structure kvb_builder_iter where
  addr : Nat
  kvbi_ingestid : Nat
  kvbi_vsize : Nat
  deriving DecidableEq, Repr

/-- A key/value bundle handle. -/
structure c1_kvbundle where
  addr : Nat
  deriving DecidableEq, Repr

/-- The fields of `struct c1_kvinfo` (taken to be `u64`). -/
structure c1_kvinfo where
  ck_kcnt : Nat
  ck_vcnt : Nat
  ck_kvsz : Nat
  deriving DecidableEq, Repr

/-- The part of `struct c1_iterinfo` that `c1_io.c` reads. -/
structure c1_iterinfo where
  ci_total : c1_kvinfo
  deriving DecidableEq, Repr

/-- Where a work item lives: in the preallocated array `c1io_ioqv`, on the
heap (from `calloc`), or on the stack of a `c1_issue_sync` caller. -/
inductive c1q_addr where
  | ioqv (i : Nat)
  | heap (p : Nat)
  | stack (p : Nat)
  deriving DecidableEq, Repr

/-- The fields of `struct c1_io_queue`.  `c1q_txn` is either null (`false`)
or points at the item's own `c1q_txnbuf` (`true`); `c1q_stime` is a metric
stamp and is left out. -/
structure c1_io_queue where
  addr : c1q_addr
  c1q_tree : Option c1_tree
  c1q_iter : Option kvb_builder_iter
  c1q_txn : Bool
  c1q_txnid : Nat
  c1q_mutation : Nat
  c1q_idx : Nat
  c1q_sync : Nat
  c1q_syncdone : Bool
  c1q_txnbuf : c1_ttxn
  deriving DecidableEq, Repr

/-- A zero-filled work item at the given address. -/
def c1_io_queue_zero (addr : c1q_addr) : c1_io_queue :=
  { addr := addr, c1q_tree := none, c1q_iter := none, c1q_txn := false, c1q_txnid := 0,
    c1q_mutation := 0, c1q_idx := 0, c1q_sync := 0, c1q_syncdone := false,
    c1q_txnbuf := { c1t_segno := 0, c1t_gen := 0, c1t_txnid := 0, c1t_ingestid := 0,
                    c1t_cmd := c1_txn_cmd.C1_TYPE_TXN_BEGIN, c1t_flag := 0 } }

/-- The fields of `struct c1_io_worker`, together with the local variables
`qfree`, `nfree` and `q` of the `c1_io_worker()` invocation that runs on it
and a flag telling whether that invocation has not yet returned. -/
structure c1_io_worker where
  c1w_list : List c1_io_queue
  c1w_stop : Bool
  c1w_idx : Nat
  qfree : List c1_io_queue
  nfree : Nat
  q : Option c1_io_queue
  running : Bool
  deriving DecidableEq, Repr

/-- The fields of `struct c1_io`.  The work queue handle and the counters are
left out; the array `c1io_ioqv` is represented by the addresses of its items;
`c1io_pending` is the counter of an `atomic_t`, written by `atomic_set`,
`atomic_inc` and `atomic_dec` only. -/
structure c1_io where
  c1io_kvbmetasz : Nat
  c1io_kmetasz : Nat
  c1io_vmetasz : Nat
  c1io_workerc : Nat
  c1io_err : merr_t
  c1io_workerv : List c1_io_worker
  c1io_pending : Int
  c1io_qfree : List c1_io_queue
  deriving DecidableEq, Repr

/-- A call made by `c1_io.c` to one of its collaborators. -/
inductive c1_call where
  | alloc_aligned
  | alloc_workqueue (threads : Nat)
  | calloc
  | free (addr : c1q_addr)
  | record_type2len (type : c1_rec_type)
  | current_tree
  | tree_get_complete (tree : c1_tree)
  | mark_tree_complete (tree : c1_tree)
  | next_tree
  | tree_reserve_space (tree : c1_tree) (size : Nat) (spare : Bool)
  | tree_reserve_space_txn (tree : c1_tree) (size : Nat)
  | tree_reserve_space_iter (tree : c1_tree) (kmetasz vmetasz kvbmetasz stripsize : Nat)
      (ci : c1_iterinfo)
  | tree_issue_txn (tree : Option c1_tree) (idx : Nat) (mutation : Nat) (txn : c1_ttxn)
      (sync : Nat)
  | tree_issue_kvb (tree : Option c1_tree) (ingestid vsize : Nat) (idx : Nat)
      (txnid mutation : Nat) (kvb : c1_kvbundle) (sync : Nat) (tidx : Nat)
  | tree_flush (tree : c1_tree)
  | tree_refresh_space (tree : Option c1_tree)
  | iter_get_next (iter : kvb_builder_iter)
  | iter_put (iter : kvb_builder_iter)
  deriving DecidableEq, Repr

/-- The answers of the collaborators.  Each function is applied to the log
of calls up to and including the call it answers.
* `err`: the `merr_t` returned by the call;
* `current_tree`: the tree returned by `c1_current_tree`;
* `reserve_out`: the worker index and the mutation id that
  `c1_tree_reserve_space` stores through its out-parameters;
* `reclen`: the length stored by `c1_record_type2len`;
* `next_kvb`: the bundle stored by `iter->get_next` (`none` is a null bundle);
* `alloc`: the address returned by an allocation (`none` is a null pointer). -/
structure c1_env where
  err : List c1_call → merr_t
  current_tree : List c1_call → c1_tree
  reserve_out : List c1_call → Nat × Nat
  reclen : List c1_call → Nat
  next_kvb : List c1_call → Option c1_kvbundle
  alloc : List c1_call → Option Nat

/-- An enqueue onto, or a pop from, the FIFO of a worker. -/
inductive c1_event where
  | enqueue (idx : Nat) (q : c1_io_queue)
  | pop (idx : Nat) (q : c1_io_queue)
  deriving DecidableEq, Repr

/-- A `struct c1` with a live engine: the engine, the strip size returned by
`c1_ingest_stripsize`, the log of collaborator calls, the stack-resident
fence items whose `c1q_syncdone` a worker has set, and a history of FIFO
events (a ghost variable: the program never reads it). -/
structure c1 where
  c1_io : c1_io
  stripsize : Nat
  calls : List c1_call
  syncdone : List c1q_addr
  history : List c1_event
  deriving DecidableEq, Repr

/-- Log a collaborator call. -/
def c1_emit (c : c1) (call : c1_call) : c1 :=
  { c with calls := c.calls ++ [call] }

/-- Apply `f` to element `i` of the worker array (`&io->c1io_workerv[i]`). -/
def c1io_workerv_update (f : c1_io_worker → c1_io_worker) :
    Nat → List c1_io_worker → List c1_io_worker
  | _, [] => []
  | 0, w :: ws => f w :: ws
  | n + 1, w :: ws => w :: c1io_workerv_update f n ws

/-- Total number of work items on all worker FIFOs. -/
def c1io_fifo_total : List c1_io_worker → Nat
  | [] => 0
  | w :: ws => w.c1w_list.length + c1io_fifo_total ws

/-- The FIFO of worker `i` of a worker array (empty when there is no such
worker). -/
def c1io_fifo (ws : List c1_io_worker) (i : Nat) : List c1_io_queue :=
  match ws.get? i with
  | some w => w.c1w_list
  | none => []

/-- Function `c1_io_queue_free`: an item outside the preallocated array is freed; an
item inside the array is left alone. -/
def c1_io_queue_free (c : c1) (q : c1_io_queue) : c1 :=
  match q.addr with
  | c1q_addr.ioqv i => if i < C1_IOQV_NELEM then c else c1_emit c (c1_call.free q.addr)
  | _ => c1_emit c (c1_call.free q.addr)

/-- The prologue shared by the dispatcher operations (e.g. lines 581-593):
take the first item of the free pool, or `calloc` one when the pool is
empty; `none` when the allocation fails.  The item is off every list. -/
def c1_io_queue_get (env : c1_env) (c : c1) : Option c1_io_queue × c1 :=
  match c.c1_io.c1io_qfree with
  | q :: rest => (some q, { c with c1_io := { c.c1_io with c1io_qfree := rest } })
  | [] =>
    let c1 := c1_emit c c1_call.calloc
    match env.alloc c1.calls with
    | none => (none, c1)
    | some p => (some (c1_io_queue_zero (c1q_addr.heap p)), c1)

/-- The epilogue shared by the dispatcher operations (e.g. lines 616-623):
`atomic_inc(&io->c1io_pending)`, then `list_add_tail` onto the FIFO of
worker `q->c1q_idx`. -/
def c1_io_enqueue (c : c1) (q : c1_io_queue) : c1 :=
  { c with
    c1_io := { c.c1_io with
      c1io_pending := atomic_inc c.c1_io.c1io_pending,
      c1io_workerv := c1io_workerv_update
        (fun w => { w with c1w_list := w.c1w_list ++ [q] }) q.c1q_idx c.c1_io.c1io_workerv },
    history := c.history ++ [c1_event.enqueue q.c1q_idx q] }

/-- The encoded size computed by `c1_io_get_tree` and `c1_io_get_tree_txn`:
`kvsz + kmetasz * kcnt + vmetasz * vcnt + kvbmetasz * kvbc` with
`kvbc = kvsz / stripsize + 1` held in a `u32`. -/
def c1_io_encoded_size (c : c1) (cki : c1_kvinfo) : Nat :=
  let kvsz := cki.ck_kvsz
  let kvbc := (kvsz / c.stripsize + 1) % 2 ^ 32
  u64_add kvsz
    (u64_add (u64_add (u64_mul c.c1_io.c1io_kmetasz cki.ck_kcnt)
                      (u64_mul c.c1_io.c1io_vmetasz cki.ck_vcnt))
             ((c.c1_io.c1io_kvbmetasz * kvbc) % 2 ^ 32))

/-- Function `c1_tree_reserve_space(tree, size, &q->c1q_idx, &q->c1q_mutation, spare)`:
the returned error, and the item with the out-parameters stored. -/
def c1_tree_reserve_space (env : c1_env) (c : c1) (tree : c1_tree) (size : Nat)
    (q : c1_io_queue) (spare : Bool) : merr_t × c1_io_queue × c1 :=
  let c1 := c1_emit c (c1_call.tree_reserve_space tree size spare)
  let out := env.reserve_out c1.calls
  (env.err c1.calls, { q with c1q_idx := out.1, c1q_mutation := out.2 }, c1)

/-- Function `c1_io_get_tree`, called with `&q->c1q_tree`, `&q->c1q_idx` and
`&q->c1q_mutation` as out-parameters. -/
def c1_io_get_tree (env : c1_env) (c : c1) (cki : c1_kvinfo) (q : c1_io_queue) :
    merr_t × c1_io_queue × c1 :=
  let c1 := c1_emit c c1_call.current_tree
  let tree := env.current_tree c1.calls
  let kvsz := c1_io_encoded_size c1 cki
  let r1 := c1_tree_reserve_space env c1 tree kvsz q false
  if r1.1 ≠ 0 then
    let r2 := c1_tree_reserve_space env r1.2.2 tree kvsz r1.2.1 true
    if r2.1 ≠ 0 then
      (r2.1, r2.2.1, r2.2.2)
    else
      (0, { r2.2.1 with c1q_tree := some tree }, r2.2.2)
  else
    (0, { r1.2.1 with c1q_tree := some tree }, r1.2.2)

/-- Function `c1_io_next_tree`: mark the current tree complete and allocate the next. -/
def c1_io_next_tree (env : c1_env) (c : c1) (cur : c1_tree) : merr_t × c1 :=
  let c1 := c1_emit c (c1_call.tree_get_complete cur)
  let c2 := c1_emit c1 (c1_call.mark_tree_complete cur)
  let err := env.err c2.calls
  if err ≠ 0 then
    (err, c2)
  else
    let c3 := c1_emit c2 c1_call.next_tree
    let err := env.err c3.calls
    if err ≠ 0 then (err, c3) else (0, c3)

/-- How one pass of the `while (1)` loop of `c1_io_get_tree_txn` ends. -/
inductive c1_txn_pass where
  | ret (err : merr_t)
  | brk (tree : c1_tree)
  | fall (tree : c1_tree)
  deriving DecidableEq, Repr

/-- One pass of the `while (1)` loop of `c1_io_get_tree_txn` (lines 373-412),
up to `assert(!retry)`; `spare` is false throughout. -/
def c1_io_get_tree_txn_pass (env : c1_env) (c : c1) (ci : c1_iterinfo) (q : c1_io_queue)
    (txsz recsz : Nat) (retry : Bool) : c1_txn_pass × c1_io_queue × c1 :=
  let c1 := c1_emit c c1_call.current_tree
  let tree := env.current_tree c1.calls
  let c2 := c1_emit c1 (c1_call.tree_reserve_space_txn tree (u64_add txsz recsz))
  let err := env.err c2.calls
  if err ≠ 0 ∧ (merr_errno err ≠ ENOMEM ∨ retry = true) then
    (c1_txn_pass.ret err, q, c2)
  else if err = 0 then
    let r := c1_tree_reserve_space env c2 tree recsz q false
    let err := r.1
    if err ≠ 0 ∧ (merr_errno err ≠ ENOMEM ∨ retry = true) then
      (c1_txn_pass.ret err, r.2.1, r.2.2)
    else if err = 0 then
      let c3 := c1_emit r.2.2
        (c1_call.tree_reserve_space_iter tree c.c1_io.c1io_kmetasz c.c1_io.c1io_vmetasz
          c.c1_io.c1io_kvbmetasz c.stripsize ci)
      let err := env.err c3.calls
      if err ≠ 0 ∧ retry = true then
        (c1_txn_pass.ret err, r.2.1, c3)
      else if err = 0 then
        (c1_txn_pass.brk tree, r.2.1, c3)
      else
        (c1_txn_pass.fall tree, r.2.1, c3)
    else
      (c1_txn_pass.fall tree, r.2.1, r.2.2)
  else
    (c1_txn_pass.fall tree, q, c2)

/-- The `while (1)` loop of `c1_io_get_tree_txn`; `fuel` bounds the number of
passes, and `none` is returned when it runs out or when `assert(!retry)`
fails. -/
def c1_io_get_tree_txn_loop (env : c1_env) (ci : c1_iterinfo) (txsz recsz : Nat) :
    Nat → Bool → c1 → c1_io_queue → Option (merr_t × c1_io_queue × c1)
  | 0, _, _, _ => none
  | fuel + 1, retry, c, q =>
    match c1_io_get_tree_txn_pass env c ci q txsz recsz retry with
    | (c1_txn_pass.ret err, q1, c1) => some (err, q1, c1)
    | (c1_txn_pass.brk tree, q1, c1) => some (0, { q1 with c1q_tree := some tree }, c1)
    | (c1_txn_pass.fall tree, q1, c1) =>
      if retry = true then
        none
      else
        let r := c1_io_next_tree env c1 tree
        if r.1 ≠ 0 then
          some (r.1, q1, r.2)
        else
          c1_io_get_tree_txn_loop env ci txsz recsz fuel true r.2 q1

/-- Function `c1_io_get_tree_txn`, called with `&q->c1q_tree`, `&q->c1q_idx` and
`&q->c1q_mutation` as out-parameters.  The loop is given fuel for two
passes, which is all it can use. -/
def c1_io_get_tree_txn (env : c1_env) (c : c1) (ci : c1_iterinfo) (q : c1_io_queue) :
    Option (merr_t × c1_io_queue × c1) :=
  let c1 := c1_emit c (c1_call.record_type2len c1_rec_type.C1_TYPE_TXN)
  let err := env.err c1.calls
  if err ≠ 0 then
    some (err, q, c1)
  else
    let recsz := (env.reclen c1.calls * 2) % 2 ^ 32
    let txsz := c1_io_encoded_size c1 ci.ci_total
    c1_io_get_tree_txn_loop env ci txsz recsz 2 false c1 q

/-- Function `c1_sync_or_flush_command`: the iterator is the null sentinel. -/
def c1_sync_or_flush_command (iter : Option kvb_builder_iter) : Bool :=
  iter.isNone

/-- Function `c1_io_iter_kvbtxn`: pump the iterator of item `q` into the tree.  `fuel`
bounds the number of `get_next` calls; `none` when it runs out before the
loop is left. -/
def c1_io_iter_kvbtxn (env : c1_env) (iter : kvb_builder_iter) (q : c1_io_queue) :
    Nat → c1 → Option c1
  | 0, _ => none
  | fuel + 1, c =>
    let tidx := q.c1q_idx
    let c1 := c1_emit c (c1_call.iter_get_next iter)
    let err := env.err c1.calls
    match (if err ≠ 0 then none else env.next_kvb c1.calls) with
    | none =>
      let c2 := c1_emit c1 (c1_call.iter_put iter)
      some { c2 with c1_io := { c2.c1_io with c1io_err := err } }
    | some kvb =>
      let c2 := c1_emit c1
        (c1_call.tree_issue_kvb q.c1q_tree iter.kvbi_ingestid iter.kvbi_vsize q.c1q_idx
          q.c1q_txnid q.c1q_mutation kvb q.c1q_sync tidx)
      let err := env.err c2.calls
      if err ≠ 0 then
        let c3 := c1_emit c2 (c1_call.iter_put iter)
        some { c3 with c1_io := { c3.c1_io with c1io_err := err } }
      else
        c1_io_iter_kvbtxn env iter q fuel c2

/-- Lines 95-107 of `c1_io_worker`: put the item processed by the previous
pass on the local list `qfree`, and splice that list onto the head of the
free pool once `nfree++ > 1`. -/
def c1_io_worker_recycle (io : c1_io) (w : c1_io_worker) : c1_io × c1_io_worker :=
  match w.q with
  | none => (io, w)
  | some q =>
    let qfree := q :: w.qfree
    if w.nfree > 1 then
      ({ io with c1io_qfree := qfree ++ io.c1io_qfree },
       { w with q := none, qfree := [], nfree := 0 })
    else
      (io, { w with q := none, qfree := qfree, nfree := w.nfree + 1 })

/-- Lines 127-169 of `c1_io_worker`: process the item `q` just popped by
worker `i`.  Returns the new state and the value of the local `q` at the
`continue` (null after a fence). -/
def c1_io_worker_process (env : c1_env) (fuel : Nat) (c : c1) (q : c1_io_queue) :
    Option (c1 × Option c1_io_queue) :=
  let c1 := { c with
    c1_io := { c.c1_io with c1io_pending := atomic_dec c.c1_io.c1io_pending } }
  if q.c1q_txn = true then
    let c2 := c1_emit c1
      (c1_call.tree_issue_txn q.c1q_tree q.c1q_idx q.c1q_mutation q.c1q_txnbuf q.c1q_sync)
    let err := env.err c2.calls
    if err ≠ 0 then
      some ({ c2 with c1_io := { c2.c1_io with c1io_err := err } }, some q)
    else
      some (c2, some q)
  else
    match q.c1q_iter with
    | none => some ({ c1 with syncdone := c1.syncdone ++ [q.addr] }, none)
    | some iter =>
      if c1.c1_io.c1io_err ≠ 0 then
        some (c1_emit c1 (c1_call.iter_put iter), some q)
      else
        match c1_io_iter_kvbtxn env iter q fuel c1 with
        | none => none
        | some c2 => some (c2, some q)

/-- One pass of the `while (1)` loop of `c1_io_worker` running on worker `i`,
up to the point where it pops and processes one item, goes to sleep on an
empty FIFO, or returns because it was told to stop.  `none` when there is no
such worker, when it has returned already, or when the pump runs out of
`fuel`. -/
def c1_io_worker_step (env : c1_env) (fuel : Nat) (i : Nat) (c : c1) : Option c1 :=
  match c.c1_io.c1io_workerv.get? i with
  | none => none
  | some w0 =>
    if w0.running = false then
      none
    else
      let r := c1_io_worker_recycle c.c1_io w0
      let io := r.1
      let w := r.2
      match w.c1w_list with
      | [] =>
        if w.c1w_stop = true then
          let w1 := { w with c1w_list := w.qfree ++ w.c1w_list, running := false }
          some { c with c1_io :=
            { io with c1io_workerv := c1io_workerv_update (fun _ => w1) i io.c1io_workerv } }
        else
          some { c with c1_io :=
            { io with c1io_workerv := c1io_workerv_update (fun _ => w) i io.c1io_workerv } }
      | q :: rest =>
        let w1 := { w with c1w_list := rest }
        let c1 := { c with
          c1_io := { io with c1io_workerv := c1io_workerv_update (fun _ => w1) i io.c1io_workerv },
          history := c.history ++ [c1_event.pop i q] }
        match c1_io_worker_process env fuel c1 q with
        | none => none
        | some (c2, lq) =>
          some { c2 with c1_io := { c2.c1_io with
            c1io_workerv :=
              c1io_workerv_update (fun x => { x with q := lq }) i c2.c1_io.c1io_workerv } }

/-- Run worker passes in the order given by `sched` (a list of worker
indices); `none` as soon as one of them is `none`. -/
def c1_io_workers_run (env : c1_env) (fuel : Nat) : List Nat → c1 → Option c1
  | [], c => some c
  | i :: sched, c =>
    match c1_io_worker_step env fuel i c with
    | none => none
    | some c1 => c1_io_workers_run env fuel sched c1

/-- How the first half of `c1_issue_sync` (lines 516-543) ends: it returns,
it jumps to `log_flush`, or it has queued the stack-resident fence `q` and
sleeps until a worker sets `q.c1q_syncdone`. -/
inductive c1_sync_entry where
  | ret (err : merr_t)
  | log_flush
  | wait (q : c1_io_queue)
  deriving DecidableEq, Repr

/-- Lines 516-540 of `c1_issue_sync`.  `frame` is the address of the
caller's stack frame, where the fence item lives; no caller still asleep in
`c1_issue_sync` has the same one.  The item is initialised with
`c1q_syncdone` clear (line 516), whatever an earlier fence at the same
address has left there: when the item is queued its address is taken out of
the published fences.  On the paths that return without queueing it the item
is never seen by a worker. -/
def c1_issue_sync_enter (c : c1) (sync : Nat) (skip_flush : Bool) (frame : Nat) :
    c1_sync_entry × c1 :=
  let q := { c1_io_queue_zero (c1q_addr.stack frame) with c1q_sync := sync }
  if sync ≠ C1_INGEST_SYNC then
    (c1_sync_entry.ret c.c1_io.c1io_err, c)
  else if c.c1_io.c1io_pending = 0 then
    if skip_flush = false then
      (c1_sync_entry.log_flush, c)
    else
      (c1_sync_entry.ret c.c1_io.c1io_err, c)
  else
    (c1_sync_entry.wait q,
     c1_io_enqueue
       { c with syncdone := c.syncdone.filter (fun a => a != c1q_addr.stack frame) } q)

/-- The label `log_flush` of `c1_issue_sync` (lines 552-558). -/
def c1_issue_sync_flush (env : c1_env) (c : c1) : merr_t × c1 :=
  let c1 := c1_emit c c1_call.current_tree
  let c2 := c1_emit c1 (c1_call.tree_flush (env.current_tree c1.calls))
  (env.err c2.calls, c2)

/-- Lines 546-558 of `c1_issue_sync`: what the caller does once it has seen
`q.c1q_syncdone`. -/
def c1_issue_sync_leave (env : c1_env) (c : c1) (skip_flush : Bool) : merr_t × c1 :=
  if c.c1_io.c1io_err ≠ 0 then
    (c.c1_io.c1io_err, c)
  else if skip_flush = true then
    (0, c)
  else
    c1_issue_sync_flush env c

/-- Function `c1_issue_sync`.  While the caller sleeps on the condition variable the
other threads run; `wait` gives the state they have produced when the caller
is next scheduled.  The result is `none` when the fence has not been
published as done by then (the caller is still asleep). -/
def c1_issue_sync (env : c1_env) (wait : c1 → Option c1) (c : c1) (sync : Nat)
    (skip_flush : Bool) (frame : Nat) : Option (merr_t × c1) :=
  match c1_issue_sync_enter c sync skip_flush frame with
  | (c1_sync_entry.ret err, c1) => some (err, c1)
  | (c1_sync_entry.log_flush, c1) => some (c1_issue_sync_flush env c1)
  | (c1_sync_entry.wait q, c1) =>
    match wait c1 with
    | none => none
    | some c2 =>
      if q.addr ∈ c2.syncdone then
        some (c1_issue_sync_leave env c2 skip_flush)
      else
        none

/-- Lines 595-600 of `c1_issue_iter`: fill the work item. -/
def c1_issue_iter_fill (q0 : c1_io_queue) (iter : Option kvb_builder_iter) (txnid : Nat)
    (sync : Nat) : c1_io_queue :=
  { q0 with c1q_sync := sync, c1q_iter := iter, c1q_txnid := txnid, c1q_txn := false,
            c1q_idx := 0 }

/-- Lines 656-666 of `c1_io_txn_begin`: fill the record and the work item. -/
def c1_io_txn_begin_fill (q0 : c1_io_queue) (txnid : Nat) (sync : Nat) : c1_io_queue :=
  { q0 with
    c1q_txnbuf := { q0.c1q_txnbuf with c1t_ingestid := C1_INVALID_SEQNO, c1t_txnid := txnid,
                                       c1t_cmd := c1_txn_cmd.C1_TYPE_TXN_BEGIN,
                                       c1t_flag := sync },
    c1q_sync := sync, c1q_txn := true, c1q_iter := none, c1q_idx := 0 }

/-- Lines 734-744 of `c1_io_txn_commit`: fill the record and the work item. -/
def c1_io_txn_commit_fill (q0 : c1_io_queue) (txnid ingestid : Nat) (sync : Nat) :
    c1_io_queue :=
  { q0 with
    c1q_txnbuf := { q0.c1q_txnbuf with c1t_ingestid := ingestid, c1t_txnid := txnid,
                                       c1t_cmd := c1_txn_cmd.C1_TYPE_TXN_COMMIT,
                                       c1t_flag := sync },
    c1q_sync := sync, c1q_txn := true, c1q_iter := none, c1q_idx := 0 }

/-- Lines 821-831 of `c1_io_txn_abort`: fill the record and the work item. -/
def c1_io_txn_abort_fill (q0 : c1_io_queue) (txnid : Nat) : c1_io_queue :=
  { q0 with
    c1q_txnbuf := { q0.c1q_txnbuf with c1t_ingestid := C1_INVALID_SEQNO, c1t_txnid := txnid,
                                       c1t_cmd := c1_txn_cmd.C1_TYPE_TXN_ABORT,
                                       c1t_flag := C1_INGEST_ASYNC },
    c1q_sync := 0, c1q_txn := true, c1q_iter := none, c1q_idx := 0 }

/-- The two stores `txn->c1t_segno = q->c1q_tree->c1t_seqno` and
`txn->c1t_gen = q->c1q_tree->c1t_gen` (e.g. lines 676-677). -/
def c1_io_txn_set_tree (q : c1_io_queue) : c1_io_queue :=
  { q with c1q_txnbuf :=
    { q.c1q_txnbuf with
      c1t_segno := (q.c1q_tree.map c1_tree.c1t_seqno).getD 0,
      c1t_gen := (q.c1q_tree.map c1_tree.c1t_gen).getD 0 } }

/-- The `struct c1_kvinfo cki = {}` with `cki.ck_kvsz = size` of
`c1_io_txn_commit` and `c1_io_txn_abort`, where `size` is twice the length of
a transaction record, held in a `u32`. -/
def c1_io_txn_cki (reclen : Nat) : c1_kvinfo :=
  { ck_kcnt := 0, ck_vcnt := 0, ck_kvsz := (reclen * 2) % 2 ^ 32 }

/-- The function `c1_issue_iter`. -/
def c1_issue_iter (env : c1_env) (wait : c1 → Option c1) (c : c1)
    (iter : Option kvb_builder_iter) (txnid : Nat) (cki : c1_kvinfo) (sync : Nat)
    (frame : Nat) : Option (merr_t × c1) :=
  if c1_sync_or_flush_command iter = true then
    c1_issue_sync env wait c sync false frame
  else
    match c1_io_queue_get env c with
    | (none, c1) => some (merr ENOMEM, c1)
    | (some q0, c1) =>
      match c1_io_get_tree env c1 cki (c1_issue_iter_fill q0 iter txnid sync) with
      | (err, q, c2) =>
        if err ≠ 0 then
          some (err, c1_io_queue_free c2 q)
        else if c2.c1_io.c1io_err ≠ 0 then
          some (c2.c1_io.c1io_err, c1_io_queue_free c2 q)
        else
          some (0, c1_io_enqueue c2 q)

/-- The function `c1_io_txn_begin`. -/
def c1_io_txn_begin (env : c1_env) (c : c1) (txnid : Nat) (ci : c1_iterinfo) (sync : Nat) :
    Option (merr_t × c1) :=
  match c1_io_queue_get env c with
  | (none, c1) => some (merr ENOMEM, c1)
  | (some q0, c1) =>
    match c1_io_get_tree_txn env c1 ci (c1_io_txn_begin_fill q0 txnid sync) with
    | none => none
    | some (err, q, c2) =>
      if err ≠ 0 then
        some (err, c1_io_queue_free c2 q)
      else if c2.c1_io.c1io_err ≠ 0 then
        some (c2.c1_io.c1io_err, c1_io_queue_free c2 (c1_io_txn_set_tree q))
      else
        some (0, c1_io_enqueue c2 (c1_io_txn_set_tree q))

/-- Lines 703-776 of `c1_io_txn_commit`: everything up to the call of
`c1_issue_sync`.  The third component is `none` when the function has
returned, and holds the local `tree` when the commit record was queued. -/
def c1_io_txn_commit_enqueue (env : c1_env) (c : c1) (txnid ingestid : Nat) (sync : Nat) :
    merr_t × c1 × Option (Option c1_tree) :=
  let c0 := c1_emit c (c1_call.record_type2len c1_rec_type.C1_TYPE_TXN)
  if env.err c0.calls ≠ 0 then
    (env.err c0.calls, c0, none)
  else
    match c1_io_queue_get env c0 with
    | (none, c1) => (merr ENOMEM, c1, none)
    | (some q0, c1) =>
      match c1_io_get_tree env c1 (c1_io_txn_cki (env.reclen c0.calls))
          (c1_io_txn_commit_fill q0 txnid ingestid sync) with
      | (err, q, c2) =>
        if err ≠ 0 then
          (err, c1_io_queue_free c2 q, none)
        else if c2.c1_io.c1io_err ≠ 0 then
          (c2.c1_io.c1io_err, c1_io_queue_free c2 (c1_io_txn_set_tree q), none)
        else
          (0, c1_io_enqueue c2 (c1_io_txn_set_tree q), some q.c1q_tree)

/-- The function `c1_io_txn_abort`. -/
def c1_io_txn_abort (env : c1_env) (c : c1) (txnid : Nat) : merr_t × c1 :=
  let c0 := c1_emit c (c1_call.record_type2len c1_rec_type.C1_TYPE_TXN)
  if env.err c0.calls ≠ 0 then
    (env.err c0.calls, c0)
  else
    match c1_io_queue_get env c0 with
    | (none, c1) => (merr ENOMEM, c1)
    | (some q0, c1) =>
      match c1_io_get_tree env c1 (c1_io_txn_cki (env.reclen c0.calls))
          (c1_io_txn_abort_fill q0 txnid) with
      | (err, q, c2) =>
        let q1 := if err = 0 then c1_io_txn_set_tree q else q
        if err ≠ 0 ∨ c2.c1_io.c1io_err ≠ 0 then
          (if err ≠ 0 then err else c2.c1_io.c1io_err, c1_io_queue_free c2 q1)
        else
          (0, c1_io_enqueue c2 q1)

/-- The preallocated work items `c1io_ioqv[0 .. 60]` in free-pool order. -/
def c1_io_ioqv : List c1_io_queue :=
  (List.range C1_IOQV_NELEM).map (fun i => c1_io_queue_zero (c1q_addr.ioqv i))

/-- The worker structures set up by `c1_io_create` for `threads` workers. -/
def c1_io_workerv_init (threads : Nat) : List c1_io_worker :=
  (List.range threads).map (fun i =>
    { c1w_list := [], c1w_stop := false, c1w_idx := i, qfree := [], nfree := 0, q := none,
      running := true })

/-- Function `c1_io_create` on a `struct c1` with strip size `stripsize` and call log
`calls`: the error returned and, on success, the `struct c1` with its new
engine (on failure `c1->c1_io` is null).  The teardown of a half-built
engine on the error path is not modelled beyond that. -/
def c1_io_create (env : c1_env) (stripsize : Nat) (calls : List c1_call) (threads : Nat) :
    merr_t × Option c1 :=
  let l1 := calls ++ [c1_call.alloc_aligned]
  if (env.alloc l1).isNone then (merr ENOMEM, none) else
  let l2 := l1 ++ [c1_call.alloc_aligned]
  if (env.alloc l2).isNone then (merr ENOMEM, none) else
  let l3 := l2 ++ [c1_call.record_type2len c1_rec_type.C1_TYPE_KVT]
  if env.err l3 ≠ 0 then (env.err l3, none) else
  let l4 := l3 ++ [c1_call.record_type2len c1_rec_type.C1_TYPE_VT]
  if env.err l4 ≠ 0 then (env.err l4, none) else
  let l5 := l4 ++ [c1_call.record_type2len c1_rec_type.C1_TYPE_KVB]
  if env.err l5 ≠ 0 then (env.err l5, none) else
  let l6 := l5 ++ [c1_call.alloc_workqueue threads]
  if (env.alloc l6).isNone then (merr ENOMEM, none) else
  (0, some
    { c1_io :=
        { c1io_kvbmetasz := env.reclen l5 % 2 ^ 32,
          c1io_kmetasz := env.reclen l3 % 2 ^ 32,
          c1io_vmetasz := env.reclen l4 % 2 ^ 32,
          c1io_workerc := threads,
          c1io_err := 0,
          c1io_workerv := c1_io_workerv_init threads,
          c1io_pending := 0,
          c1io_qfree := c1_io_ioqv },
      stripsize := stripsize,
      calls := l6,
      syncdone := [],
      history := [] })

/-- The atomic steps of the engine: the dispatcher operations (with
`c1_issue_sync` and `c1_io_txn_commit` cut at the point where the caller
sleeps) and the passes of the worker loop. -/
inductive c1_op where
  | issue_iter (iter : kvb_builder_iter) (txnid : Nat) (cki : c1_kvinfo) (sync : Nat)
  | issue_sync_enter (sync : Nat) (skip_flush : Bool) (frame : Nat)
  | issue_sync_leave (skip_flush : Bool)
  | txn_begin (txnid : Nat) (ci : c1_iterinfo) (sync : Nat)
  | txn_commit_enqueue (txnid ingestid : Nat) (sync : Nat)
  | txn_commit_refresh (tree : Option c1_tree)
  | txn_abort (txnid : Nat)
  | worker (i : Nat) (fuel : Nat)
  deriving DecidableEq, Repr

/-- The state after one atomic step; `none` when the step cannot be taken
(a worker pass that is `none`). -/
def c1_step (env : c1_env) (c : c1) : c1_op → Option c1
  | c1_op.issue_iter iter txnid cki sync =>
    (c1_issue_iter env (fun _ => none) c (some iter) txnid cki sync 0).map Prod.snd
  | c1_op.issue_sync_enter sync skip_flush frame =>
    match c1_issue_sync_enter c sync skip_flush frame with
    | (c1_sync_entry.log_flush, c1) => some (c1_issue_sync_flush env c1).2
    | (_, c1) => some c1
  | c1_op.issue_sync_leave skip_flush => some (c1_issue_sync_leave env c skip_flush).2
  | c1_op.txn_begin txnid ci sync => (c1_io_txn_begin env c txnid ci sync).map Prod.snd
  | c1_op.txn_commit_enqueue txnid ingestid sync =>
    some (c1_io_txn_commit_enqueue env c txnid ingestid sync).2.1
  | c1_op.txn_commit_refresh tree => some (c1_emit c (c1_call.tree_refresh_space tree))
  | c1_op.txn_abort txnid => some (c1_io_txn_abort env c txnid).2
  | c1_op.worker i fuel => c1_io_worker_step env fuel i c

/-- Run a sequence of atomic steps. -/
def c1_run (env : c1_env) : List c1_op → c1 → Option c1
  | [], c => some c
  | op :: ops, c =>
    match c1_step env c op with
    | none => none
    | some c1 => c1_run env ops c1

/-- The items enqueued on worker `k`, in order, according to the history. -/
def c1_enqueued (k : Nat) : List c1_event → List c1_io_queue
  | [] => []
  | c1_event.enqueue i q :: es => if i = k then q :: c1_enqueued k es else c1_enqueued k es
  | c1_event.pop _ _ :: es => c1_enqueued k es

/-- The items popped by worker `k`, in order, according to the history. -/
def c1_popped (k : Nat) : List c1_event → List c1_io_queue
  | [] => []
  | c1_event.pop i q :: es => if i = k then q :: c1_popped k es else c1_popped k es
  | c1_event.enqueue _ _ :: es => c1_popped k es

/-- The calls made on the dispatcher side (allocation, record sizes, tree
lookup, reservation, rollover, space refresh), as opposed to the writes, the
flush and the iterator calls. -/
def c1_call_dispatch : c1_call → Bool
  | c1_call.tree_issue_txn _ _ _ _ _ => false
  | c1_call.tree_issue_kvb _ _ _ _ _ _ _ _ _ => false
  | c1_call.tree_flush _ => false
  | c1_call.iter_get_next _ => false
  | c1_call.iter_put _ => false
  | _ => true

/-- The call is a `c1_tree_flush`. -/
def c1_call_is_flush : c1_call → Bool
  | c1_call.tree_flush _ => true
  | _ => false

/-- Two states agree on the pending count, the workers, the latched error
and the history; the second publishes no fence that the first does not; they
may differ in the free pool, and the call log of the second extends that of
the first by dispatcher-side calls only. -/
def c1_queues_eq (c c1 : c1) : Prop :=
  c1.c1_io.c1io_pending = c.c1_io.c1io_pending ∧
  c1.c1_io.c1io_workerv = c.c1_io.c1io_workerv ∧
  c1.c1_io.c1io_err = c.c1_io.c1io_err ∧
  c1.c1_io.c1io_workerc = c.c1_io.c1io_workerc ∧
  (∀ a ∈ c1.syncdone, a ∈ c.syncdone) ∧
  c1.history = c.history ∧
  ∃ extra, c1.calls = c.calls ++ extra ∧ ∀ x ∈ extra, c1_call_dispatch x = true

/-- State `c1` results from `c` by queueing one work item (and possibly by
changes to the free pool and the call log): the item goes to a worker index
chosen by a reservation, or it is a fence, which goes to worker 0 and is only
queued while the pending count is not zero. -/
def c1_enqueued_by (env : c1_env) (c c1 : c1) : Prop :=
  ∃ c0 q, c1_queues_eq c c0 ∧ c1 = c1_io_enqueue c0 q ∧
    ((∃ calls, q.c1q_idx = (env.reserve_out calls).1) ∨
     (q.c1q_idx = 0 ∧ c.c1_io.c1io_pending ≠ 0))

/-- The queue invariant of an engine with `n` workers none of which has been
told to stop: the pending count is the number of queued items as a 32-bit
`int`, and for every worker the items popped so far followed by the items
still queued are the items enqueued so far, in that order. -/
def c1_queue_inv (n : Nat) (c : c1) : Prop :=
  c.c1_io.c1io_workerv.length = n ∧
  (∀ w ∈ c.c1_io.c1io_workerv, w.c1w_stop = false) ∧
  c.c1_io.c1io_pending = atomic_wrap (c1io_fifo_total c.c1_io.c1io_workerv : Int) ∧
  ∀ k, c1_popped k c.history ++ c1io_fifo c.c1_io.c1io_workerv k = c1_enqueued k c.history

/-! ### Concrete collaborators used in the examples -/

/-- The errno of an I/O error. -/
def EIO_ERRNO : Nat := 5

/-- The errno `ENOSPC`. -/
def ENOSPC : Nat := 28

/-- A tree, an iterator and a bundle for the examples. -/
def c1_demo_tree : c1_tree := { c1t_seqno := 3, c1t_gen := 1 }

/-- The iterator of the examples. -/
def c1_demo_iter : kvb_builder_iter := { addr := 100, kvbi_ingestid := 9, kvbi_vsize := 64 }

/-- The bundle of the examples. -/
def c1_demo_kvb : c1_kvbundle := { addr := 200 }

/-- Number of `get_next` calls in a call log. -/
def c1_count_get_next : List c1_call → Nat
  | [] => 0
  | c1_call.iter_get_next _ :: cs => c1_count_get_next cs + 1
  | _ :: cs => c1_count_get_next cs

/-- Collaborators that never fail: every call returns success, reservations
choose worker 0, and every iterator yields one bundle and then the null
bundle. -/
def c1_env_ok : c1_env :=
  { err := fun _ => 0,
    current_tree := fun _ => c1_demo_tree,
    reserve_out := fun calls => (0, calls.length),
    reclen := fun _ => 16,
    next_kvb := fun calls => if c1_count_get_next calls = 1 then some c1_demo_kvb else none,
    alloc := fun calls => some calls.length }

/-- As `c1_env_ok`, but every `c1_tree_issue_kvb` fails with `EIO`. -/
def c1_env_kvb_fails : c1_env :=
  { c1_env_ok with
    err := fun calls =>
      match calls.getLast? with
      | some (c1_call.tree_issue_kvb _ _ _ _ _ _ _ _ _) => EIO_ERRNO
      | _ => 0 }

/-- As `c1_env_ok`, but every `c1_tree_reserve_space` fails with `ENOSPC`. -/
def c1_env_reserve_fails : c1_env :=
  { c1_env_ok with
    err := fun calls =>
      match calls.getLast? with
      | some (c1_call.tree_reserve_space _ _ _) => ENOSPC
      | _ => 0 }

/-- A freshly created engine with one worker (strip size 4096). -/
def c1_demo_fresh (env : c1_env) : Option c1 :=
  (c1_io_create env 4096 [] 1).2

/-- The `kv_info` of the examples. -/
def c1_demo_cki : c1_kvinfo := { ck_kcnt := 1, ck_vcnt := 1, ck_kvsz := 100 }

/-- The fresh one-worker engine with collaborators that never fail. -/
def c1_demo_c0 : c1 :=
  (c1_demo_fresh c1_env_ok).get (by decide)

/-- The fresh one-worker engine whose tree reservations all fail. -/
def c1_demo_c0_nospace : c1 :=
  (c1_demo_fresh c1_env_reserve_fails).get (by decide)

/-- The run of scenario 5 of the spec: on a fresh one-worker engine an
`issue_iter` is queued and the worker pumps it; `c1_tree_issue_kvb` fails
with an I/O error, which the worker latches. -/
def c1_demo_latched_run : Option c1 :=
  match c1_demo_fresh c1_env_kvb_fails with
  | none => none
  | some c0 =>
    c1_run c1_env_kvb_fails
      [c1_op.issue_iter c1_demo_iter 7 c1_demo_cki C1_INGEST_ASYNC, c1_op.worker 0 2] c0

/-- The state reached by `c1_demo_latched_run`: the I/O error is latched and
nothing is pending. -/
def c1_demo_latched : c1 :=
  c1_demo_latched_run.get (by decide)

/-- A run on the fresh one-worker engine: a transaction is begun, a batch is
queued, the worker takes two items, the commit record and a fence are queued
and the worker takes one more item. -/
def c1_demo_ops : List c1_op :=
  [c1_op.txn_begin 42 { ci_total := c1_demo_cki } C1_INGEST_SYNC,
   c1_op.issue_iter c1_demo_iter 42 c1_demo_cki C1_INGEST_SYNC,
   c1_op.worker 0 2,
   c1_op.worker 0 2,
   c1_op.txn_commit_enqueue 42 99 C1_INGEST_SYNC,
   c1_op.issue_sync_enter C1_INGEST_SYNC true 1,
   c1_op.worker 0 2]

/-- The state reached by `c1_demo_ops`. -/
def c1_demo_mid : c1 :=
  (c1_run c1_env_ok c1_demo_ops c1_demo_c0).get (by decide)

/-- The `c1_tree_issue_txn` call by which a worker writes the record of the
transaction-record item `q` (line 139). -/
def c1_txn_write (q : c1_io_queue) : c1_call :=
  c1_call.tree_issue_txn q.c1q_tree q.c1q_idx q.c1q_mutation q.c1q_txnbuf q.c1q_sync

/-- The `c1_tree_issue_kvb` call by which the pump writes bundle `kvb` of the
kvb-iter item `q` with iterator `iter` (line 487). -/
def c1_kvb_write (q : c1_io_queue) (iter : kvb_builder_iter) (kvb : c1_kvbundle) : c1_call :=
  c1_call.tree_issue_kvb q.c1q_tree iter.kvbi_ingestid iter.kvbi_vsize q.c1q_idx q.c1q_txnid
    q.c1q_mutation kvb q.c1q_sync q.c1q_idx

/-- The call is a `c1_tree_issue_kvb`. -/
def c1_call_is_issue_kvb : c1_call → Bool
  | c1_call.tree_issue_kvb _ _ _ _ _ _ _ _ _ => true
  | _ => false

/-- The call is an `iter->put`. -/
def c1_call_is_iter_put : c1_call → Bool
  | c1_call.iter_put _ => true
  | _ => false

/-- The calls made by the pump of item `q` while it writes the bundles `bs`
one after the other: for each bundle a `get_next` and then the
`c1_tree_issue_kvb` of the bundle that `get_next` stored. -/
def c1_pump_calls (q : c1_io_queue) (iter : kvb_builder_iter) : List c1_kvbundle → List c1_call
  | [] => []
  | b :: bs => c1_call.iter_get_next iter :: c1_kvb_write q iter b :: c1_pump_calls q iter bs

/-- How the pump leaves its loop: `get_next` stores a null bundle and reports
no error; `get_next` fails with `err`; or `get_next` stores the bundle `kvb`
and the write of that bundle fails with `err`. -/
inductive c1_pump_end where
  | eos
  | get_next_fails (err : merr_t)
  | write_fails (kvb : c1_kvbundle) (err : merr_t)
  deriving DecidableEq, Repr

/-- The calls made by the last pass of the pump. -/
def c1_pump_end_calls (q : c1_io_queue) (iter : kvb_builder_iter) : c1_pump_end → List c1_call
  | c1_pump_end.eos => [c1_call.iter_get_next iter, c1_call.iter_put iter]
  | c1_pump_end.get_next_fails _ => [c1_call.iter_get_next iter, c1_call.iter_put iter]
  | c1_pump_end.write_fails kvb _ =>
    [c1_call.iter_get_next iter, c1_kvb_write q iter kvb, c1_call.iter_put iter]

/-- The value of `err` when the pump leaves its loop. -/
def c1_pump_end_err : c1_pump_end → merr_t
  | c1_pump_end.eos => 0
  | c1_pump_end.get_next_fails err => err
  | c1_pump_end.write_fails _ err => err

/-- The answers of the iterator and of the tree to the pump of item `q`
started on the call log `l`: `get_next` yields the bundles `bs` one after the
other without error, the write of each of them succeeds, and then the pump
ends as `e` says. -/
def c1_pump_script (env : c1_env) (q : c1_io_queue) (iter : kvb_builder_iter)
    (e : c1_pump_end) : List c1_call → List c1_kvbundle → Prop
  | l, [] =>
    match e with
    | c1_pump_end.eos =>
      env.err (l ++ [c1_call.iter_get_next iter]) = 0 ∧
      env.next_kvb (l ++ [c1_call.iter_get_next iter]) = none
    | c1_pump_end.get_next_fails err =>
      err ≠ 0 ∧ env.err (l ++ [c1_call.iter_get_next iter]) = err
    | c1_pump_end.write_fails kvb err =>
      err ≠ 0 ∧
      env.err (l ++ [c1_call.iter_get_next iter]) = 0 ∧
      env.next_kvb (l ++ [c1_call.iter_get_next iter]) = some kvb ∧
      env.err (l ++ [c1_call.iter_get_next iter] ++ [c1_kvb_write q iter kvb]) = err
  | l, b :: bs =>
    env.err (l ++ [c1_call.iter_get_next iter]) = 0 ∧
    env.next_kvb (l ++ [c1_call.iter_get_next iter]) = some b ∧
    env.err (l ++ [c1_call.iter_get_next iter] ++ [c1_kvb_write q iter b]) = 0 ∧
    c1_pump_script env q iter e (l ++ [c1_call.iter_get_next iter] ++ [c1_kvb_write q iter b]) bs

/-- A second bundle for the examples. -/
def c1_demo_kvb2 : c1_kvbundle := { addr := 201 }

/-- An iterator that yields two bundles and then the null bundle, with a
tree that accepts every write. -/
def c1_env_two_bundles : c1_env :=
  { c1_env_ok with
    next_kvb := fun calls =>
      if c1_count_get_next calls = 1 then some c1_demo_kvb
      else if c1_count_get_next calls = 2 then some c1_demo_kvb2
      else none }

/-- A kvb-iter work item of the examples: transaction 7, worker 0. -/
def c1_demo_item : c1_io_queue :=
  { c1_io_queue_zero (c1q_addr.ioqv 0) with
    c1q_tree := some c1_demo_tree, c1q_iter := some c1_demo_iter, c1q_txnid := 7,
    c1q_mutation := 11, c1q_idx := 0, c1q_sync := C1_INGEST_ASYNC }

/-- The bundle whose write the last pass of the pump attempts, if any. -/
def c1_pump_end_bundle : c1_pump_end → List c1_kvbundle
  | c1_pump_end.write_fails kvb _ => [kvb]
  | _ => []

/-! ### Tree reservation: the calls that count passes and rollovers -/

/-- The call is a `c1_current_tree`: `c1_io_get_tree_txn` makes one at the head
of each pass of its loop. -/
def c1_call_is_current_tree : c1_call → Bool
  | c1_call.current_tree => true
  | _ => false

/-- The call is a `c1_tree_reserve_space_txn`. -/
def c1_call_is_reserve_txn : c1_call → Bool
  | c1_call.tree_reserve_space_txn _ _ => true
  | _ => false

/-- The call is a `c1_tree_get_complete`: `c1_io_next_tree` makes one at its
head, and nothing else in `c1_io.c` makes any. -/
def c1_call_is_get_complete : c1_call → Bool
  | c1_call.tree_get_complete _ => true
  | _ => false

/-- The call is a `c1_mark_tree_complete`. -/
def c1_call_is_mark_complete : c1_call → Bool
  | c1_call.mark_tree_complete _ => true
  | _ => false

/-- The call is a `c1_next_tree`, which allocates the next tree. -/
def c1_call_is_next_tree : c1_call → Bool
  | c1_call.next_tree => true
  | _ => false

/-- The call is a `c1_tree_reserve_space` or a `c1_tree_reserve_space_iter`. -/
def c1_call_is_reserve : c1_call → Bool
  | c1_call.tree_reserve_space _ _ _ => true
  | c1_call.tree_reserve_space_iter _ _ _ _ _ _ => true
  | _ => false

/-- A second tree for the examples: the tree that is current after a
rollover. -/
def c1_demo_tree2 : c1_tree := { c1t_seqno := 4, c1t_gen := 1 }

/-- As `c1_env_ok`, but every `c1_tree_reserve_space_txn` fails with `ENOMEM`,
and the current tree is `c1_demo_tree2` once `c1_next_tree` has been called. -/
def c1_env_txn_nomem : c1_env :=
  { c1_env_ok with
    err := fun calls =>
      match calls.getLast? with
      | some (c1_call.tree_reserve_space_txn _ _) => merr ENOMEM
      | _ => 0,
    current_tree := fun calls =>
      if calls.countP c1_call_is_next_tree = 0 then c1_demo_tree else c1_demo_tree2 }

/-- As `c1_env_txn_nomem`, but `c1_tree_reserve_space_txn` only fails on the
tree that is current before the rollover. -/
def c1_env_txn_nomem_once : c1_env :=
  { c1_env_txn_nomem with
    err := fun calls =>
      match calls.getLast? with
      | some (c1_call.tree_reserve_space_txn _ _) =>
        if calls.countP c1_call_is_next_tree = 0 then merr ENOMEM else 0
      | _ => 0 }

/-- The `iter_info` of the examples. -/
def c1_demo_ci : c1_iterinfo := { ci_total := c1_demo_cki }

/-- The size passed to `c1_tree_reserve_space_txn` in the examples: the
encoded size of `c1_demo_ci` on the fresh engine plus two records of the
length the oracle of the examples reports. -/
def c1_demo_txn_size : Nat := u64_add (c1_io_encoded_size c1_demo_c0 c1_demo_cki) 32

/-- As `c1_env_ok`, but `c1_tree_reserve_space_iter` fails with an I/O error
(not `ENOMEM`) on the tree that is current before the rollover; the current
tree is `c1_demo_tree2` once `c1_next_tree` has been called. -/
def c1_env_iter_fails_once : c1_env :=
  { c1_env_txn_nomem with
    err := fun calls =>
      match calls.getLast? with
      | some (c1_call.tree_reserve_space_iter _ _ _ _ _ _) =>
        if calls.countP c1_call_is_next_tree = 0 then merr EIO_ERRNO else 0
      | _ => 0 }

/-- As `c1_env_ok`, but every `c1_tree_issue_txn` fails with an I/O error. -/
def c1_env_txn_write_fails : c1_env :=
  { c1_env_ok with
    err := fun calls =>
      match calls.getLast? with
      | some (c1_call.tree_issue_txn _ _ _ _ _) => merr EIO_ERRNO
      | _ => 0 }

/-- A transaction-record work item of the examples: the begin record of
transaction 42, worker 0. -/
def c1_demo_txn_item : c1_io_queue :=
  c1_io_txn_set_tree
    { c1_io_txn_begin_fill (c1_io_queue_zero (c1q_addr.ioqv 1)) 42 C1_INGEST_SYNC with
      c1q_tree := some c1_demo_tree, c1q_mutation := 12, c1q_idx := 0 }

/-- Two workers interleaved.  Worker A has popped the kvb-iter item
`c1_demo_item` and found no error latched at line 162, so it is about to call
`c1_io_iter_kvbtxn`.  Before it does, worker B processes the
transaction-record item `c1_demo_txn_item`, whose write fails and is latched.
Then worker A runs the pump, whose iterator yields one bundle and then the
null bundle without error.  The result lists the latched error before worker
B's item, after it, and after worker A's pump. -/
def c1_demo_race : Option (merr_t × merr_t × merr_t) :=
  match c1_io_worker_process c1_env_txn_write_fails 0 c1_demo_c0 c1_demo_txn_item with
  | none => none
  | some (cb, _) =>
    match c1_io_iter_kvbtxn c1_env_txn_write_fails c1_demo_iter c1_demo_item 2 cb with
    | none => none
    | some cc => some (c1_demo_c0.c1_io.c1io_err, cb.c1_io.c1io_err, cc.c1_io.c1io_err)

/-- A run that leaves a backlog behind a latched error: on a fresh
one-worker engine whose tree fails every `c1_tree_issue_kvb`, a batch, a
transaction begin and a second batch are queued, and then the worker pumps
the first batch, whose write fails. -/
def c1_demo_backlog_run : Option c1 :=
  match c1_demo_fresh c1_env_kvb_fails with
  | none => none
  | some c0 =>
    c1_run c1_env_kvb_fails
      [c1_op.issue_iter c1_demo_iter 7 c1_demo_cki C1_INGEST_ASYNC,
       c1_op.txn_begin 42 { ci_total := c1_demo_cki } C1_INGEST_SYNC,
       c1_op.issue_iter c1_demo_iter 42 c1_demo_cki C1_INGEST_SYNC,
       c1_op.worker 0 2] c0

/-- The state reached by `c1_demo_backlog_run`: the I/O error is latched, and
the transaction-record item and the second kvb-iter item are still queued. -/
def c1_demo_backlog : c1 :=
  c1_demo_backlog_run.get (by decide)

/-- The state after one more pass of the worker on `c1_demo_backlog`: only
the second kvb-iter item is still queued. -/
def c1_demo_backlog2 : c1 :=
  (c1_io_worker_step c1_env_kvb_fails 2 0 c1_demo_backlog).get (by decide)

/-! ### A fence behind a latched error -/

/-- With no elapsed time and a conversion that maps a zero interval to zero
tokens, refilling leaves a 64-bit balance as it is. -/
theorem tbkti_balance_no_elapsed (fp : Nat → Nat → Nat) (hfp : ∀ r, fp r 0 = 0)
    (self : tbkt) (hbal : self.tb_balance < 2 ^ 64) :
    tbkti_balance fp self self.tb_refill_time = self.tb_balance := by
  unfold tbkti_balance
  have h1 : ¬ (self.tb_refill_time > self.tb_refill_time) := lt_irrefl _
  have h2 : ¬ (0 > self.tb_dt_max) := Nat.not_lt_zero _
  have h3 : ¬ (0 > u64_sub self.tb_burst self.tb_balance) := Nat.not_lt_zero _
  simp only [h1, if_false, Nat.sub_self, h2, hfp, Nat.zero_mod, h3, u64_add, Nat.add_zero]
  exact Nat.mod_eq_of_lt hbal

/-- One request of at most the current credit, made with no elapsed time:
no delay, and the credit goes down by the request. -/
theorem tbkt_request_within_credit (fp : Nat → Nat → Nat) (hfp : ∀ r, fp r 0 = 0)
    (self : tbkt) (n : Nat) (hburst : self.tb_burst < 2 ^ 64) (hrate : 0 < self.tb_rate)
    (hcredit : self.tb_balance ≤ self.tb_burst) (hn : n ≤ self.tb_balance) :
    (tbkt_request fp self n self.tb_refill_time).2 = 0 ∧
    (tbkt_request fp self n self.tb_refill_time).1.tb_balance = self.tb_balance - n ∧
    (tbkt_request fp self n self.tb_refill_time).1.tb_burst = self.tb_burst ∧
    (tbkt_request fp self n self.tb_refill_time).1.tb_rate = self.tb_rate ∧
    (tbkt_request fp self n self.tb_refill_time).1.tb_refill_time = self.tb_refill_time := by
  unfold tbkt_request
  by_cases h0 : n = 0
  · simp [h0]
  · have hr : self.tb_rate ≠ 0 := by omega
    have hne : ¬ (n = 0 ∨ self.tb_rate = 0) := by simp [h0, hr]
    rw [if_neg hne]
    have hb := tbkti_balance_no_elapsed fp hfp
      { self with tb_requests := u64_add self.tb_requests 1 } (by show self.tb_balance < 2 ^ 64; omega)
    simp only [tbkti_refill]
    simp only [] at hb
    rw [hb]
    have hmax : ¬ (n > u64_sub (u64_sub self.tb_balance self.tb_burst) 1) := by
      unfold u64_sub; omega
    rw [if_neg hmax]
    have hsub : u64_sub self.tb_balance n = self.tb_balance - n := by
      unfold u64_sub; omega
    simp only [hsub, tbkti_status, tbkti_in_debt]
    have hnd : ¬ (self.tb_balance - n > self.tb_burst) := by omega
    simp [hnd]

/-- A run of requests whose sum is at most the current credit, all made with
no elapsed time, yields only zero delays. -/
theorem tbkt_request_seq_within_credit (fp : Nat → Nat → Nat) (hfp : ∀ r, fp r 0 = 0)
    (now : Nat) (ns : List Nat) :
    ∀ self : tbkt, self.tb_refill_time = now → self.tb_burst < 2 ^ 64 → 0 < self.tb_rate →
      self.tb_balance ≤ self.tb_burst → ns.sum ≤ self.tb_balance →
      (tbkt_request_seq fp now self ns).2 = List.replicate ns.length 0 := by
  induction ns with
  | nil => intro self _ _ _ _ _; rfl
  | cons n ns ih =>
    intro self hnow hburst hrate hcredit hsum
    simp only [List.sum_cons] at hsum
    have hstep := tbkt_request_within_credit fp hfp self n hburst hrate hcredit (by omega)
    rw [hnow] at hstep
    obtain ⟨hd, hbal, hbu, hra, hre⟩ := hstep
    simp only [tbkt_request_seq, List.length_cons, List.replicate_succ, hd]
    congr 1
    apply ih
    · exact hre
    · rw [hbu]; exact hburst
    · rw [hra]; exact hrate
    · rw [hbal, hbu]; omega
    · rw [hbal]; omega

theorem tbkt_init_fields (burst rate now : Nat) :
    (tbkt_init burst rate now).tb_burst = burst ∧
    (tbkt_init burst rate now).tb_rate = rate ∧
    (tbkt_init burst rate now).tb_balance = burst ∧
    (tbkt_init burst rate now).tb_refill_time = now := by
  unfold tbkt_init tbkti_init tbkti_rate_set tbkti_burst_set
  refine ⟨?_, ?_, rfl, rfl⟩
  · simp only []
    split_ifs <;> rfl
  · rfl

/-- An overdrawing request on a full bucket with no elapsed time, computed
in full. -/
theorem tbkt_request_overdraw (fp : Nat → Nat → Nat) (hfp : ∀ r, fp r 0 = 0)
    (self : tbkt) (k : Nat) (hfull : self.tb_balance = self.tb_burst)
    (hrate : 0 < self.tb_rate) (hk : 0 < k) (hbk : self.tb_burst + k < 2 ^ 64) :
    tbkt_request fp self (self.tb_burst + k) self.tb_refill_time
      = ({ self with tb_requests := u64_add self.tb_requests 1, tb_balance := 2 ^ 64 - k },
         u64_mul k NSEC_PER_SEC / self.tb_rate) := by
  unfold tbkt_request
  have hne : ¬ (self.tb_burst + k = 0 ∨ self.tb_rate = 0) := by omega
  rw [if_neg hne]
  have hb := tbkti_balance_no_elapsed fp hfp
    { self with tb_requests := u64_add self.tb_requests 1 } (by show self.tb_balance < 2 ^ 64; omega)
  simp only [tbkti_refill]
  simp only [] at hb
  rw [hb, hfull]
  have hmax : ¬ (self.tb_burst + k > u64_sub (u64_sub self.tb_burst self.tb_burst) 1) := by
    unfold u64_sub; omega
  have hsub : u64_sub self.tb_burst (self.tb_burst + k) = 2 ^ 64 - k := by
    unfold u64_sub; omega
  have hd : 2 ^ 64 - k > self.tb_burst := by omega
  have ha : u64_add (u64_sub U64_MAX (2 ^ 64 - k)) 1 = k := by
    unfold u64_add u64_sub U64_MAX; omega
  rw [if_neg hmax, hsub]
  simp only [tbkti_status, tbkti_in_debt, hd, decide_True, if_true, ha]

theorem tbkt_init_eq (burst rate now : Nat) :
    tbkt_init burst rate now =
      { tb_burst := burst, tb_rate := rate, tb_balance := burst, tb_refill_time := now,
        tb_dt_max := if rate ≠ 0 then U64_MAX / rate else U64_MAX, tb_requests := 0 } := by
  unfold tbkt_init tbkti_init tbkti_rate_set tbkti_burst_set
  simp only []
  split_ifs <;> rfl

/-- The burst and the balance that `tbkti_burst_set` leaves behind. -/
theorem tbkti_burst_set_fields (self : tbkt) (burst : Nat) :
    (tbkti_burst_set self burst).tb_burst = burst ∧
    (tbkti_burst_set self burst).tb_balance =
      if self.tb_balance > self.tb_burst ∧ ¬ self.tb_balance > burst then u64_add burst 1
      else if ¬ self.tb_balance > self.tb_burst ∧ self.tb_balance > burst then burst
      else self.tb_balance := by
  unfold tbkti_burst_set
  simp only [tbkti_in_debt]
  by_cases h1 : self.tb_balance > self.tb_burst <;> by_cases h2 : self.tb_balance > burst <;>
    simp [h1, h2]

theorem tbkti_burst_set_refill_time (self : tbkt) (burst : Nat) :
    (tbkti_burst_set self burst).tb_refill_time = self.tb_refill_time := by
  unfold tbkti_burst_set
  simp only []
  split_ifs <;> rfl

/-! ## Token bucket: claims -/

/-- C1: for every 64-bit burst and every rate > 0, a run of `tbkt_request`
calls whose sizes sum to at most `burst`, made right after `tbkt_init` while
the clock still reads the init timestamp, returns 0 from every call. -/
theorem C1_requests_within_burst_return_zero (fp : Nat → Nat → Nat)
    (hfp : ∀ r, fp r 0 = 0) (burst rate now : Nat) (ns : List Nat)
    (hburst : burst ≤ U64_MAX) (hrate : 0 < rate) (hsum : ns.sum ≤ burst) :
    (tbkt_request_seq fp now (tbkt_init burst rate now) ns).2
      = List.replicate ns.length 0 := by
  obtain ⟨hbu, hra, hbal, hre⟩ := tbkt_init_fields burst rate now
  apply tbkt_request_seq_within_credit fp hfp now ns
  · exact hre
  · rw [hbu]; unfold U64_MAX at hburst; omega
  · rw [hra]; exact hrate
  · rw [hbal, hbu]
  · rw [hbal]; exact hsum

/-- C1 witness: burst 10, rate 3, requests 4, 0, 5, 1 at time 7. -/
theorem C1_requests_within_burst_return_zero_witness :
    (tbkt_request_seq (fun r dt => r * dt / 1000000000) 7 (tbkt_init 10 3 7) [4, 0, 5, 1]).2
      = List.replicate [4, 0, 5, 1].length 0 :=
  C1_requests_within_burst_return_zero (fun r dt => r * dt / 1000000000)
    (by intro r; simp) 10 3 7 [4, 0, 5, 1] (by decide) (by decide) (by decide)

/-- C2: after `tbkt_init(burst, rate)` with rate > 0, a `tbkt_request(burst + k)`
with k > 0, `burst + k < 2^64` and `k * 10^9 < 2^64`, made with no elapsed
time, leaves the balance at `2^64 - k` (a debt of exactly `k`) and returns
`k * 10^9 / rate`; a following `tbkt_request(0)` returns 0 and leaves the
bucket, and so the debt, unchanged. -/
theorem C2_overdraw_debt_and_delay (fp : Nat → Nat → Nat) (hfp : ∀ r, fp r 0 = 0)
    (burst rate k now : Nat) (hrate : 0 < rate) (hk : 0 < k)
    (hbk : burst + k < 2 ^ 64) (hkn : k * 10 ^ 9 < 2 ^ 64) :
    (tbkt_request fp (tbkt_init burst rate now) (burst + k) now).1.tb_balance = 2 ^ 64 - k ∧
    tbkti_status (tbkt_request fp (tbkt_init burst rate now) (burst + k) now).1 = (true, k) ∧
    (tbkt_request fp (tbkt_init burst rate now) (burst + k) now).2 = k * 10 ^ 9 / rate ∧
    tbkt_request fp (tbkt_request fp (tbkt_init burst rate now) (burst + k) now).1 0 now
      = ((tbkt_request fp (tbkt_init burst rate now) (burst + k) now).1, 0) := by
  have hlast : ∀ s : tbkt, tbkt_request fp s 0 now = (s, 0) := by
    intro s; simp [tbkt_request]
  have hreq := tbkt_request_overdraw fp hfp (tbkt_init burst rate now) k
  rw [tbkt_init_eq] at hreq ⊢
  have hreq2 := hreq rfl hrate hk hbk
  simp only [] at hreq2
  have hmul : u64_mul k NSEC_PER_SEC = k * 10 ^ 9 := by
    unfold u64_mul NSEC_PER_SEC
    exact Nat.mod_eq_of_lt (by omega)
  have hd : 2 ^ 64 - k > burst := by omega
  have ha : u64_add (u64_sub U64_MAX (2 ^ 64 - k)) 1 = k := by
    unfold u64_add u64_sub U64_MAX; omega
  refine ⟨?_, ?_, ?_, hlast _⟩
  · rw [hreq2]
  · rw [hreq2]
    simp only [tbkti_status, tbkti_in_debt, hd, decide_True, if_true, ha]
  · rw [hreq2, hmul]

/-- C2 witness: burst 1000, rate 1000, overdraw by 500 at time 5. -/
theorem C2_overdraw_debt_and_delay_witness :
    (tbkt_request (fun r dt => r * dt / 1000000000) (tbkt_init 1000 1000 5) (1000 + 500) 5).1.tb_balance
      = 2 ^ 64 - 500 ∧
    tbkti_status (tbkt_request (fun r dt => r * dt / 1000000000) (tbkt_init 1000 1000 5)
      (1000 + 500) 5).1 = (true, 500) ∧
    (tbkt_request (fun r dt => r * dt / 1000000000) (tbkt_init 1000 1000 5) (1000 + 500) 5).2
      = 500 * 10 ^ 9 / 1000 ∧
    tbkt_request (fun r dt => r * dt / 1000000000)
      (tbkt_request (fun r dt => r * dt / 1000000000) (tbkt_init 1000 1000 5) (1000 + 500) 5).1 0 5
      = ((tbkt_request (fun r dt => r * dt / 1000000000) (tbkt_init 1000 1000 5) (1000 + 500) 5).1, 0) :=
  C2_overdraw_debt_and_delay (fun r dt => r * dt / 1000000000) (by intro r; simp)
    1000 1000 500 5 (by decide) (by decide) (by decide) (by decide)

/-- C3 (as stated) fails: a bucket with burst 3 that was overdrawn by 2 is in
debt; raising the burst to `U64_MAX` snaps the balance to `U64_MAX + 1 = 0`,
so the bucket is no longer in debt, under `tbkti_burst_set` and under
`tbkt_adjust` with no elapsed time alike. -/
theorem C3_counterexample :
    tbkti_in_debt (tbkt_request (fun r dt => r * dt / 1000000000) (tbkt_init 3 1 0) 5 0).1 = true ∧
    tbkti_in_debt (tbkti_burst_set
      (tbkt_request (fun r dt => r * dt / 1000000000) (tbkt_init 3 1 0) 5 0).1 U64_MAX) = false ∧
    tbkti_in_debt (tbkt_adjust (fun r dt => r * dt / 1000000000)
      (tbkt_request (fun r dt => r * dt / 1000000000) (tbkt_init 3 1 0) 5 0).1 U64_MAX 1 0) = false := by
  decide

/-- C3 (amended): for every 64-bit balance, every old burst and every 64-bit
new burst, `tbkti_burst_set`, and likewise `tbkt_adjust` with no elapsed time
since the last refill, leaves the bucket in debt exactly when it was in debt
before and the new burst is not `U64_MAX`; a bucket in credit stays in
credit. -/
theorem C3_burst_set_debt_class (fp : Nat → Nat → Nat) (hfp : ∀ r, fp r 0 = 0) (self : tbkt)
    (burst rate : Nat) (hbal : self.tb_balance ≤ U64_MAX) (hb : burst ≤ U64_MAX) :
    tbkti_in_debt (tbkti_burst_set self burst)
      = (tbkti_in_debt self && decide (burst ≠ U64_MAX)) ∧
    tbkti_in_debt (tbkt_adjust fp self burst rate self.tb_refill_time)
      = (tbkti_in_debt self && decide (burst ≠ U64_MAX)) := by
  obtain ⟨hbu, hba⟩ := tbkti_burst_set_fields self burst
  have hrt := tbkti_burst_set_refill_time self burst
  unfold U64_MAX at hb hbal ⊢
  have key : (tbkti_burst_set self burst).tb_balance > burst ↔
      (self.tb_balance > self.tb_burst ∧ burst ≠ 2 ^ 64 - 1) := by
    rw [hba]
    unfold u64_add
    split_ifs <;> omega
  have hlt : (tbkti_burst_set self burst).tb_balance < 2 ^ 64 := by
    rw [hba]
    unfold u64_add
    split_ifs <;> omega
  have hfirst : tbkti_in_debt (tbkti_burst_set self burst)
      = (tbkti_in_debt self && decide (burst ≠ 2 ^ 64 - 1)) := by
    simp only [tbkti_in_debt, hbu]
    rw [Bool.eq_iff_iff]
    simp only [decide_eq_true_eq, Bool.and_eq_true]
    exact key
  refine ⟨hfirst, ?_⟩
  rw [← hfirst]
  have hne := tbkti_balance_no_elapsed fp hfp (tbkti_burst_set self burst) hlt
  rw [hrt] at hne
  simp only [tbkt_adjust, tbkti_rate_set, tbkti_refill, tbkti_in_debt, hne]

/-- C3 witness: a bucket in debt (balance 5, burst 3) stays in debt when the
burst becomes 10. -/
theorem C3_burst_set_debt_class_witness :
    tbkti_in_debt (tbkti_burst_set (tbkt.mk 3 1 5 0 U64_MAX 0) 10)
      = (tbkti_in_debt (tbkt.mk 3 1 5 0 U64_MAX 0) && decide (10 ≠ U64_MAX)) ∧
    tbkti_in_debt (tbkt_adjust (fun r dt => r * dt / 1000000000) (tbkt.mk 3 1 5 0 U64_MAX 0)
        10 1 (tbkt.mk 3 1 5 0 U64_MAX 0).tb_refill_time)
      = (tbkti_in_debt (tbkt.mk 3 1 5 0 U64_MAX 0) && decide (10 ≠ U64_MAX)) :=
  C3_burst_set_debt_class (fun r dt => r * dt / 1000000000) (by intro r; simp)
    (tbkt.mk 3 1 5 0 U64_MAX 0) 10 1 (by decide) (by decide)

/-- C4: with the semantic value of a bucket read as `+balance` in credit and
`-(2^64 - balance)` in debt, `tbkti_burst_set` on 64-bit values moves the
semantic value by at most `|new_burst - old_burst|`, and leaves it unchanged
when the old and the new burst classify the balance alike (no flip). -/
theorem C4_burst_set_value_bound (self : tbkt) (burst : Nat)
    (hbal : self.tb_balance ≤ U64_MAX) (hold : self.tb_burst ≤ U64_MAX)
    (hnew : burst ≤ U64_MAX) :
    |tbkt_value (tbkti_burst_set self burst) - tbkt_value self|
        ≤ |(burst : Int) - (self.tb_burst : Int)| ∧
    (tbkti_in_debt self = tbkti_in_debt { self with tb_burst := burst } →
      tbkt_value (tbkti_burst_set self burst) = tbkt_value self) := by
  obtain ⟨hbu, hba⟩ := tbkti_burst_set_fields self burst
  unfold U64_MAX at hbal hold hnew
  have hup := le_abs_self ((burst : Int) - (self.tb_burst : Int))
  have hdn := neg_le_abs ((burst : Int) - (self.tb_burst : Int))
  simp only [tbkti_in_debt, tbkt_value, hbu, hba, decide_eq_decide]
  unfold u64_add
  constructor
  · rw [abs_le]
    constructor <;> split_ifs <;> omega
  · intro hsame
    split_ifs <;> omega

/-- C4 witness: balance 5 with burst 3 (a debt); the new burst 4 does not
flip the class, the new burst 10 does. -/
theorem C4_burst_set_value_bound_witness :
    |tbkt_value (tbkti_burst_set (tbkt.mk 3 1 5 0 U64_MAX 0) 10)
        - tbkt_value (tbkt.mk 3 1 5 0 U64_MAX 0)|
        ≤ |((10 : Nat) : Int) - (((tbkt.mk 3 1 5 0 U64_MAX 0).tb_burst : Nat) : Int)| ∧
    tbkt_value (tbkti_burst_set (tbkt.mk 3 1 5 0 U64_MAX 0) 4)
        = tbkt_value (tbkt.mk 3 1 5 0 U64_MAX 0) :=
  ⟨(C4_burst_set_value_bound (tbkt.mk 3 1 5 0 U64_MAX 0) 10
      (by decide) (by decide) (by decide)).1,
   (C4_burst_set_value_bound (tbkt.mk 3 1 5 0 U64_MAX 0) 4
      (by decide) (by decide) (by decide)).2 (by decide)⟩

/-! ## c1 ingest I/O: lemmas -/

theorem atomic_wrap_zero : atomic_wrap 0 = 0 := by
  decide

theorem atomic_inc_wrap (t : Int) : atomic_inc (atomic_wrap t) = atomic_wrap (t + 1) := by
  unfold atomic_inc atomic_wrap
  omega

theorem atomic_dec_wrap (t : Int) : atomic_dec (atomic_wrap t) = atomic_wrap (t - 1) := by
  unfold atomic_dec atomic_wrap
  omega

theorem c1_queues_eq_refl (c : c1) : c1_queues_eq c c :=
  ⟨rfl, rfl, rfl, rfl, fun _ h => h, rfl, [], by simp, by simp⟩

theorem c1_queues_eq_trans {a b c : c1} (h1 : c1_queues_eq a b) (h2 : c1_queues_eq b c) :
    c1_queues_eq a c := by
  obtain ⟨a1, a2, a3, a4, a5, a6, x1, hx1, hp1⟩ := h1
  obtain ⟨b1, b2, b3, b4, b5, b6, x2, hx2, hp2⟩ := h2
  refine ⟨b1.trans a1, b2.trans a2, b3.trans a3, b4.trans a4, fun x hx => a5 x (b5 x hx),
    b6.trans a6, x1 ++ x2, ?_, ?_⟩
  · rw [hx2, hx1, List.append_assoc]
  · intro x hx
    rcases List.mem_append.mp hx with h | h
    · exact hp1 x h
    · exact hp2 x h

theorem c1_emit_queues_eq (c : c1) (call : c1_call) (hd : c1_call_dispatch call = true) :
    c1_queues_eq c (c1_emit c call) :=
  ⟨rfl, rfl, rfl, rfl, fun _ h => h, rfl, [call], rfl, by simpa using hd⟩

theorem c1_io_queue_free_queues_eq (c : c1) (q : c1_io_queue) :
    c1_queues_eq c (c1_io_queue_free c q) := by
  unfold c1_io_queue_free
  split
  · split
    · exact c1_queues_eq_refl c
    · exact c1_emit_queues_eq c _ (by rfl)
  · exact c1_emit_queues_eq c _ (by rfl)

theorem c1_io_queue_get_queues_eq (env : c1_env) (c : c1) :
    c1_queues_eq c (c1_io_queue_get env c).2 := by
  unfold c1_io_queue_get
  split
  · exact ⟨rfl, rfl, rfl, rfl, fun _ h => h, rfl, [], by simp, by simp⟩
  · simp only []
    split <;> exact c1_emit_queues_eq c _ (by rfl)

/-- Two work items agree on everything but the reservation out-parameters
(`c1q_tree`, `c1q_idx`, `c1q_mutation`). -/
theorem c1_tree_reserve_space_spec (env : c1_env) (c : c1) (tree : c1_tree) (size : Nat)
    (q : c1_io_queue) (spare : Bool) :
    c1_queues_eq c (c1_tree_reserve_space env c tree size q spare).2.2 ∧
    (c1_tree_reserve_space env c tree size q spare).2.1 =
      { q with
        c1q_idx := (env.reserve_out
          (c.calls ++ [c1_call.tree_reserve_space tree size spare])).1,
        c1q_mutation := (env.reserve_out
          (c.calls ++ [c1_call.tree_reserve_space tree size spare])).2 } :=
  ⟨c1_emit_queues_eq c _ (by rfl), rfl⟩

/-- The item left by `c1_io_get_tree`: the payload is untouched and, on
success, the worker index is one chosen by a reservation. -/
theorem c1_io_get_tree_spec (env : c1_env) (c : c1) (cki : c1_kvinfo) (q : c1_io_queue) :
    c1_queues_eq c (c1_io_get_tree env c cki q).2.2 ∧
    (∃ t i m, (c1_io_get_tree env c cki q).2.1 =
      { q with c1q_tree := t, c1q_idx := i, c1q_mutation := m } ∧
      ((c1_io_get_tree env c cki q).1 = 0 →
        (∃ calls, i = (env.reserve_out calls).1) ∧ t = some (env.current_tree
          (c.calls ++ [c1_call.current_tree])))) := by
  unfold c1_io_get_tree
  simp only [c1_tree_reserve_space]
  split_ifs with h1 h2
  · exact ⟨c1_queues_eq_trans (c1_emit_queues_eq c _ (by rfl))
      (c1_queues_eq_trans (c1_emit_queues_eq _ _ (by rfl)) (c1_emit_queues_eq _ _ (by rfl))),
      _, _, _, rfl, fun h => absurd h h2⟩
  · exact ⟨c1_queues_eq_trans (c1_emit_queues_eq c _ (by rfl))
      (c1_queues_eq_trans (c1_emit_queues_eq _ _ (by rfl)) (c1_emit_queues_eq _ _ (by rfl))),
      _, _, _, rfl, fun _ => ⟨⟨_, rfl⟩, rfl⟩⟩
  · exact ⟨c1_queues_eq_trans (c1_emit_queues_eq c _ (by rfl)) (c1_emit_queues_eq _ _ (by rfl)),
      _, _, _, rfl, fun _ => ⟨⟨_, rfl⟩, rfl⟩⟩

/-- When every reservation succeeds, so does `c1_io_get_tree`. -/
theorem c1_io_get_tree_ok (env : c1_env) (c : c1) (cki : c1_kvinfo) (q : c1_io_queue)
    (hres : ∀ l tree size spare,
      env.err (l ++ [c1_call.tree_reserve_space tree size spare]) = 0) :
    (c1_io_get_tree env c cki q).1 = 0 := by
  unfold c1_io_get_tree
  simp only [c1_tree_reserve_space, c1_emit, hres, ne_eq, not_true_eq_false, if_false]

theorem c1_io_next_tree_queues_eq (env : c1_env) (c : c1) (cur : c1_tree) :
    c1_queues_eq c (c1_io_next_tree env c cur).2 := by
  unfold c1_io_next_tree
  simp only []
  split_ifs
  · exact c1_queues_eq_trans (c1_emit_queues_eq c _ (by rfl)) (c1_emit_queues_eq _ _ (by rfl))
  · exact c1_queues_eq_trans (c1_emit_queues_eq c _ (by rfl))
      (c1_queues_eq_trans (c1_emit_queues_eq _ _ (by rfl)) (c1_emit_queues_eq _ _ (by rfl)))
  · exact c1_queues_eq_trans (c1_emit_queues_eq c _ (by rfl))
      (c1_queues_eq_trans (c1_emit_queues_eq _ _ (by rfl)) (c1_emit_queues_eq _ _ (by rfl)))

theorem c1_io_get_tree_txn_pass_spec (env : c1_env) (c : c1) (ci : c1_iterinfo)
    (q : c1_io_queue) (txsz recsz : Nat) (retry : Bool) :
    c1_queues_eq c (c1_io_get_tree_txn_pass env c ci q txsz recsz retry).2.2 ∧
    (∃ i m, (c1_io_get_tree_txn_pass env c ci q txsz recsz retry).2.1 =
      { q with c1q_idx := i, c1q_mutation := m } ∧
      (∀ tree, (c1_io_get_tree_txn_pass env c ci q txsz recsz retry).1 = c1_txn_pass.brk tree →
        ∃ calls, i = (env.reserve_out calls).1)) ∧
    (∀ err, (c1_io_get_tree_txn_pass env c ci q txsz recsz retry).1 = c1_txn_pass.ret err →
      err ≠ 0) := by
  unfold c1_io_get_tree_txn_pass
  simp only [c1_tree_reserve_space]
  have e1 := fun c call => c1_emit_queues_eq c call
  have tr := @c1_queues_eq_trans
  split_ifs with h1 h2 h3 h4 h5 h6
  · exact ⟨tr (e1 _ _ (by rfl)) (e1 _ _ (by rfl)), ⟨_, _, rfl, fun t h => by simp at h⟩,
      fun e h => by simp only [c1_txn_pass.ret.injEq] at h; rw [← h]; exact h1.1⟩
  · exact ⟨tr (e1 _ _ (by rfl)) (tr (e1 _ _ (by rfl)) (e1 _ _ (by rfl))), ⟨_, _, rfl, fun t h => by simp at h⟩,
      fun e h => by simp only [c1_txn_pass.ret.injEq] at h; rw [← h]; exact h3.1⟩
  · exact ⟨tr (e1 _ _ (by rfl)) (tr (e1 _ _ (by rfl)) (tr (e1 _ _ (by rfl)) (e1 _ _ (by rfl)))), ⟨_, _, rfl, fun t h => by simp at h⟩,
      fun e h => by simp only [c1_txn_pass.ret.injEq] at h; rw [← h]; exact h5.1⟩
  · exact ⟨tr (e1 _ _ (by rfl)) (tr (e1 _ _ (by rfl)) (tr (e1 _ _ (by rfl)) (e1 _ _ (by rfl)))), ⟨_, _, rfl, fun t _ => ⟨_, rfl⟩⟩,
      fun e h => by simp at h⟩
  · exact ⟨tr (e1 _ _ (by rfl)) (tr (e1 _ _ (by rfl)) (tr (e1 _ _ (by rfl)) (e1 _ _ (by rfl)))), ⟨_, _, rfl, fun t h => by simp at h⟩,
      fun e h => by simp at h⟩
  · exact ⟨tr (e1 _ _ (by rfl)) (tr (e1 _ _ (by rfl)) (e1 _ _ (by rfl))), ⟨_, _, rfl, fun t h => by simp at h⟩,
      fun e h => by simp at h⟩
  · exact ⟨tr (e1 _ _ (by rfl)) (e1 _ _ (by rfl)), ⟨_, _, rfl, fun t h => by simp at h⟩,
      fun e h => by simp at h⟩

theorem c1_io_get_tree_txn_loop_spec (env : c1_env) (ci : c1_iterinfo) (txsz recsz : Nat) :
    ∀ (fuel : Nat) (retry : Bool) (c : c1) (q : c1_io_queue) (r : merr_t × c1_io_queue × c1),
      c1_io_get_tree_txn_loop env ci txsz recsz fuel retry c q = some r →
      c1_queues_eq c r.2.2 ∧
      ∃ t i m, r.2.1 = { q with c1q_tree := t, c1q_idx := i, c1q_mutation := m } ∧
        (r.1 = 0 → ∃ calls, i = (env.reserve_out calls).1) := by
  intro fuel
  induction fuel with
  | zero => intro retry c q r h; simp [c1_io_get_tree_txn_loop] at h
  | succ n ih =>
    intro retry c q r h
    unfold c1_io_get_tree_txn_loop at h
    obtain ⟨hf, ⟨i, m, hq, hbrk⟩, hret⟩ :=
      c1_io_get_tree_txn_pass_spec env c ci q txsz recsz retry
    generalize c1_io_get_tree_txn_pass env c ci q txsz recsz retry = p at h hf hq hbrk hret
    obtain ⟨res, q1, c1⟩ := p
    simp only at hf hq hbrk hret
    subst hq
    cases res with
    | ret err =>
      simp only [Option.some.injEq] at h
      subst h
      exact ⟨hf, _, _, _, rfl, fun h0 => absurd h0 (hret err rfl)⟩
    | brk tree =>
      simp only [Option.some.injEq] at h
      subst h
      exact ⟨hf, _, _, _, rfl, fun _ => hbrk tree rfl⟩
    | fall tree =>
      simp only at h
      split_ifs at h with h1 h2
      · simp only [Option.some.injEq] at h
        subst h
        exact ⟨c1_queues_eq_trans hf (c1_io_next_tree_queues_eq env c1 tree), _, _, _, rfl,
          fun h0 => absurd h0 h2⟩
      · obtain ⟨hf2, t, i2, m2, hq2, hz⟩ := ih true _ _ r h
        exact ⟨c1_queues_eq_trans hf
          (c1_queues_eq_trans (c1_io_next_tree_queues_eq env c1 tree) hf2),
          t, i2, m2, by rw [hq2], hz⟩

theorem c1_io_get_tree_txn_spec (env : c1_env) (c : c1) (ci : c1_iterinfo) (q : c1_io_queue)
    (r : merr_t × c1_io_queue × c1) (h : c1_io_get_tree_txn env c ci q = some r) :
    c1_queues_eq c r.2.2 ∧
    ∃ t i m, r.2.1 = { q with c1q_tree := t, c1q_idx := i, c1q_mutation := m } ∧
      (r.1 = 0 → ∃ calls, i = (env.reserve_out calls).1) := by
  unfold c1_io_get_tree_txn at h
  simp only at h
  split_ifs at h with h1
  · simp only [Option.some.injEq] at h
    subst h
    exact ⟨c1_emit_queues_eq c _ (by rfl), _, _, _, rfl, fun h0 => absurd h0 h1⟩
  · obtain ⟨hf, hrest⟩ := c1_io_get_tree_txn_loop_spec env ci _ _ _ _ _ _ r h
    exact ⟨c1_queues_eq_trans (c1_emit_queues_eq c _ (by rfl)) hf, hrest⟩


/-- What `c1_io_txn_abort` does to the queues: nothing when it fails, one
enqueue when it succeeds; and it fails whenever an error is latched. -/
theorem c1_io_txn_abort_effect (env : c1_env) (c : c1) (txnid : Nat) :
    ((c1_io_txn_abort env c txnid).1 ≠ 0 ∧ c1_queues_eq c (c1_io_txn_abort env c txnid).2) ∨
    ((c1_io_txn_abort env c txnid).1 = 0 ∧ c.c1_io.c1io_err = 0 ∧
      c1_enqueued_by env c (c1_io_txn_abort env c txnid).2) := by
  unfold c1_io_txn_abort
  simp only []
  split_ifs with h0
  · exact Or.inl ⟨h0, c1_emit_queues_eq c _ (by rfl)⟩
  · have hg := c1_io_queue_get_queues_eq env
      (c1_emit c (c1_call.record_type2len c1_rec_type.C1_TYPE_TXN))
    rcases hget : c1_io_queue_get env
      (c1_emit c (c1_call.record_type2len c1_rec_type.C1_TYPE_TXN)) with ⟨_ | q0, c1⟩
    · rw [hget] at hg
      exact Or.inl ⟨(show merr ENOMEM ≠ 0 by decide),
        c1_queues_eq_trans (c1_emit_queues_eq c _ (by rfl)) hg⟩
    · rw [hget] at hg
      simp only []
      have hc1 := c1_queues_eq_trans (c1_emit_queues_eq c _ (by rfl)) hg
      obtain ⟨hf, t, i, m, hq1, hidx⟩ := c1_io_get_tree_spec env c1
        (c1_io_txn_cki (env.reclen (c1_emit c
          (c1_call.record_type2len c1_rec_type.C1_TYPE_TXN)).calls))
        (c1_io_txn_abort_fill q0 txnid)
      rcases hgt : c1_io_get_tree env c1
        (c1_io_txn_cki (env.reclen (c1_emit c
          (c1_call.record_type2len c1_rec_type.C1_TYPE_TXN)).calls))
        (c1_io_txn_abort_fill q0 txnid) with ⟨e, q1, c2⟩
      rw [hgt] at hf hq1 hidx
      simp only at hf hq1 hidx ⊢
      have hc2 := c1_queues_eq_trans hc1 hf
      by_cases he : e = 0
      · by_cases hl : c2.c1_io.c1io_err = 0
        · simp only [he, hl, ne_eq, not_true_eq_false, or_self, if_false, if_true]
          refine Or.inr ⟨trivial, ?_, _, _, hc2, rfl, Or.inl ?_⟩
          · rw [← hc2.2.2.1]; exact hl
          · subst hq1
            exact (hidx he).1
        · simp only [he, hl, ne_eq, not_true_eq_false, not_false_eq_true, false_or, if_false,
            if_true]
          exact Or.inl ⟨trivial, c1_queues_eq_trans hc2 (c1_io_queue_free_queues_eq _ _)⟩
      · simp only [he, ne_eq, not_false_eq_true, true_or, if_false, if_true]
        exact Or.inl ⟨trivial, c1_queues_eq_trans hc2 (c1_io_queue_free_queues_eq _ _)⟩

/-- What `c1_issue_iter` with a non-null iterator does to the queues. -/
theorem c1_issue_iter_effect (env : c1_env) (wait : c1 → Option c1) (c : c1)
    (it : kvb_builder_iter) (txnid : Nat) (cki : c1_kvinfo) (sync frame : Nat) :
    ∃ r, c1_issue_iter env wait c (some it) txnid cki sync frame = some r ∧
      ((r.1 ≠ 0 ∧ c1_queues_eq c r.2) ∨
       (r.1 = 0 ∧ c.c1_io.c1io_err = 0 ∧ c1_enqueued_by env c r.2)) := by
  unfold c1_issue_iter
  have hn : ¬ (c1_sync_or_flush_command (some it) = true) := by
    simp [c1_sync_or_flush_command]
  rw [if_neg hn]
  have hg := c1_io_queue_get_queues_eq env c
  rcases hget : c1_io_queue_get env c with ⟨_ | q0, c1⟩
  · rw [hget] at hg
    exact ⟨_, rfl, Or.inl ⟨(show merr ENOMEM ≠ 0 by decide), hg⟩⟩
  · rw [hget] at hg
    simp only []
    obtain ⟨hf, t, i, m, hq1, hidx⟩ := c1_io_get_tree_spec env c1 cki
      (c1_issue_iter_fill q0 (some it) txnid sync)
    rcases hgt : c1_io_get_tree env c1 cki (c1_issue_iter_fill q0 (some it) txnid sync)
      with ⟨e, q1, c2⟩
    rw [hgt] at hf hq1 hidx
    simp only at hf hq1 hidx ⊢
    have hc2 := c1_queues_eq_trans hg hf
    by_cases he : e = 0
    · by_cases hl : c2.c1_io.c1io_err = 0
      · simp only [he, hl, ne_eq, not_true_eq_false, if_false]
        refine ⟨_, rfl, Or.inr ⟨rfl, ?_, _, _, hc2, rfl, Or.inl ?_⟩⟩
        · rw [← hc2.2.2.1]; exact hl
        · subst hq1
          exact (hidx he).1
      · simp only [he, hl, ne_eq, not_true_eq_false, not_false_eq_true, if_false, if_true]
        exact ⟨_, rfl, Or.inl ⟨hl, c1_queues_eq_trans hc2 (c1_io_queue_free_queues_eq _ _)⟩⟩
    · simp only [he, ne_eq, not_false_eq_true, if_true]
      exact ⟨_, rfl, Or.inl ⟨he, c1_queues_eq_trans hc2 (c1_io_queue_free_queues_eq _ _)⟩⟩

/-- What `c1_io_txn_begin` does to the queues, when it returns. -/
theorem c1_io_txn_begin_effect (env : c1_env) (c : c1) (txnid : Nat) (ci : c1_iterinfo)
    (sync : Nat) (r : merr_t × c1) (h : c1_io_txn_begin env c txnid ci sync = some r) :
    (r.1 ≠ 0 ∧ c1_queues_eq c r.2) ∨
    (r.1 = 0 ∧ c.c1_io.c1io_err = 0 ∧ c1_enqueued_by env c r.2) := by
  unfold c1_io_txn_begin at h
  have hg := c1_io_queue_get_queues_eq env c
  rcases hget : c1_io_queue_get env c with ⟨_ | q0, c1⟩
  · rw [hget] at hg h
    simp only [Option.some.injEq] at h
    subst h
    exact Or.inl ⟨(show merr ENOMEM ≠ 0 by decide), hg⟩
  · rw [hget] at hg h
    simp only [] at h
    rcases hgt : c1_io_get_tree_txn env c1 ci (c1_io_txn_begin_fill q0 txnid sync)
      with _ | ⟨e, q1, c2⟩
    · rw [hgt] at h
      simp at h
    · obtain ⟨hf, t, i, m, hq1, hidx⟩ := c1_io_get_tree_txn_spec env c1 ci _ _ hgt
      rw [hgt] at h
      simp only at hf hq1 hidx h
      have hc2 := c1_queues_eq_trans hg hf
      by_cases he : e = 0
      · by_cases hl : c2.c1_io.c1io_err = 0
        · simp only [he, hl, ne_eq, not_true_eq_false, if_false, Option.some.injEq] at h
          subst h
          refine Or.inr ⟨rfl, ?_, _, _, hc2, rfl, Or.inl ?_⟩
          · rw [← hc2.2.2.1]; exact hl
          · subst hq1
            exact hidx he
        · simp only [he, hl, ne_eq, not_true_eq_false, not_false_eq_true, if_false, if_true,
            Option.some.injEq] at h
          subst h
          exact Or.inl ⟨hl, c1_queues_eq_trans hc2 (c1_io_queue_free_queues_eq _ _)⟩
      · simp only [he, ne_eq, not_false_eq_true, if_true, Option.some.injEq] at h
        subst h
        exact Or.inl ⟨he, c1_queues_eq_trans hc2 (c1_io_queue_free_queues_eq _ _)⟩

/-- What the first part of `c1_io_txn_commit` does to the queues. -/
theorem c1_io_txn_commit_enqueue_effect (env : c1_env) (c : c1) (txnid ingestid sync : Nat) :
    ((c1_io_txn_commit_enqueue env c txnid ingestid sync).1 ≠ 0 ∧
      (c1_io_txn_commit_enqueue env c txnid ingestid sync).2.2 = none ∧
      c1_queues_eq c (c1_io_txn_commit_enqueue env c txnid ingestid sync).2.1) ∨
    ((c1_io_txn_commit_enqueue env c txnid ingestid sync).1 = 0 ∧
      (c1_io_txn_commit_enqueue env c txnid ingestid sync).2.2 ≠ none ∧
      c.c1_io.c1io_err = 0 ∧
      c1_enqueued_by env c (c1_io_txn_commit_enqueue env c txnid ingestid sync).2.1) := by
  unfold c1_io_txn_commit_enqueue
  simp only []
  split_ifs with h0
  · exact Or.inl ⟨h0, rfl, c1_emit_queues_eq c _ (by rfl)⟩
  · have hg := c1_io_queue_get_queues_eq env
      (c1_emit c (c1_call.record_type2len c1_rec_type.C1_TYPE_TXN))
    rcases hget : c1_io_queue_get env
      (c1_emit c (c1_call.record_type2len c1_rec_type.C1_TYPE_TXN)) with ⟨_ | q0, c1⟩
    · rw [hget] at hg
      exact Or.inl ⟨(show merr ENOMEM ≠ 0 by decide), rfl,
        c1_queues_eq_trans (c1_emit_queues_eq c _ (by rfl)) hg⟩
    · rw [hget] at hg
      simp only []
      have hc1 := c1_queues_eq_trans (c1_emit_queues_eq c _ (by rfl)) hg
      obtain ⟨hf, t, i, m, hq1, hidx⟩ := c1_io_get_tree_spec env c1
        (c1_io_txn_cki (env.reclen (c1_emit c
          (c1_call.record_type2len c1_rec_type.C1_TYPE_TXN)).calls))
        (c1_io_txn_commit_fill q0 txnid ingestid sync)
      rcases hgt : c1_io_get_tree env c1
        (c1_io_txn_cki (env.reclen (c1_emit c
          (c1_call.record_type2len c1_rec_type.C1_TYPE_TXN)).calls))
        (c1_io_txn_commit_fill q0 txnid ingestid sync) with ⟨e, q1, c2⟩
      rw [hgt] at hf hq1 hidx
      simp only at hf hq1 hidx ⊢
      have hc2 := c1_queues_eq_trans hc1 hf
      by_cases he : e = 0
      · by_cases hl : c2.c1_io.c1io_err = 0
        · simp only [he, hl, ne_eq, not_true_eq_false, if_false]
          refine Or.inr ⟨trivial, by simp, ?_, _, _, hc2, rfl, Or.inl ?_⟩
          · rw [← hc2.2.2.1]; exact hl
          · subst hq1
            exact (hidx he).1
        · simp only [he, hl, ne_eq, not_true_eq_false, not_false_eq_true, if_false, if_true]
          exact Or.inl ⟨trivial, trivial, c1_queues_eq_trans hc2 (c1_io_queue_free_queues_eq _ _)⟩
      · simp only [he, ne_eq, not_false_eq_true, if_true]
        exact Or.inl ⟨trivial, trivial, c1_queues_eq_trans hc2 (c1_io_queue_free_queues_eq _ _)⟩

/-- What the first part of `c1_issue_sync` does to the queues. -/
theorem c1_issue_sync_enter_effect (env : c1_env) (c : c1) (sync : Nat) (skip_flush : Bool)
    (frame : Nat) :
    (c1_issue_sync_enter c sync skip_flush frame).2 = c ∨
    ((∃ q, (c1_issue_sync_enter c sync skip_flush frame).1 = c1_sync_entry.wait q) ∧
      c1_enqueued_by env c (c1_issue_sync_enter c sync skip_flush frame).2) := by
  unfold c1_issue_sync_enter
  simp only []
  split_ifs with h1 h2 h3
  · exact Or.inl rfl
  · exact Or.inl rfl
  · exact Or.inl rfl
  · exact Or.inr ⟨⟨_, rfl⟩,
      { c with syncdone := c.syncdone.filter (fun a => a != c1q_addr.stack frame) },
      { c1_io_queue_zero (c1q_addr.stack frame) with c1q_sync := sync },
      ⟨rfl, rfl, rfl, rfl, fun a ha => (List.mem_filter.mp ha).1, rfl, [], by simp, by simp⟩,
      rfl, Or.inr ⟨rfl, h2⟩⟩

/-! ### The worker array -/

theorem c1io_workerv_update_length (f : c1_io_worker → c1_io_worker) :
    ∀ (i : Nat) (ws : List c1_io_worker), (c1io_workerv_update f i ws).length = ws.length
  | i, [] => by cases i <;> rfl
  | 0, _ :: _ => rfl
  | n + 1, _ :: ws => by
    simp only [c1io_workerv_update, List.length_cons, c1io_workerv_update_length f n ws]

theorem c1io_workerv_update_get_same (f : c1_io_worker → c1_io_worker) :
    ∀ (i : Nat) (ws : List c1_io_worker) (w : c1_io_worker), ws.get? i = some w →
      (c1io_workerv_update f i ws).get? i = some (f w)
  | _, [], _, h => by simp at h
  | 0, _ :: _, w, h => by
    simp only [List.get?_cons_zero, Option.some.injEq] at h
    simp [c1io_workerv_update, h]
  | n + 1, _ :: ws, w, h => by
    simp only [List.get?_cons_succ] at h
    simp only [c1io_workerv_update, List.get?_cons_succ]
    exact c1io_workerv_update_get_same f n ws w h

theorem c1io_workerv_update_get_other (f : c1_io_worker → c1_io_worker) :
    ∀ (i k : Nat) (ws : List c1_io_worker), k ≠ i →
      (c1io_workerv_update f i ws).get? k = ws.get? k
  | i, _, [], _ => by cases i <;> rfl
  | 0, 0, _ :: _, h => absurd rfl h
  | 0, k + 1, _ :: _, _ => rfl
  | n + 1, 0, _ :: _, _ => rfl
  | n + 1, k + 1, _ :: ws, h => by
    simp only [c1io_workerv_update, List.get?_cons_succ]
    exact c1io_workerv_update_get_other f n k ws (by omega)

theorem c1io_workerv_update_none (f : c1_io_worker → c1_io_worker) :
    ∀ (i : Nat) (ws : List c1_io_worker), ws.get? i = none → c1io_workerv_update f i ws = ws
  | i, [], _ => by cases i <;> rfl
  | 0, _ :: _, h => by simp at h
  | n + 1, w :: ws, h => by
    simp only [List.get?_cons_succ] at h
    simp only [c1io_workerv_update, c1io_workerv_update_none f n ws h]

theorem c1io_workerv_update_update (f g : c1_io_worker → c1_io_worker) :
    ∀ (i : Nat) (ws : List c1_io_worker),
      c1io_workerv_update g i (c1io_workerv_update f i ws)
        = c1io_workerv_update (fun w => g (f w)) i ws
  | i, [] => by cases i <;> rfl
  | 0, _ :: _ => rfl
  | n + 1, w :: ws => by
    simp only [c1io_workerv_update, c1io_workerv_update_update f g n ws]

theorem c1io_fifo_total_update (f : c1_io_worker → c1_io_worker) :
    ∀ (i : Nat) (ws : List c1_io_worker) (w : c1_io_worker), ws.get? i = some w →
      c1io_fifo_total (c1io_workerv_update f i ws) + w.c1w_list.length
        = c1io_fifo_total ws + (f w).c1w_list.length
  | _, [], _, h => by simp at h
  | 0, _ :: ws, w, h => by
    simp only [List.get?_cons_zero, Option.some.injEq] at h
    subst h
    simp only [c1io_workerv_update, c1io_fifo_total]
    omega
  | n + 1, w0 :: ws, w, h => by
    simp only [List.get?_cons_succ] at h
    have := c1io_fifo_total_update f n ws w h
    simp only [c1io_workerv_update, c1io_fifo_total]
    omega

/-- The FIFO of worker `k` after worker `i` has been updated. -/
theorem c1io_fifo_update (ws : List c1_io_worker) (f : c1_io_worker → c1_io_worker)
    (i k : Nat) :
    c1io_fifo (c1io_workerv_update f i ws) k =
      if k = i then
        match ws.get? i with
        | some w => (f w).c1w_list
        | none => []
      else c1io_fifo ws k := by
  unfold c1io_fifo
  by_cases hk : k = i
  · subst hk
    simp only [if_true]
    rcases hw : ws.get? k with _ | w
    · simp only [c1io_workerv_update_none f k _ hw, hw]
    · simp only [c1io_workerv_update_get_same f k _ w hw]
  · simp only [hk, if_false, c1io_workerv_update_get_other f i k _ hk]

/-! ### The worker loop -/

theorem c1_ext_refl (P : c1_call → Prop) (l : List c1_call) :
    ∃ extra, l = l ++ extra ∧ ∀ x ∈ extra, P x :=
  ⟨[], by simp, by simp⟩

theorem c1_ext_snoc (P : c1_call → Prop) (l l2 : List c1_call) (call : c1_call)
    (h : ∃ extra, l2 = l ++ extra ∧ ∀ x ∈ extra, P x) (hP : P call) :
    ∃ extra, l2 ++ [call] = l ++ extra ∧ ∀ x ∈ extra, P x := by
  obtain ⟨extra, hx, hp⟩ := h
  refine ⟨extra ++ [call], by rw [hx, List.append_assoc], ?_⟩
  intro x hx2
  rcases List.mem_append.mp hx2 with h2 | h2
  · exact hp x h2
  · simp only [List.mem_singleton] at h2
    rw [h2]; exact hP

theorem c1_ext_trans (P : c1_call → Prop) (l l2 l3 : List c1_call)
    (h : ∃ extra, l2 = l ++ extra ∧ ∀ x ∈ extra, P x)
    (h2 : ∃ extra, l3 = l2 ++ extra ∧ ∀ x ∈ extra, P x) :
    ∃ extra, l3 = l ++ extra ∧ ∀ x ∈ extra, P x := by
  obtain ⟨e1, hx1, hp1⟩ := h
  obtain ⟨e2, hx2, hp2⟩ := h2
  refine ⟨e1 ++ e2, by rw [hx2, hx1, List.append_assoc], ?_⟩
  intro x hx
  rcases List.mem_append.mp hx with h3 | h3
  · exact hp1 x h3
  · exact hp2 x h3

/-- The pump touches the call log and the latched error only, and it never
calls `c1_tree_flush`. -/
theorem c1_io_iter_kvbtxn_frame (env : c1_env) (iter : kvb_builder_iter) (q : c1_io_queue) :
    ∀ (fuel : Nat) (c c2 : c1), c1_io_iter_kvbtxn env iter q fuel c = some c2 →
      c2.c1_io.c1io_pending = c.c1_io.c1io_pending ∧
      c2.c1_io.c1io_workerv = c.c1_io.c1io_workerv ∧
      c2.c1_io.c1io_workerc = c.c1_io.c1io_workerc ∧
      c2.c1_io.c1io_qfree = c.c1_io.c1io_qfree ∧
      c2.syncdone = c.syncdone ∧
      c2.history = c.history ∧
      ∃ extra, c2.calls = c.calls ++ extra ∧ ∀ x ∈ extra, c1_call_is_flush x = false := by
  intro fuel
  induction fuel with
  | zero => intro c c2 h; simp [c1_io_iter_kvbtxn] at h
  | succ n ih =>
    intro c c2 h
    unfold c1_io_iter_kvbtxn at h
    simp only [] at h
    have e0 := c1_ext_refl (fun x => c1_call_is_flush x = false) c.calls
    have e1 := c1_ext_snoc _ _ _ (c1_call.iter_get_next iter) e0 rfl
    split at h
    · simp only [Option.some.injEq] at h
      subst h
      exact ⟨rfl, rfl, rfl, rfl, rfl, rfl, c1_ext_snoc _ _ _ (c1_call.iter_put iter) e1 rfl⟩
    · have e2 := c1_ext_snoc _ _ _ (c1_call.tree_issue_kvb q.c1q_tree iter.kvbi_ingestid
        iter.kvbi_vsize q.c1q_idx q.c1q_txnid q.c1q_mutation (by assumption) q.c1q_sync
        q.c1q_idx) e1 rfl
      split_ifs at h with h1
      · simp only [Option.some.injEq] at h
        subst h
        exact ⟨rfl, rfl, rfl, rfl, rfl, rfl, c1_ext_snoc _ _ _ (c1_call.iter_put iter) e2 rfl⟩
      · obtain ⟨a1, a2, a3, a4, a5, a6, hext⟩ := ih _ _ h
        exact ⟨a1, a2, a3, a4, a5, a6, c1_ext_trans _ _ _ _ e2 hext⟩

theorem c1_io_worker_recycle_spec (io : c1_io) (w : c1_io_worker) :
    (c1_io_worker_recycle io w).1.c1io_workerv = io.c1io_workerv ∧
    (c1_io_worker_recycle io w).1.c1io_pending = io.c1io_pending ∧
    (c1_io_worker_recycle io w).1.c1io_err = io.c1io_err ∧
    (c1_io_worker_recycle io w).1.c1io_workerc = io.c1io_workerc ∧
    (c1_io_worker_recycle io w).2.c1w_list = w.c1w_list ∧
    (c1_io_worker_recycle io w).2.c1w_stop = w.c1w_stop := by
  unfold c1_io_worker_recycle
  split
  · exact ⟨rfl, rfl, rfl, rfl, rfl, rfl⟩
  · simp only []
    split_ifs <;> exact ⟨rfl, rfl, rfl, rfl, rfl, rfl⟩

/-- Processing a popped item leaves the workers, the free pool and the
history alone, takes one off the pending count and never calls
`c1_tree_flush`. -/
theorem c1_io_worker_process_frame (env : c1_env) (fuel : Nat) (c : c1) (q : c1_io_queue)
    (c2 : c1) (lq : Option c1_io_queue)
    (h : c1_io_worker_process env fuel c q = some (c2, lq)) :
    c2.c1_io.c1io_workerv = c.c1_io.c1io_workerv ∧
    c2.c1_io.c1io_pending = atomic_dec c.c1_io.c1io_pending ∧
    c2.c1_io.c1io_workerc = c.c1_io.c1io_workerc ∧
    c2.c1_io.c1io_qfree = c.c1_io.c1io_qfree ∧
    c2.history = c.history ∧
    (∃ extra, c2.calls = c.calls ++ extra ∧ ∀ x ∈ extra, c1_call_is_flush x = false) ∧
    (∃ sd, c2.syncdone = c.syncdone ++ sd) := by
  unfold c1_io_worker_process at h
  simp only [] at h
  have e0 := c1_ext_refl (fun x => c1_call_is_flush x = false) c.calls
  by_cases h1 : q.c1q_txn = true
  · rw [if_pos h1] at h
    split_ifs at h with h2
    · simp only [Option.some.injEq, Prod.mk.injEq] at h
      obtain ⟨h, -⟩ := h
      subst h
      exact ⟨rfl, rfl, rfl, rfl, rfl, c1_ext_snoc _ _ _ _ e0 rfl, [], by simp [c1_emit]⟩
    · simp only [Option.some.injEq, Prod.mk.injEq] at h
      obtain ⟨h, -⟩ := h
      subst h
      exact ⟨rfl, rfl, rfl, rfl, rfl, c1_ext_snoc _ _ _ _ e0 rfl, [], by simp [c1_emit]⟩
  · rw [if_neg h1] at h
    rcases hi : q.c1q_iter with _ | it
    · rw [hi] at h
      simp only [Option.some.injEq, Prod.mk.injEq] at h
      obtain ⟨h, -⟩ := h
      subst h
      exact ⟨rfl, rfl, rfl, rfl, rfl, e0, _, rfl⟩
    · rw [hi] at h
      simp only at h
      by_cases h3 : c.c1_io.c1io_err ≠ 0
      · rw [if_pos h3] at h
        simp only [Option.some.injEq, Prod.mk.injEq] at h
        obtain ⟨h, -⟩ := h
        subst h
        exact ⟨rfl, rfl, rfl, rfl, rfl, c1_ext_snoc _ _ _ _ e0 rfl, [], by simp [c1_emit]⟩
      · rw [if_neg h3] at h
        split at h
        · simp at h
        · rename_i c3 hp
          simp only [Option.some.injEq, Prod.mk.injEq] at h
          obtain ⟨h, -⟩ := h
          subst h
          obtain ⟨a1, a2, a3, a4, a5, a6, hext⟩ := c1_io_iter_kvbtxn_frame env _ q fuel _ _ hp
          exact ⟨a2, a1, a3, a4, a6, hext, [], by simp [a5]⟩

/-- One pass of the worker loop: either the FIFO was empty and nothing but
the worker's own bookkeeping changed, or the head of the FIFO was popped and
processed. -/
theorem c1_io_worker_step_spec (env : c1_env) (fuel i : Nat) (c c1 : c1)
    (h : c1_io_worker_step env fuel i c = some c1) :
    ∃ w0 w1, c.c1_io.c1io_workerv.get? i = some w0 ∧
      c1.c1_io.c1io_workerv = c1io_workerv_update (fun _ => w1) i c.c1_io.c1io_workerv ∧
      w1.c1w_stop = w0.c1w_stop ∧
      c1.c1_io.c1io_workerc = c.c1_io.c1io_workerc ∧
      ((w0.c1w_list = [] ∧ (w0.c1w_stop = false → w1.c1w_list = []) ∧
        c1.c1_io.c1io_pending = c.c1_io.c1io_pending ∧
        c1.c1_io.c1io_err = c.c1_io.c1io_err ∧
        c1.history = c.history ∧ c1.calls = c.calls ∧ c1.syncdone = c.syncdone) ∨
       (∃ q cm c2 lq, w0.c1w_list = q :: w1.c1w_list ∧
        c1.c1_io.c1io_pending = atomic_dec c.c1_io.c1io_pending ∧
        c1.history = c.history ++ [c1_event.pop i q] ∧
        c1_io_worker_process env fuel cm q = some (c2, lq) ∧
        cm.calls = c.calls ∧ cm.c1_io.c1io_err = c.c1_io.c1io_err ∧ cm.syncdone = c.syncdone ∧
        c1.calls = c2.calls ∧ c1.c1_io.c1io_err = c2.c1_io.c1io_err ∧
        c1.syncdone = c2.syncdone)) := by
  unfold c1_io_worker_step at h
  rcases hw : c.c1_io.c1io_workerv.get? i with _ | w0
  · rw [hw] at h; simp at h
  · rw [hw] at h
    simp only [] at h
    by_cases hrun : w0.running = false
    · rw [if_pos hrun] at h; simp at h
    · rw [if_neg hrun] at h
      obtain ⟨r1, r2, r3, r4, r5, r6⟩ := c1_io_worker_recycle_spec c.c1_io w0
      generalize c1_io_worker_recycle c.c1_io w0 = r at h r1 r2 r3 r4 r5 r6
      obtain ⟨io, w⟩ := r
      simp only at h r1 r2 r3 r4 r5 r6
      rcases hl : w.c1w_list with _ | ⟨q, rest⟩
      · rw [hl] at h
        simp only at h
        by_cases hstop : w.c1w_stop = true
        · rw [if_pos hstop] at h
          simp only [Option.some.injEq] at h
          subst h
          refine ⟨w0, { w with c1w_list := w.qfree ++ [], running := false }, rfl,
            by simp only [r1], ?_, r4, Or.inl ⟨by rw [← r5, hl], ?_, r2, r3, rfl, rfl, rfl⟩⟩
          · simp only [r6]
          · intro hs
            rw [← r6, hstop] at hs
            exact absurd hs (by decide)
        · rw [if_neg hstop] at h
          simp only [Option.some.injEq] at h
          subst h
          exact ⟨w0, w, rfl, by simp only [r1], r6, r4, Or.inl ⟨by rw [← r5, hl], fun _ => hl,
            r2, r3, rfl, rfl, rfl⟩⟩
      · rw [hl] at h
        simp only at h
        split at h
        · simp at h
        · rename_i c2 lq hp
          simp only [Option.some.injEq] at h
          subst h
          obtain ⟨p1, p2, p3, p4, p5, p6, p7⟩ := c1_io_worker_process_frame env fuel _ q c2 lq hp
          simp only at p1 p2 p3 p5
          refine ⟨w0, { w with c1w_list := rest, q := lq }, rfl, ?_, r6, by rw [← r4, ← p3],
            Or.inr ⟨q, _, c2, lq, by rw [← r5, hl], by simp only [p2, r2], p5, hp, rfl, r3, rfl,
              rfl, rfl, rfl⟩⟩
          simp only [p1, r1, c1io_workerv_update_update]

/-! ### The queue invariant -/

theorem c1_enqueued_append (k : Nat) (es fs : List c1_event) :
    c1_enqueued k (es ++ fs) = c1_enqueued k es ++ c1_enqueued k fs := by
  induction es with
  | nil => rfl
  | cons e es ih =>
    cases e with
    | enqueue i q =>
      show c1_enqueued k (c1_event.enqueue i q :: (es ++ fs)) = _
      simp only [c1_enqueued]
      split_ifs
      · rw [ih]; rfl
      · exact ih
    | pop i q =>
      show c1_enqueued k (c1_event.pop i q :: (es ++ fs)) = _
      simp only [c1_enqueued]
      exact ih

theorem c1_popped_append (k : Nat) (es fs : List c1_event) :
    c1_popped k (es ++ fs) = c1_popped k es ++ c1_popped k fs := by
  induction es with
  | nil => rfl
  | cons e es ih =>
    cases e with
    | pop i q =>
      show c1_popped k (c1_event.pop i q :: (es ++ fs)) = _
      simp only [c1_popped]
      split_ifs
      · rw [ih]; rfl
      · exact ih
    | enqueue i q =>
      show c1_popped k (c1_event.enqueue i q :: (es ++ fs)) = _
      simp only [c1_popped]
      exact ih

theorem c1io_workerv_update_stop (f : c1_io_worker → c1_io_worker)
    (hf : ∀ w, (f w).c1w_stop = w.c1w_stop) :
    ∀ (i : Nat) (ws : List c1_io_worker), (∀ w ∈ ws, w.c1w_stop = false) →
      ∀ w ∈ c1io_workerv_update f i ws, w.c1w_stop = false
  | i, [], _ => by cases i <;> simp [c1io_workerv_update]
  | 0, w0 :: ws, h => by
    intro w hw
    simp only [c1io_workerv_update, List.mem_cons] at hw
    rcases hw with hw | hw
    · rw [hw, hf]; exact h w0 (List.mem_cons_self _ _)
    · exact h w (List.mem_cons_of_mem _ hw)
  | n + 1, w0 :: ws, h => by
    intro w hw
    simp only [c1io_workerv_update, List.mem_cons] at hw
    rcases hw with hw | hw
    · rw [hw]; exact h w0 (List.mem_cons_self _ _)
    · exact c1io_workerv_update_stop f hf n ws
        (fun x hx => h x (List.mem_cons_of_mem _ hx)) w hw

theorem c1io_fifo_total_pos_length :
    ∀ ws : List c1_io_worker, c1io_fifo_total ws ≠ 0 → 0 < ws.length
  | [], h => absurd rfl h
  | _ :: _, _ => Nat.succ_pos _

/-- The invariant only looks at the workers, the pending count and the
history. -/
theorem c1_queue_inv_congr (n : Nat) (c c1 : c1)
    (h1 : c1.c1_io.c1io_workerv = c.c1_io.c1io_workerv)
    (h2 : c1.c1_io.c1io_pending = c.c1_io.c1io_pending)
    (h3 : c1.history = c.history) (h : c1_queue_inv n c) : c1_queue_inv n c1 := by
  obtain ⟨a, b, d, e⟩ := h
  refine ⟨by rw [h1]; exact a, by rw [h1]; exact b, by rw [h1, h2]; exact d, ?_⟩
  intro k
  rw [h1, h3]
  exact e k

theorem c1_queue_inv_of_queues_eq (n : Nat) (c c1 : c1) (hq : c1_queues_eq c c1)
    (h : c1_queue_inv n c) : c1_queue_inv n c1 :=
  c1_queue_inv_congr n c c1 hq.2.1 hq.1 hq.2.2.2.2.2.1 h

/-- Queueing an item on a worker that exists keeps the invariant. -/
theorem c1_queue_inv_enqueue (n : Nat) (c : c1) (q : c1_io_queue) (hi : q.c1q_idx < n)
    (h : c1_queue_inv n c) : c1_queue_inv n (c1_io_enqueue c q) := by
  obtain ⟨a, b, d, e⟩ := h
  have hlt : q.c1q_idx < c.c1_io.c1io_workerv.length := by rw [a]; exact hi
  obtain ⟨w, hw⟩ : ∃ w, c.c1_io.c1io_workerv.get? q.c1q_idx = some w :=
    ⟨_, List.get?_eq_get hlt⟩
  refine ⟨?_, ?_, ?_, ?_⟩
  · simp only [c1_io_enqueue, c1io_workerv_update_length]; exact a
  · exact c1io_workerv_update_stop (fun w => { w with c1w_list := w.c1w_list ++ [q] })
      (fun _ => rfl) _ _ b
  · have ht := c1io_fifo_total_update (fun w => { w with c1w_list := w.c1w_list ++ [q] })
      q.c1q_idx _ w hw
    simp only [List.length_append, List.length_singleton] at ht
    simp only [c1_io_enqueue, d, atomic_inc_wrap]
    congr 1
    omega
  · intro k
    have hf := c1io_fifo_update c.c1_io.c1io_workerv
      (fun w => { w with c1w_list := w.c1w_list ++ [q] }) q.c1q_idx k
    have he := e k
    simp only [c1_io_enqueue, c1_enqueued_append, c1_popped_append, c1_enqueued, c1_popped,
      List.append_nil]
    rw [hf]
    by_cases hk : k = q.c1q_idx
    · subst hk
      simp only [if_true, hw]
      rw [← he, List.append_assoc]
      simp only [c1io_fifo, hw]
    · have hk2 : ¬ q.c1q_idx = k := fun h => hk h.symm
      simp only [hk, hk2, if_false, List.append_nil]
      exact he

theorem c1_queue_inv_enqueued_by (env : c1_env) (n : Nat)
    (hslots : ∀ l, (env.reserve_out l).1 < n) (c c1 : c1) (hq : c1_enqueued_by env c c1)
    (h : c1_queue_inv n c) : c1_queue_inv n c1 := by
  obtain ⟨c0, q, hf, hc1, hidx⟩ := hq
  subst hc1
  apply c1_queue_inv_enqueue n c0 q _ (c1_queue_inv_of_queues_eq n c c0 hf h)
  rcases hidx with ⟨l, hl⟩ | ⟨h0, hp⟩
  · rw [hl]; exact hslots l
  · rw [h0]
    obtain ⟨a, _, d, _⟩ := h
    rw [← a]
    apply c1io_fifo_total_pos_length
    intro hz
    rw [d, hz, Nat.cast_zero, atomic_wrap_zero] at hp
    exact hp rfl

theorem c1io_workerv_update_mem (f : c1_io_worker → c1_io_worker) :
    ∀ (i : Nat) (ws : List c1_io_worker) (w0 : c1_io_worker), ws.get? i = some w0 →
      ∀ w ∈ c1io_workerv_update f i ws, w ∈ ws ∨ w = f w0
  | _, [], _, h => by simp at h
  | 0, w1 :: ws, w0, h => by
    simp only [List.get?_cons_zero, Option.some.injEq] at h
    subst h
    intro w hw
    simp only [c1io_workerv_update, List.mem_cons] at hw
    rcases hw with hw | hw
    · exact Or.inr hw
    · exact Or.inl (List.mem_cons_of_mem _ hw)
  | n + 1, w1 :: ws, w0, h => by
    simp only [List.get?_cons_succ] at h
    intro w hw
    simp only [c1io_workerv_update, List.mem_cons] at hw
    rcases hw with hw | hw
    · exact Or.inl (by rw [hw]; exact List.mem_cons_self _ _)
    · rcases c1io_workerv_update_mem f n ws w0 h w hw with h2 | h2
      · exact Or.inl (List.mem_cons_of_mem _ h2)
      · exact Or.inr h2

/-- A pass of the worker loop keeps the invariant. -/
theorem c1_queue_inv_worker_step (env : c1_env) (n fuel i : Nat) (c c1 : c1)
    (hs : c1_io_worker_step env fuel i c = some c1) (h : c1_queue_inv n c) :
    c1_queue_inv n c1 := by
  obtain ⟨w0, w1, hw, hv, hstop, -, hcase⟩ := c1_io_worker_step_spec env fuel i c c1 hs
  obtain ⟨a, b, d, e⟩ := h
  have hw0 : w0 ∈ c.c1_io.c1io_workerv := List.get?_mem hw
  have hs0 : w0.c1w_stop = false := b w0 hw0
  have hlen : c1.c1_io.c1io_workerv.length = n := by
    rw [hv, c1io_workerv_update_length]; exact a
  have hstops : ∀ w ∈ c1.c1_io.c1io_workerv, w.c1w_stop = false := by
    rw [hv]
    intro w hmem
    rcases c1io_workerv_update_mem (fun _ => w1) i _ w0 hw w hmem with h2 | h2
    · exact b w h2
    · rw [h2, hstop]; exact hs0
  have ht := c1io_fifo_total_update (fun _ => w1) i _ w0 hw
  have hf := fun k => c1io_fifo_update c.c1_io.c1io_workerv (fun _ => w1) i k
  simp only [hw] at hf
  rcases hcase with ⟨hl0, hl1, hp, -, hh, -, -⟩ | ⟨q, cm, c2, lq, hl, hp, hh, -⟩
  · have hl1 := hl1 hs0
    refine ⟨hlen, hstops, ?_, ?_⟩
    · rw [hv, hp, d]
      rw [hl0, hl1] at ht
      simp only [List.length_nil, Nat.add_zero] at ht
      rw [ht]
    · intro k
      rw [hv, hh, hf k, ← e k]
      by_cases hk : k = i
      · subst hk
        simp only [if_true, hl1, c1io_fifo, hw, hl0]
      · simp only [hk, if_false]
  · refine ⟨hlen, hstops, ?_, ?_⟩
    · rw [hv, hp, d, atomic_dec_wrap]
      rw [hl] at ht
      simp only [List.length_cons] at ht
      congr 1
      omega
    · intro k
      have he := e k
      rw [hv, hh, hf k, c1_popped_append, c1_enqueued_append]
      simp only [c1_popped, c1_enqueued, List.append_nil]
      by_cases hk : k = i
      · subst hk
        simp only [if_true]
        rw [← he]
        simp only [c1io_fifo, hw, hl, List.append_assoc, List.singleton_append]
      · have hk2 : ¬ i = k := fun h => hk h.symm
        simp only [hk, hk2, if_false, List.append_nil]
        exact he

/-- Every atomic step keeps the invariant, as long as reservations choose
existing workers. -/
theorem c1_queue_inv_step (env : c1_env) (n : Nat) (hslots : ∀ l, (env.reserve_out l).1 < n)
    (c c1 : c1) (op : c1_op) (hs : c1_step env c op = some c1) (h : c1_queue_inv n c) :
    c1_queue_inv n c1 := by
  cases op with
  | issue_iter iter txnid cki sync =>
    obtain ⟨r, hr, heff⟩ := c1_issue_iter_effect env (fun _ => none) c iter txnid cki sync 0
    simp only [c1_step, hr, Option.map_some', Option.some.injEq] at hs
    subst hs
    rcases heff with ⟨-, hq⟩ | ⟨-, -, hq⟩
    · exact c1_queue_inv_of_queues_eq n c _ hq h
    · exact c1_queue_inv_enqueued_by env n hslots c _ hq h
  | issue_sync_enter sync skip_flush frame =>
    simp only [c1_step] at hs
    rcases c1_issue_sync_enter_effect env c sync skip_flush frame with heq | ⟨⟨q, hq⟩, henq⟩
    · rcases hent : c1_issue_sync_enter c sync skip_flush frame with ⟨ent, c2⟩
      rw [hent] at hs heq
      simp only at heq
      subst heq
      cases ent with
      | ret err => simp only [Option.some.injEq] at hs; subst hs; exact h
      | wait q => simp only [Option.some.injEq] at hs; subst hs; exact h
      | log_flush =>
        simp only [Option.some.injEq] at hs
        subst hs
        exact c1_queue_inv_congr n c2 _ rfl rfl rfl h
    · rcases hent : c1_issue_sync_enter c sync skip_flush frame with ⟨ent, c2⟩
      rw [hent] at hs hq henq
      simp only at hq henq
      subst hq
      simp only [Option.some.injEq] at hs
      subst hs
      exact c1_queue_inv_enqueued_by env n hslots c _ henq h
  | issue_sync_leave skip_flush =>
    simp only [c1_step, Option.some.injEq] at hs
    subst hs
    unfold c1_issue_sync_leave
    split_ifs
    · exact h
    · exact h
    · exact c1_queue_inv_congr n c _ rfl rfl rfl h
  | txn_begin txnid ci sync =>
    simp only [c1_step] at hs
    rcases hb : c1_io_txn_begin env c txnid ci sync with _ | r
    · rw [hb] at hs; simp at hs
    · rw [hb] at hs
      simp only [Option.map_some', Option.some.injEq] at hs
      subst hs
      rcases c1_io_txn_begin_effect env c txnid ci sync r hb with ⟨-, hq⟩ | ⟨-, -, hq⟩
      · exact c1_queue_inv_of_queues_eq n c _ hq h
      · exact c1_queue_inv_enqueued_by env n hslots c _ hq h
  | txn_commit_enqueue txnid ingestid sync =>
    simp only [c1_step, Option.some.injEq] at hs
    subst hs
    rcases c1_io_txn_commit_enqueue_effect env c txnid ingestid sync with
      ⟨-, -, hq⟩ | ⟨-, -, -, hq⟩
    · exact c1_queue_inv_of_queues_eq n c _ hq h
    · exact c1_queue_inv_enqueued_by env n hslots c _ hq h
  | txn_commit_refresh tree =>
    simp only [c1_step, Option.some.injEq] at hs
    subst hs
    exact c1_queue_inv_congr n c _ rfl rfl rfl h
  | txn_abort txnid =>
    simp only [c1_step, Option.some.injEq] at hs
    subst hs
    rcases c1_io_txn_abort_effect env c txnid with ⟨-, hq⟩ | ⟨-, -, hq⟩
    · exact c1_queue_inv_of_queues_eq n c _ hq h
    · exact c1_queue_inv_enqueued_by env n hslots c _ hq h
  | worker i fuel =>
    simp only [c1_step] at hs
    exact c1_queue_inv_worker_step env n fuel i c c1 hs h

theorem c1_queue_inv_run (env : c1_env) (n : Nat) (hslots : ∀ l, (env.reserve_out l).1 < n) :
    ∀ (ops : List c1_op) (c c1 : c1), c1_run env ops c = some c1 → c1_queue_inv n c →
      c1_queue_inv n c1
  | [], c, c1, hr, h => by
    simp only [c1_run, Option.some.injEq] at hr
    subst hr
    exact h
  | op :: ops, c, c1, hr, h => by
    simp only [c1_run] at hr
    rcases hs : c1_step env c op with _ | c2
    · rw [hs] at hr; simp at hr
    · rw [hs] at hr
      exact c1_queue_inv_run env n hslots ops c2 c1 hr (c1_queue_inv_step env n hslots c c2 op hs h)

theorem c1io_fifo_total_init : ∀ l : List Nat,
    c1io_fifo_total (l.map (fun i =>
      ({ c1w_list := [], c1w_stop := false, c1w_idx := i, qfree := [], nfree := 0, q := none,
         running := true } : c1_io_worker))) = 0
  | [] => rfl
  | _ :: l => by
    simp only [List.map_cons, c1io_fifo_total, List.length_nil, Nat.zero_add]
    exact c1io_fifo_total_init l

/-- A freshly created engine satisfies the queue invariant. -/
theorem c1_queue_inv_create (env : c1_env) (stripsize : Nat) (calls : List c1_call)
    (threads : Nat) (c0 : c1) (h : (c1_io_create env stripsize calls threads).2 = some c0) :
    c1_queue_inv threads c0 := by
  unfold c1_io_create at h
  simp only [] at h
  split_ifs at h
  simp only [Option.some.injEq] at h
  subst h
  refine ⟨?_, ?_, ?_, ?_⟩
  · simp [c1_io_workerv_init]
  · intro w hw
    simp only [c1_io_workerv_init, List.mem_map] at hw
    obtain ⟨i, -, hi⟩ := hw
    rw [← hi]
  · simp only [c1_io_workerv_init, c1io_fifo_total_init]
    rfl
  · intro k
    simp only [c1_popped, c1_enqueued, List.nil_append, c1io_fifo, c1_io_workerv_init]
    rcases hg : (List.map (fun i =>
      ({ c1w_list := [], c1w_stop := false, c1w_idx := i, qfree := [], nfree := 0, q := none,
         running := true } : c1_io_worker)) (List.range threads)).get? k with _ | w
    · rfl
    · have hm := List.get?_mem hg
      simp only [List.mem_map] at hm
      obtain ⟨i, -, hi⟩ := hm
      rw [← hi]

/-- With an error latched, a record-size oracle and reservations that
succeed and a free pool that is not empty, `c1_io_txn_abort` returns the
latched error. -/
theorem c1_io_txn_abort_latched_ret (env : c1_env) (c : c1) (txnid : Nat)
    (hl : c.c1_io.c1io_err ≠ 0)
    (hrec : env.err (c.calls ++ [c1_call.record_type2len c1_rec_type.C1_TYPE_TXN]) = 0)
    (hres : ∀ l tree size spare,
      env.err (l ++ [c1_call.tree_reserve_space tree size spare]) = 0)
    (hpool : c.c1_io.c1io_qfree ≠ []) :
    (c1_io_txn_abort env c txnid).1 = c.c1_io.c1io_err := by
  unfold c1_io_txn_abort
  simp only []
  have h0 : ¬ env.err (c1_emit c (c1_call.record_type2len c1_rec_type.C1_TYPE_TXN)).calls ≠ 0 := by
    simp only [c1_emit, hrec, ne_eq, not_true_eq_false, not_false_eq_true]
  rw [if_neg h0]
  rcases hqf : c.c1_io.c1io_qfree with _ | ⟨q0, rest⟩
  · exact absurd hqf hpool
  · have hget : c1_io_queue_get env
        (c1_emit c (c1_call.record_type2len c1_rec_type.C1_TYPE_TXN))
        = (some q0, { c1_emit c (c1_call.record_type2len c1_rec_type.C1_TYPE_TXN) with
            c1_io := { c.c1_io with c1io_qfree := rest } }) := by
      simp only [c1_io_queue_get, c1_emit, hqf]
    rw [hget]
    simp only []
    obtain ⟨hf, -⟩ := c1_io_get_tree_spec env
      { c1_emit c (c1_call.record_type2len c1_rec_type.C1_TYPE_TXN) with
        c1_io := { c.c1_io with c1io_qfree := rest } }
      (c1_io_txn_cki (env.reclen (c1_emit c
        (c1_call.record_type2len c1_rec_type.C1_TYPE_TXN)).calls))
      (c1_io_txn_abort_fill q0 txnid)
    have hok := c1_io_get_tree_ok env
      { c1_emit c (c1_call.record_type2len c1_rec_type.C1_TYPE_TXN) with
        c1_io := { c.c1_io with c1io_qfree := rest } }
      (c1_io_txn_cki (env.reclen (c1_emit c
        (c1_call.record_type2len c1_rec_type.C1_TYPE_TXN)).calls))
      (c1_io_txn_abort_fill q0 txnid) hres
    rcases hgt : c1_io_get_tree env
      { c1_emit c (c1_call.record_type2len c1_rec_type.C1_TYPE_TXN) with
        c1_io := { c.c1_io with c1io_qfree := rest } }
      (c1_io_txn_cki (env.reclen (c1_emit c
        (c1_call.record_type2len c1_rec_type.C1_TYPE_TXN)).calls))
      (c1_io_txn_abort_fill q0 txnid) with ⟨e, q1, c2⟩
    rw [hgt] at hf hok
    simp only at hf hok ⊢
    have hl2 : c2.c1_io.c1io_err ≠ 0 := by
      rw [hf.2.2.1]; exact hl
    subst hok
    simp only [ne_eq, not_true_eq_false, hl2, not_false_eq_true, or_true, if_true, if_false]
    exact hf.2.2.1

/-! ### Workers with collaborators that never fail -/

/-- A property kept by every worker pass is kept by every schedule of
worker passes. -/
theorem c1_io_workers_run_preserves (env : c1_env) (fuel : Nat) (I : c1 → Prop)
    (hI : ∀ i c c1, I c → c1_io_worker_step env fuel i c = some c1 → I c1) :
    ∀ (sched : List Nat) (c c1 : c1), I c → c1_io_workers_run env fuel sched c = some c1 → I c1
  | [], c, c1, h, hr => by
    simp only [c1_io_workers_run, Option.some.injEq] at hr
    subst hr
    exact h
  | i :: sched, c, c1, h, hr => by
    simp only [c1_io_workers_run] at hr
    rcases hs : c1_io_worker_step env fuel i c with _ | c2
    · rw [hs] at hr; simp at hr
    · rw [hs] at hr
      exact c1_io_workers_run_preserves env fuel I hI sched c2 c1 (hI i c c2 h hs) hr

/-! ### Scenario invariants along dispatcher operations -/

/-- C5 (as stated) fails: after `c1_tree_issue_kvb` has failed and the worker
has latched the I/O error, `c1_io_txn_abort(42)`, all of whose collaborator
calls succeed, returns the latched error; the pending count stays 0 and the
FIFO of the worker stays empty, so no ABORT record is queued. -/
theorem C5_counterexample :
    c1_demo_latched.c1_io.c1io_err = EIO_ERRNO ∧
    (c1_io_txn_abort c1_env_kvb_fails c1_demo_latched 42).1 = EIO_ERRNO ∧
    c1_demo_latched.c1_io.c1io_pending = 0 ∧
    (c1_io_txn_abort c1_env_kvb_fails c1_demo_latched 42).2.c1_io.c1io_pending = 0 ∧
    c1io_fifo (c1_io_txn_abort c1_env_kvb_fails c1_demo_latched 42).2.c1_io.c1io_workerv 0
      = [] := by
  decide

/-- C5 (amended): for every engine state whose latched error is non-zero,
`c1_io_txn_abort(txn_id)` does not enqueue: it returns a non-zero error and
leaves the pending count, every worker FIFO and the latched error unchanged,
and the only calls it makes are dispatcher-side calls (no `c1_tree_issue_txn`).
When the record-size oracle and every tree reservation succeed and the free
pool is not empty, the error returned is the latched error. -/
theorem C5_txn_abort_latched (env : c1_env) (c : c1) (txnid : Nat)
    (hl : c.c1_io.c1io_err ≠ 0) :
    (c1_io_txn_abort env c txnid).1 ≠ 0 ∧
    (c1_io_txn_abort env c txnid).2.c1_io.c1io_pending = c.c1_io.c1io_pending ∧
    (c1_io_txn_abort env c txnid).2.c1_io.c1io_workerv = c.c1_io.c1io_workerv ∧
    (c1_io_txn_abort env c txnid).2.c1_io.c1io_err = c.c1_io.c1io_err ∧
    (∃ extra, (c1_io_txn_abort env c txnid).2.calls = c.calls ++ extra ∧
      ∀ x ∈ extra, c1_call_dispatch x = true) ∧
    (env.err (c.calls ++ [c1_call.record_type2len c1_rec_type.C1_TYPE_TXN]) = 0 →
      (∀ l tree size spare, env.err (l ++ [c1_call.tree_reserve_space tree size spare]) = 0) →
      c.c1_io.c1io_qfree ≠ [] →
      (c1_io_txn_abort env c txnid).1 = c.c1_io.c1io_err) := by
  have heff := c1_io_txn_abort_effect env c txnid
  rcases heff with ⟨hne, hq⟩ | ⟨-, h0, -⟩
  · refine ⟨hne, hq.1, hq.2.1, hq.2.2.1, hq.2.2.2.2.2.2, ?_⟩
    intro hrec hres hpool
    exact c1_io_txn_abort_latched_ret env c txnid hl hrec hres hpool
  · exact absurd h0 hl

/-- C5 witness: the latched state of scenario 5, with collaborators that
never fail. -/
theorem C5_txn_abort_latched_witness :
    (c1_io_txn_abort c1_env_ok c1_demo_latched 42).1 ≠ 0 ∧
    (c1_io_txn_abort c1_env_ok c1_demo_latched 42).2.c1_io.c1io_pending
      = c1_demo_latched.c1_io.c1io_pending ∧
    (c1_io_txn_abort c1_env_ok c1_demo_latched 42).2.c1_io.c1io_workerv
      = c1_demo_latched.c1_io.c1io_workerv ∧
    (c1_io_txn_abort c1_env_ok c1_demo_latched 42).2.c1_io.c1io_err
      = c1_demo_latched.c1_io.c1io_err ∧
    (c1_io_txn_abort c1_env_ok c1_demo_latched 42).1 = c1_demo_latched.c1_io.c1io_err :=
  have h := C5_txn_abort_latched c1_env_ok c1_demo_latched 42 (by decide)
  ⟨h.1, h.2.1, h.2.2.1, h.2.2.2.1,
    h.2.2.2.2.2 rfl (fun _ _ _ _ => rfl) (by decide)⟩

/-- C8 (the code at the failing input): on a fresh engine, whose free pool
holds the preallocated items 0 to 60, `c1_issue_iter` with a non-null
iterator and a failing reservation returns the reservation error with the
pending count and the worker FIFO unchanged, but the free pool now holds the
items 1 to 60 only: item 0 was unlinked and `c1_io_queue_free` did not link it
back, and no `free` call was made for it either. -/
theorem C8_issue_iter_reserve_failure :
    c1_demo_c0_nospace.c1_io.c1io_qfree.map (fun q => q.addr)
      = (List.range 61).map c1q_addr.ioqv ∧
    (c1_issue_iter c1_env_reserve_fails (fun _ => none) c1_demo_c0_nospace
      (some c1_demo_iter) 7 c1_demo_cki C1_INGEST_ASYNC 0).map Prod.fst = some ENOSPC ∧
    (c1_issue_iter c1_env_reserve_fails (fun _ => none) c1_demo_c0_nospace
      (some c1_demo_iter) 7 c1_demo_cki C1_INGEST_ASYNC 0).map
        (fun r => r.2.c1_io.c1io_qfree.map (fun q => q.addr))
      = some ((List.range' 1 60).map c1q_addr.ioqv) ∧
    (c1_issue_iter c1_env_reserve_fails (fun _ => none) c1_demo_c0_nospace
      (some c1_demo_iter) 7 c1_demo_cki C1_INGEST_ASYNC 0).map
        (fun r => (r.2.c1_io.c1io_pending, r.2.c1_io.c1io_workerv))
      = some (c1_demo_c0_nospace.c1_io.c1io_pending, c1_demo_c0_nospace.c1_io.c1io_workerv) ∧
    (c1_issue_iter c1_env_reserve_fails (fun _ => none) c1_demo_c0_nospace
      (some c1_demo_iter) 7 c1_demo_cki C1_INGEST_ASYNC 0).map
        (fun r => r.2.calls.filter (fun x => !c1_call_dispatch x || x == c1_call.free (c1q_addr.ioqv 0)))
      = some [] := by
  decide

/-! ### The pending count, step by step -/

/-- C10: in every state reached from a freshly created engine by atomic
dispatcher steps and worker passes, and for every worker `k`, the items
worker `k` has popped so far, followed by the items still on its FIFO from
head to tail, are exactly the items enqueued on worker `k`, in enqueue
order. -/
theorem C10_worker_fifo_order (env : c1_env) (stripsize : Nat) (calls : List c1_call)
    (threads : Nat) (ops : List c1_op) (c0 c : c1) (k : Nat)
    (hslots : ∀ l, (env.reserve_out l).1 < threads)
    (hcreate : (c1_io_create env stripsize calls threads).2 = some c0)
    (hrun : c1_run env ops c0 = some c) :
    c1_popped k c.history ++ c1io_fifo c.c1_io.c1io_workerv k = c1_enqueued k c.history :=
  (c1_queue_inv_run env threads hslots ops c0 c hrun
    (c1_queue_inv_create env stripsize calls threads c0 hcreate)).2.2.2 k

/-- C10 witness: the run `c1_demo_ops` on the fresh one-worker engine, where
three of the four items queued on worker 0 have been popped. -/
theorem C10_worker_fifo_order_witness :
    c1_popped 0 c1_demo_mid.history ++ c1io_fifo c1_demo_mid.c1_io.c1io_workerv 0
      = c1_enqueued 0 c1_demo_mid.history ∧
    (c1_popped 0 c1_demo_mid.history).length = 3 ∧
    (c1_enqueued 0 c1_demo_mid.history).length = 4 :=
  ⟨C10_worker_fifo_order c1_env_ok 4096 [] 1 c1_demo_ops c1_demo_c0 c1_demo_mid 0
    (fun _ => Nat.zero_lt_one) (Option.some_get _).symm (Option.some_get _).symm,
   by decide, by decide⟩

/-! ### The iterator pump -/

theorem c1_pump_calls_issue_kvb (q : c1_io_queue) (iter : kvb_builder_iter) :
    ∀ bs : List c1_kvbundle,
      (c1_pump_calls q iter bs).filter c1_call_is_issue_kvb = bs.map (c1_kvb_write q iter) := by
  intro bs
  induction bs with
  | nil => rfl
  | cons b bs ih =>
    simp only [c1_pump_calls, List.map_cons]
    rw [List.filter_cons_of_neg (by simp [c1_call_is_issue_kvb])]
    rw [List.filter_cons_of_pos (by simp [c1_call_is_issue_kvb, c1_kvb_write])]
    rw [ih]

theorem c1_pump_calls_iter_put (q : c1_io_queue) (iter : kvb_builder_iter) :
    ∀ bs : List c1_kvbundle, (c1_pump_calls q iter bs).countP c1_call_is_iter_put = 0 := by
  intro bs
  induction bs with
  | nil => rfl
  | cons b bs ih =>
    simp only [c1_pump_calls]
    rw [List.countP_cons_of_neg _ _ (by simp [c1_call_is_iter_put])]
    rw [List.countP_cons_of_neg _ _ (by simp [c1_call_is_iter_put, c1_kvb_write])]
    exact ih

/-- The pump follows the script: it returns, and its calls are those of the
bundles yielded followed by those of the last pass. -/
theorem c1_io_iter_kvbtxn_script (env : c1_env) (iter : kvb_builder_iter) (q : c1_io_queue)
    (e : c1_pump_end) :
    ∀ (bs : List c1_kvbundle) (fuel : Nat) (c : c1),
      c1_pump_script env q iter e c.calls bs → bs.length < fuel →
      c1_io_iter_kvbtxn env iter q fuel c =
        some { c with
          calls := c.calls ++ c1_pump_calls q iter bs ++ c1_pump_end_calls q iter e,
          c1_io := { c.c1_io with c1io_err := c1_pump_end_err e } } := by
  intro bs
  induction bs with
  | nil =>
    intro fuel c hs hf
    obtain ⟨n, rfl⟩ : ∃ n, fuel = n + 1 := ⟨fuel - 1, by simp at hf; omega⟩
    unfold c1_io_iter_kvbtxn
    cases e with
    | eos =>
      simp only [c1_pump_script] at hs
      simp only [c1_emit, hs.1, hs.2, ne_eq, not_true_eq_false, if_false, c1_pump_calls,
        c1_pump_end_calls, c1_pump_end_err, List.append_nil, List.append_assoc,
        List.singleton_append]
    | get_next_fails err =>
      simp only [c1_pump_script] at hs
      simp only [c1_emit, hs.2, ne_eq, hs.1, not_false_eq_true, if_true, c1_pump_calls,
        c1_pump_end_calls, c1_pump_end_err, List.append_nil, List.append_assoc,
        List.singleton_append]
    | write_fails kvb err =>
      simp only [c1_pump_script] at hs
      obtain ⟨h0, h1, h2, h3⟩ := hs
      simp only [c1_kvb_write, List.append_assoc, List.singleton_append] at h3
      simp only [c1_emit, h1, h2, h3, ne_eq, not_true_eq_false, if_false, h0,
        not_false_eq_true, if_true, c1_pump_calls, c1_kvb_write,
        c1_pump_end_calls, c1_pump_end_err, List.append_nil, List.append_assoc,
        List.singleton_append, List.cons_append, List.nil_append]
  | cons b bs ih =>
    intro fuel c hs hf
    obtain ⟨n, rfl⟩ : ∃ n, fuel = n + 1 := ⟨fuel - 1, by simp at hf; omega⟩
    simp only [c1_pump_script] at hs
    obtain ⟨h1, h2, h3, h4⟩ := hs
    have hn : bs.length < n := by simp at hf; omega
    unfold c1_io_iter_kvbtxn
    have h3b := h3
    simp only [c1_kvb_write, List.append_assoc, List.singleton_append] at h3b
    simp only [c1_emit, List.append_assoc, List.singleton_append, h1, h2, h3b, ne_eq,
      not_true_eq_false, if_false]
    have := ih n { c with calls := c.calls ++ [c1_call.iter_get_next iter] ++
      [c1_kvb_write q iter b] } h4 hn
    simp only [c1_kvb_write, List.append_assoc, List.singleton_append] at this
    rw [this]
    simp only [c1_pump_calls, c1_kvb_write, List.append_assoc, List.singleton_append,
      List.cons_append, List.nil_append]

theorem c1_pump_end_calls_issue_kvb (q : c1_io_queue) (iter : kvb_builder_iter)
    (e : c1_pump_end) :
    (c1_pump_end_calls q iter e).filter c1_call_is_issue_kvb =
      (c1_pump_end_bundle e).map (c1_kvb_write q iter) := by
  cases e <;> rfl

theorem c1_pump_end_calls_iter_put (q : c1_io_queue) (iter : kvb_builder_iter)
    (e : c1_pump_end) :
    (c1_pump_end_calls q iter e).countP c1_call_is_iter_put = 1 ∧
    (c1_pump_end_calls q iter e).getLast? = some (c1_call.iter_put iter) := by
  cases e <;> exact ⟨rfl, rfl⟩

/-- C11: the pump `c1_io_iter_kvbtxn` of a kvb-iter item `q` with iterator
`iter` (the non-null `q->c1q_iter`, passed alongside `q`), started in any
state `c`.  Let `get_next` yield the bundles `bs` one
after the other without error and let the write of each succeed, after which
the pump ends as `e` says: by a null bundle without error (`eos`), by a
failing `get_next`, or by a bundle whose write fails.  Then the pump returns,
and the calls it has made are, in order: for each bundle of `bs` a `get_next`
and the `c1_tree_issue_kvb` of that bundle; then the last `get_next`, the
failing write if the pump ends by one, and `iter->put`.  So the
`c1_tree_issue_kvb` calls are exactly those of `bs` in order (followed by the
failing write, after which there is none), each with the tree, the worker
index (as `idx` and as `tidx`), the transaction id, the mutation id and the
sync mode of `q`; `iter->put` is called exactly once, as the last call; and
the latched error is the failing error (zero at a clean end of stream).
Nothing else of the state changes. -/
theorem C11_iter_kvbtxn_round_trip (env : c1_env) (iter : kvb_builder_iter) (q : c1_io_queue)
    (c : c1) (bs : List c1_kvbundle) (e : c1_pump_end) (fuel : Nat)
    (hs : c1_pump_script env q iter e c.calls bs) (hfuel : bs.length < fuel) :
    ∃ extra,
      c1_io_iter_kvbtxn env iter q fuel c =
        some { c with
          calls := c.calls ++ extra,
          c1_io := { c.c1_io with c1io_err := c1_pump_end_err e } } ∧
      extra = c1_pump_calls q iter bs ++ c1_pump_end_calls q iter e ∧
      extra.filter c1_call_is_issue_kvb =
        (bs ++ c1_pump_end_bundle e).map (fun b =>
          c1_call.tree_issue_kvb q.c1q_tree iter.kvbi_ingestid iter.kvbi_vsize q.c1q_idx
            q.c1q_txnid q.c1q_mutation b q.c1q_sync q.c1q_idx) ∧
      extra.countP c1_call_is_iter_put = 1 ∧
      extra.getLast? = some (c1_call.iter_put iter) := by
  refine ⟨c1_pump_calls q iter bs ++ c1_pump_end_calls q iter e, ?_, rfl, ?_, ?_, ?_⟩
  · rw [c1_io_iter_kvbtxn_script env iter q e bs fuel c hs hfuel, List.append_assoc]
  · rw [List.filter_append, c1_pump_calls_issue_kvb, c1_pump_end_calls_issue_kvb,
      List.map_append]
    rfl
  · rw [List.countP_append, c1_pump_calls_iter_put, (c1_pump_end_calls_iter_put q iter e).1]
  · rw [List.getLast?_append, (c1_pump_end_calls_iter_put q iter e).2]
    rfl

/-- C11 at concrete inputs: an iterator that yields two bundles and then the
null bundle, pumped on the fresh one-worker engine; and an iterator whose
first bundle the tree fails to write. -/
theorem C11_iter_kvbtxn_round_trip_witness :
    (c1_pump_script c1_env_two_bundles c1_demo_item c1_demo_iter c1_pump_end.eos
        c1_demo_c0.calls [c1_demo_kvb, c1_demo_kvb2] ∧
      ∃ extra,
        c1_io_iter_kvbtxn c1_env_two_bundles c1_demo_iter c1_demo_item 3 c1_demo_c0 =
          some { c1_demo_c0 with
            calls := c1_demo_c0.calls ++ extra,
            c1_io := { c1_demo_c0.c1_io with c1io_err := 0 } } ∧
        extra = c1_pump_calls c1_demo_item c1_demo_iter [c1_demo_kvb, c1_demo_kvb2] ++
          c1_pump_end_calls c1_demo_item c1_demo_iter c1_pump_end.eos ∧
        extra.filter c1_call_is_issue_kvb =
          [c1_call.tree_issue_kvb (some c1_demo_tree) 9 64 0 7 11 c1_demo_kvb C1_INGEST_ASYNC 0,
           c1_call.tree_issue_kvb (some c1_demo_tree) 9 64 0 7 11 c1_demo_kvb2
             C1_INGEST_ASYNC 0] ∧
        extra.countP c1_call_is_iter_put = 1 ∧
        extra.getLast? = some (c1_call.iter_put c1_demo_iter)) ∧
    (c1_pump_script c1_env_kvb_fails c1_demo_item c1_demo_iter
        (c1_pump_end.write_fails c1_demo_kvb EIO_ERRNO) c1_demo_c0.calls [] ∧
      ∃ extra,
        c1_io_iter_kvbtxn c1_env_kvb_fails c1_demo_iter c1_demo_item 1 c1_demo_c0 =
          some { c1_demo_c0 with
            calls := c1_demo_c0.calls ++ extra,
            c1_io := { c1_demo_c0.c1_io with c1io_err := EIO_ERRNO } } ∧
        extra = [c1_call.iter_get_next c1_demo_iter,
                 c1_call.tree_issue_kvb (some c1_demo_tree) 9 64 0 7 11 c1_demo_kvb
                   C1_INGEST_ASYNC 0,
                 c1_call.iter_put c1_demo_iter] ∧
        extra.filter c1_call_is_issue_kvb =
          [c1_call.tree_issue_kvb (some c1_demo_tree) 9 64 0 7 11 c1_demo_kvb
            C1_INGEST_ASYNC 0] ∧
        extra.countP c1_call_is_iter_put = 1 ∧
        extra.getLast? = some (c1_call.iter_put c1_demo_iter)) :=
  have h1 : c1_pump_script c1_env_two_bundles c1_demo_item c1_demo_iter c1_pump_end.eos
      c1_demo_c0.calls [c1_demo_kvb, c1_demo_kvb2] := by
    simp only [c1_pump_script]
    decide
  have h2 : c1_pump_script c1_env_kvb_fails c1_demo_item c1_demo_iter
      (c1_pump_end.write_fails c1_demo_kvb EIO_ERRNO) c1_demo_c0.calls [] := by
    simp only [c1_pump_script]
    decide
  ⟨⟨h1, C11_iter_kvbtxn_round_trip c1_env_two_bundles c1_demo_iter c1_demo_item c1_demo_c0
      [c1_demo_kvb, c1_demo_kvb2] c1_pump_end.eos 3 h1 (by decide)⟩,
   ⟨h2, C11_iter_kvbtxn_round_trip c1_env_kvb_fails c1_demo_iter c1_demo_item c1_demo_c0
      [] (c1_pump_end.write_fails c1_demo_kvb EIO_ERRNO) 1 h2 (by decide)⟩⟩

/-! ### Tree reservation for a transaction: passes and rollover -/

/-- The calls of `c1_io_next_tree`, and what it returns. -/
theorem c1_io_next_tree_log (env : c1_env) (c : c1) (cur : c1_tree) :
    (env.err (c.calls ++ [c1_call.tree_get_complete cur] ++ [c1_call.mark_tree_complete cur])
        ≠ 0 →
      c1_io_next_tree env c cur =
        (env.err (c.calls ++ [c1_call.tree_get_complete cur] ++
            [c1_call.mark_tree_complete cur]),
         { c with calls := c.calls ++ [c1_call.tree_get_complete cur] ++
            [c1_call.mark_tree_complete cur] })) ∧
    (env.err (c.calls ++ [c1_call.tree_get_complete cur] ++ [c1_call.mark_tree_complete cur])
        = 0 →
      c1_io_next_tree env c cur =
        (env.err (c.calls ++ [c1_call.tree_get_complete cur] ++
            [c1_call.mark_tree_complete cur] ++ [c1_call.next_tree]),
         { c with calls := c.calls ++ [c1_call.tree_get_complete cur] ++
            [c1_call.mark_tree_complete cur] ++ [c1_call.next_tree] })) := by
  unfold c1_io_next_tree
  simp only [c1_emit]
  constructor
  · intro h
    rw [if_pos h]
  · intro h
    rw [if_neg (by rw [h]; simp)]
    split_ifs with h2
    · rfl
    · simp only [ne_eq, not_not] at h2
      rw [h2]

/-- One pass of the reservation loop: it asks for the current tree, calls
`c1_tree_reserve_space_txn` on it, and makes further calls (of
`c1_tree_reserve_space` and `c1_tree_reserve_space_iter` only) when that
succeeds.  When `c1_tree_reserve_space_txn` fails the pass either returns the
error or, for `ENOMEM` on the first attempt, falls through to the rollover.
A pass with `retry` set never falls through. -/
theorem c1_io_get_tree_txn_pass_log (env : c1_env) (c : c1) (ci : c1_iterinfo)
    (q : c1_io_queue) (txsz recsz : Nat) (retry : Bool) (t : c1_tree) (l1 : List c1_call)
    (ht : t = env.current_tree (c.calls ++ [c1_call.current_tree]))
    (hl : l1 = c.calls ++ [c1_call.current_tree] ++
      [c1_call.tree_reserve_space_txn t (u64_add txsz recsz)]) :
    ∃ rest,
      (c1_io_get_tree_txn_pass env c ci q txsz recsz retry).2.2 =
        { c with calls := l1 ++ rest } ∧
      (∀ x ∈ rest, c1_call_is_reserve x = true) ∧
      (env.err l1 ≠ 0 →
        rest = [] ∧
        (c1_io_get_tree_txn_pass env c ci q txsz recsz retry).2.1 = q ∧
        (merr_errno (env.err l1) ≠ ENOMEM ∨ retry = true →
          (c1_io_get_tree_txn_pass env c ci q txsz recsz retry).1 =
            c1_txn_pass.ret (env.err l1)) ∧
        (merr_errno (env.err l1) = ENOMEM → retry = false →
          (c1_io_get_tree_txn_pass env c ci q txsz recsz retry).1 = c1_txn_pass.fall t)) ∧
      (∀ t2, (c1_io_get_tree_txn_pass env c ci q txsz recsz retry).1 = c1_txn_pass.fall t2 →
        retry = false ∧ t2 = t) := by
  subst hl
  unfold c1_io_get_tree_txn_pass
  simp only [c1_tree_reserve_space, c1_emit, ← ht]
  by_cases h1 : env.err (c.calls ++ [c1_call.current_tree] ++
      [c1_call.tree_reserve_space_txn t (u64_add txsz recsz)]) ≠ 0
  · by_cases h2 : merr_errno (env.err (c.calls ++ [c1_call.current_tree] ++
      [c1_call.tree_reserve_space_txn t (u64_add txsz recsz)])) ≠ ENOMEM ∨ retry = true
    · rw [if_pos ⟨h1, h2⟩]
      refine ⟨[], by simp, by simp, ?_, by simp⟩
      intro _
      refine ⟨rfl, rfl, fun _ => rfl, ?_⟩
      intro h3 h4
      rcases h2 with h2 | h2
      · exact absurd h3 h2
      · rw [h4] at h2
        exact absurd h2 (by decide)
    · rw [if_neg (fun h => h2 h.2), if_neg h1]
      refine ⟨[], by simp, by simp, ?_, ?_⟩
      · intro _
        exact ⟨rfl, rfl, fun h => absurd h h2, fun _ _ => rfl⟩
      · intro t2 ht2
        simp only [c1_txn_pass.fall.injEq] at ht2
        refine ⟨?_, ht2.symm⟩
        cases retry
        · rfl
        · exact absurd (Or.inr rfl) h2
  · rw [if_neg (fun h => h1 h.1), if_pos (not_not.mp h1)]
    have hr1 : ∀ x ∈ [c1_call.tree_reserve_space t recsz false], c1_call_is_reserve x = true := by
      simp [c1_call_is_reserve]
    have hr2 : ∀ x ∈ [c1_call.tree_reserve_space t recsz false,
        c1_call.tree_reserve_space_iter t c.c1_io.c1io_kmetasz c.c1_io.c1io_vmetasz
          c.c1_io.c1io_kvbmetasz c.stripsize ci], c1_call_is_reserve x = true := by
      simp [c1_call_is_reserve]
    split_ifs with h3 h4 h5 h6
    · exact ⟨_, by simp only [List.append_assoc], hr1, fun h => absurd h h1, by simp⟩
    · exact ⟨_, by simp only [List.append_assoc, List.singleton_append], hr2,
        fun h => absurd h h1, by simp⟩
    · exact ⟨_, by simp only [List.append_assoc, List.singleton_append], hr2,
        fun h => absurd h h1, by simp⟩
    · refine ⟨_, by simp only [List.append_assoc, List.singleton_append], hr2,
        fun h => absurd h h1, ?_⟩
      intro t2 ht2
      simp only [c1_txn_pass.fall.injEq] at ht2
      refine ⟨?_, ht2.symm⟩
      cases retry
      · rfl
      · exact absurd ⟨h6, rfl⟩ h5
    · refine ⟨_, by simp only [List.append_assoc], hr1, fun h => absurd h h1, ?_⟩
      intro t2 ht2
      simp only [c1_txn_pass.fall.injEq] at ht2
      refine ⟨?_, ht2.symm⟩
      cases retry
      · rfl
      · exact absurd ⟨h4, Or.inr rfl⟩ h3

/-- A list of reservation calls holds no call of another kind. -/
theorem c1_countP_reserve (p : c1_call → Bool)
    (hp : ∀ x, c1_call_is_reserve x = true → p x = false) (rest : List c1_call)
    (h : ∀ x ∈ rest, c1_call_is_reserve x = true) : rest.countP p = 0 := by
  rw [List.countP_eq_zero]
  intro x hx
  rw [hp x (h x hx)]
  simp

/-- The retry pass of the reservation loop: it returns (it never falls
through to a second rollover), and when `c1_tree_reserve_space_txn` fails it
returns that error at once. -/
theorem c1_io_get_tree_txn_loop_retry (env : c1_env) (ci : c1_iterinfo) (txsz recsz n : Nat)
    (c : c1) (q : c1_io_queue) (t : c1_tree) (l1 : List c1_call)
    (ht : t = env.current_tree (c.calls ++ [c1_call.current_tree]))
    (hl : l1 = c.calls ++ [c1_call.current_tree] ++
      [c1_call.tree_reserve_space_txn t (u64_add txsz recsz)]) :
    ∃ err q1 rest,
      c1_io_get_tree_txn_loop env ci txsz recsz (n + 1) true c q =
        some (err, q1, { c with calls := l1 ++ rest }) ∧
      (∀ x ∈ rest, c1_call_is_reserve x = true) ∧
      (env.err l1 ≠ 0 → err = env.err l1 ∧ rest = [] ∧ q1 = q) := by
  obtain ⟨rest, h1, h2, h3, h4⟩ := c1_io_get_tree_txn_pass_log env c ci q txsz recsz true t l1 ht hl
  unfold c1_io_get_tree_txn_loop
  generalize c1_io_get_tree_txn_pass env c ci q txsz recsz true = p at h1 h3 h4
  obtain ⟨res, q1, c1⟩ := p
  simp only at h1 h3 h4
  subst h1
  cases res with
  | ret err =>
    refine ⟨err, q1, rest, rfl, h2, ?_⟩
    intro he
    obtain ⟨a, b, d, -⟩ := h3 he
    have := d (Or.inr trivial)
    simp only [c1_txn_pass.ret.injEq] at this
    exact ⟨this, a, b⟩
  | brk tree =>
    refine ⟨0, { q1 with c1q_tree := some tree }, rest, rfl, h2, ?_⟩
    intro he
    obtain ⟨-, -, d, -⟩ := h3 he
    have := d (Or.inr trivial)
    simp at this
  | fall tree =>
    have := (h4 tree rfl).1
    simp at this

theorem c1_call_is_reserve_not_current_tree (x : c1_call) (h : c1_call_is_reserve x = true) :
    c1_call_is_current_tree x = false := by
  cases x <;> simp [c1_call_is_reserve, c1_call_is_current_tree] at h ⊢

theorem c1_call_is_reserve_not_reserve_txn (x : c1_call) (h : c1_call_is_reserve x = true) :
    c1_call_is_reserve_txn x = false := by
  cases x <;> simp [c1_call_is_reserve, c1_call_is_reserve_txn] at h ⊢

theorem c1_call_is_reserve_not_get_complete (x : c1_call) (h : c1_call_is_reserve x = true) :
    c1_call_is_get_complete x = false := by
  cases x <;> simp [c1_call_is_reserve, c1_call_is_get_complete] at h ⊢

theorem c1_call_is_reserve_not_mark_complete (x : c1_call) (h : c1_call_is_reserve x = true) :
    c1_call_is_mark_complete x = false := by
  cases x <;> simp [c1_call_is_reserve, c1_call_is_mark_complete] at h ⊢

theorem c1_call_is_reserve_not_next_tree (x : c1_call) (h : c1_call_is_reserve x = true) :
    c1_call_is_next_tree x = false := by
  cases x <;> simp [c1_call_is_reserve, c1_call_is_next_tree] at h ⊢

/-- Reservation calls are neither pass-heading calls nor rollover calls. -/
theorem c1_countP_reserve_all (rest : List c1_call)
    (h : ∀ x ∈ rest, c1_call_is_reserve x = true) :
    rest.countP c1_call_is_current_tree = 0 ∧ rest.countP c1_call_is_reserve_txn = 0 ∧
    rest.countP c1_call_is_get_complete = 0 ∧ rest.countP c1_call_is_mark_complete = 0 ∧
    rest.countP c1_call_is_next_tree = 0 :=
  ⟨c1_countP_reserve _ c1_call_is_reserve_not_current_tree rest h,
   c1_countP_reserve _ c1_call_is_reserve_not_reserve_txn rest h,
   c1_countP_reserve _ c1_call_is_reserve_not_get_complete rest h,
   c1_countP_reserve _ c1_call_is_reserve_not_mark_complete rest h,
   c1_countP_reserve _ c1_call_is_reserve_not_next_tree rest h⟩

/-- The reservation loop entered with `retry` clear: it returns after at most
two passes and at most one call of `c1_io_next_tree`; and when the first
`c1_tree_reserve_space_txn` fails with `ENOMEM`, `c1_io_next_tree` is called
once, its failure is returned without a retry, and after its success the one
retry is made on the tree that is then current. -/
theorem c1_io_get_tree_txn_loop_first (env : c1_env) (ci : c1_iterinfo) (txsz recsz n : Nat)
    (c : c1) (q : c1_io_queue) (t1 : c1_tree) (l1 : List c1_call)
    (ht : t1 = env.current_tree (c.calls ++ [c1_call.current_tree]))
    (hl : l1 = c.calls ++ [c1_call.current_tree] ++
      [c1_call.tree_reserve_space_txn t1 (u64_add txsz recsz)]) :
    ∃ err q1 extra,
      c1_io_get_tree_txn_loop env ci txsz recsz (n + 2) false c q =
        some (err, q1, { c with calls := c.calls ++ extra }) ∧
      extra.countP c1_call_is_current_tree ≤ 2 ∧
      extra.countP c1_call_is_reserve_txn ≤ 2 ∧
      extra.countP c1_call_is_get_complete ≤ 1 ∧
      extra.countP c1_call_is_mark_complete ≤ 1 ∧
      extra.countP c1_call_is_next_tree ≤ 1 ∧
      (merr_errno (env.err l1) = ENOMEM →
        ∀ l2 l3 t2 l4,
          l2 = l1 ++ [c1_call.tree_get_complete t1] ++ [c1_call.mark_tree_complete t1] →
          l3 = l2 ++ [c1_call.next_tree] →
          t2 = env.current_tree (l3 ++ [c1_call.current_tree]) →
          l4 = l3 ++ [c1_call.current_tree] ++
            [c1_call.tree_reserve_space_txn t2 (u64_add txsz recsz)] →
          (env.err l2 ≠ 0 → err = env.err l2 ∧ q1 = q ∧ c.calls ++ extra = l2) ∧
          (env.err l2 = 0 → env.err l3 ≠ 0 →
            err = env.err l3 ∧ q1 = q ∧ c.calls ++ extra = l3) ∧
          (env.err l2 = 0 → env.err l3 = 0 →
            ∃ rest, c.calls ++ extra = l4 ++ rest ∧
              (∀ x ∈ rest, c1_call_is_reserve x = true) ∧
              (env.err l4 ≠ 0 → err = env.err l4 ∧ q1 = q ∧ rest = []))) := by
  obtain ⟨r1, h1, h2, h3, h4⟩ :=
    c1_io_get_tree_txn_pass_log env c ci q txsz recsz false t1 l1 ht hl
  obtain ⟨z1, z2, z3, z4, z5⟩ := c1_countP_reserve_all r1 h2
  unfold c1_io_get_tree_txn_loop
  generalize c1_io_get_tree_txn_pass env c ci q txsz recsz false = p at h1 h3 h4
  obtain ⟨res, q1, c1⟩ := p
  simp only at h1 h3 h4
  subst h1
  have hnomem : merr_errno (env.err l1) = ENOMEM → env.err l1 ≠ 0 := by
    intro h
    unfold merr_errno at h
    rw [h]
    decide
  have hcnt : ([c1_call.current_tree, c1_call.tree_reserve_space_txn t1 (u64_add txsz recsz)]
      ++ r1).countP c1_call_is_current_tree ≤ 2 ∧
      ([c1_call.current_tree, c1_call.tree_reserve_space_txn t1 (u64_add txsz recsz)]
      ++ r1).countP c1_call_is_reserve_txn ≤ 2 ∧
      ([c1_call.current_tree, c1_call.tree_reserve_space_txn t1 (u64_add txsz recsz)]
      ++ r1).countP c1_call_is_get_complete ≤ 1 ∧
      ([c1_call.current_tree, c1_call.tree_reserve_space_txn t1 (u64_add txsz recsz)]
      ++ r1).countP c1_call_is_mark_complete ≤ 1 ∧
      ([c1_call.current_tree, c1_call.tree_reserve_space_txn t1 (u64_add txsz recsz)]
      ++ r1).countP c1_call_is_next_tree ≤ 1 := by
    simp [List.countP_append, List.countP_cons, z1, z2, z3, z4, z5, c1_call_is_current_tree,
      c1_call_is_reserve_txn, c1_call_is_get_complete, c1_call_is_mark_complete,
      c1_call_is_next_tree]
  have hlog : l1 ++ r1 = c.calls ++ ([c1_call.current_tree,
      c1_call.tree_reserve_space_txn t1 (u64_add txsz recsz)] ++ r1) := by
    rw [hl]
    simp only [List.append_assoc, List.singleton_append, List.cons_append, List.nil_append]
  cases res with
  | ret err =>
    refine ⟨err, q1, _, by simp only [hlog], hcnt.1, hcnt.2.1, hcnt.2.2.1, hcnt.2.2.2.1,
      hcnt.2.2.2.2, ?_⟩
    intro he
    have := (h3 (hnomem he)).2.2.2 he trivial
    simp at this
  | brk tree =>
    refine ⟨0, { q1 with c1q_tree := some tree }, _, by simp only [hlog], hcnt.1, hcnt.2.1,
      hcnt.2.2.1, hcnt.2.2.2.1, hcnt.2.2.2.2, ?_⟩
    intro he
    have := (h3 (hnomem he)).2.2.2 he trivial
    simp at this
  | fall tree =>
    obtain ⟨-, htree⟩ := h4 tree rfl
    subst htree
    simp only [Bool.false_eq_true, if_false]
    obtain ⟨n1, n2⟩ := c1_io_next_tree_log env { c with calls := l1 ++ r1 } tree
    simp only at n1 n2
    clear hcnt
    have key : merr_errno (env.err l1) = ENOMEM → r1 = [] ∧ q1 = q :=
      fun he => ⟨(h3 (hnomem he)).1, (h3 (hnomem he)).2.1⟩
    clear h3 h4 hnomem
    by_cases e2 : env.err (l1 ++ r1 ++ [c1_call.tree_get_complete tree] ++
        [c1_call.mark_tree_complete tree]) ≠ 0
    · rw [n1 e2]
      simp only [if_pos e2]
      refine ⟨env.err (l1 ++ r1 ++ [c1_call.tree_get_complete tree] ++
        [c1_call.mark_tree_complete tree]), q1, [c1_call.current_tree,
        c1_call.tree_reserve_space_txn tree (u64_add txsz recsz)] ++ r1 ++
        [c1_call.tree_get_complete tree, c1_call.mark_tree_complete tree], ?_, ?_, ?_, ?_, ?_,
        ?_, ?_⟩
      · simp only [hl, List.append_assoc, List.singleton_append, List.cons_append,
          List.nil_append]
      · simp [List.countP_append, List.countP_cons, z1, c1_call_is_current_tree]
      · simp [List.countP_append, List.countP_cons, z2, c1_call_is_reserve_txn]
      · simp [List.countP_append, List.countP_cons, z3, c1_call_is_get_complete]
      · simp [List.countP_append, List.countP_cons, z4, c1_call_is_mark_complete]
      · simp [List.countP_append, List.countP_cons, z5, c1_call_is_next_tree]
      · intro he l2 l3 t2 l4 e_l2 e_l3 _ _
        obtain ⟨hr, hq⟩ := key he
        subst hr hq e_l3 e_l2
        simp only [List.append_nil] at e2
        refine ⟨fun _ => ⟨by simp only [List.append_nil], rfl, ?_⟩, fun h => absurd h e2,
          fun h => absurd h e2⟩
        simp only [hl, List.append_assoc, List.singleton_append, List.cons_append,
          List.nil_append, List.append_nil]
    · have he2 := not_not.mp e2
      rw [n2 he2]
      simp only []
      by_cases e3 : env.err (l1 ++ r1 ++ [c1_call.tree_get_complete tree] ++
          [c1_call.mark_tree_complete tree] ++ [c1_call.next_tree]) ≠ 0
      · rw [if_pos e3]
        refine ⟨env.err (l1 ++ r1 ++ [c1_call.tree_get_complete tree] ++
          [c1_call.mark_tree_complete tree] ++ [c1_call.next_tree]), q1, [c1_call.current_tree,
          c1_call.tree_reserve_space_txn tree (u64_add txsz recsz)] ++ r1 ++
          [c1_call.tree_get_complete tree, c1_call.mark_tree_complete tree,
           c1_call.next_tree], ?_, ?_, ?_, ?_, ?_, ?_, ?_⟩
        · simp only [hl, List.append_assoc, List.singleton_append, List.cons_append,
            List.nil_append]
        · simp [List.countP_append, List.countP_cons, z1, c1_call_is_current_tree]
        · simp [List.countP_append, List.countP_cons, z2, c1_call_is_reserve_txn]
        · simp [List.countP_append, List.countP_cons, z3, c1_call_is_get_complete]
        · simp [List.countP_append, List.countP_cons, z4, c1_call_is_mark_complete]
        · simp [List.countP_append, List.countP_cons, z5, c1_call_is_next_tree]
        · intro he l2 l3 t2 l4 e_l2 e_l3 _ _
          obtain ⟨hr, hq⟩ := key he
          subst hr hq e_l3 e_l2
          simp only [List.append_nil] at e2 e3 he2
          refine ⟨fun h => absurd he2 h, fun _ _ => ⟨by simp only [List.append_nil], rfl, ?_⟩,
            fun _ h => absurd h e3⟩
          simp only [hl, List.append_assoc, List.singleton_append, List.cons_append,
            List.nil_append, List.append_nil]
      · have he3 := not_not.mp e3
        rw [if_neg e3]
        obtain ⟨err, q2, rest, hres, hrest, hfail⟩ :=
          c1_io_get_tree_txn_loop_retry env ci txsz recsz n
            { c with calls := l1 ++ r1 ++ [c1_call.tree_get_complete tree] ++
                [c1_call.mark_tree_complete tree] ++ [c1_call.next_tree] } q1 _ _ rfl rfl
        obtain ⟨y1, y2, y3, y4, y5⟩ := c1_countP_reserve_all rest hrest
        rw [hres]
        refine ⟨err, q2, [c1_call.current_tree,
          c1_call.tree_reserve_space_txn tree (u64_add txsz recsz)] ++ r1 ++
          [c1_call.tree_get_complete tree, c1_call.mark_tree_complete tree,
           c1_call.next_tree] ++
          [c1_call.current_tree,
           c1_call.tree_reserve_space_txn
             (env.current_tree (l1 ++ r1 ++ [c1_call.tree_get_complete tree] ++
                [c1_call.mark_tree_complete tree] ++ [c1_call.next_tree] ++
                [c1_call.current_tree])) (u64_add txsz recsz)] ++ rest,
          ?_, ?_, ?_, ?_, ?_, ?_, ?_⟩
        · simp only [hl, List.append_assoc, List.singleton_append, List.cons_append,
            List.nil_append]
        · simp [List.countP_append, List.countP_cons, z1, y1, c1_call_is_current_tree]
        · simp [List.countP_append, List.countP_cons, z2, y2, c1_call_is_reserve_txn]
        · simp [List.countP_append, List.countP_cons, z3, y3, c1_call_is_get_complete]
        · simp [List.countP_append, List.countP_cons, z4, y4, c1_call_is_mark_complete]
        · simp [List.countP_append, List.countP_cons, z5, y5, c1_call_is_next_tree]
        · intro he l2 l3 t2 l4 e_l2 e_l3 e_t2 e_l4
          obtain ⟨hr, hq⟩ := key he
          subst hr hq e_l4 e_t2 e_l3 e_l2
          simp only [List.append_nil] at e2 e3 he2 he3 hfail hres
          refine ⟨fun h => absurd he2 h, fun _ h => absurd he3 h, fun _ _ => ⟨rest, ?_, hrest,
            fun h => ⟨(hfail h).1, (hfail h).2.2, (hfail h).2.1⟩⟩⟩
          simp only [hl, List.append_assoc, List.singleton_append, List.cons_append,
            List.nil_append, List.append_nil]

/-- C12: for every behaviour of the collaborators, `c1_io_get_tree_txn`
returns, and the calls it has made hold at most two `c1_current_tree` and at
most two `c1_tree_reserve_space_txn` calls (the loop runs at most twice) and
at most one `c1_tree_get_complete`, one `c1_mark_tree_complete` and one
`c1_next_tree` call (`c1_io_next_tree` is called at most once).  When the
record-size oracle succeeds and the first `c1_tree_reserve_space_txn`, made
on the current tree `t1`, fails with `ENOMEM`, the calls that follow are
those of one rollover, `c1_tree_get_complete(t1)` and
`c1_mark_tree_complete(t1)` and then `c1_next_tree`; a failure of either
rollover step is returned at once, without a retry; otherwise the one retry
follows, on the tree `t2` that is current then, and everything after its
`c1_tree_reserve_space_txn` is a space reservation on that tree; when that
`c1_tree_reserve_space_txn` fails again (with `ENOMEM` or any other error)
its error is returned and no further call is made, so no second rollover. -/
theorem C12_get_tree_txn_rollover (env : c1_env) (c : c1) (ci : c1_iterinfo)
    (q : c1_io_queue) :
    ∃ err q1 extra,
      c1_io_get_tree_txn env c ci q = some (err, q1, { c with calls := c.calls ++ extra }) ∧
      extra.countP c1_call_is_current_tree ≤ 2 ∧
      extra.countP c1_call_is_reserve_txn ≤ 2 ∧
      extra.countP c1_call_is_get_complete ≤ 1 ∧
      extra.countP c1_call_is_mark_complete ≤ 1 ∧
      extra.countP c1_call_is_next_tree ≤ 1 ∧
      ∀ (l0 : List c1_call) (sz : Nat) (t1 : c1_tree) (l1 l2 l3 : List c1_call) (t2 : c1_tree)
        (l4 : List c1_call),
        l0 = c.calls ++ [c1_call.record_type2len c1_rec_type.C1_TYPE_TXN] →
        sz = u64_add (c1_io_encoded_size c ci.ci_total) ((env.reclen l0 * 2) % 2 ^ 32) →
        t1 = env.current_tree (l0 ++ [c1_call.current_tree]) →
        l1 = l0 ++ [c1_call.current_tree] ++ [c1_call.tree_reserve_space_txn t1 sz] →
        l2 = l1 ++ [c1_call.tree_get_complete t1] ++ [c1_call.mark_tree_complete t1] →
        l3 = l2 ++ [c1_call.next_tree] →
        t2 = env.current_tree (l3 ++ [c1_call.current_tree]) →
        l4 = l3 ++ [c1_call.current_tree] ++ [c1_call.tree_reserve_space_txn t2 sz] →
        env.err l0 = 0 → merr_errno (env.err l1) = ENOMEM →
          (env.err l2 ≠ 0 → err = env.err l2 ∧ q1 = q ∧ c.calls ++ extra = l2) ∧
          (env.err l2 = 0 → env.err l3 ≠ 0 →
            err = env.err l3 ∧ q1 = q ∧ c.calls ++ extra = l3) ∧
          (env.err l2 = 0 → env.err l3 = 0 →
            ∃ rest, c.calls ++ extra = l4 ++ rest ∧
              (∀ x ∈ rest, c1_call_is_reserve x = true) ∧
              (env.err l4 ≠ 0 → err = env.err l4 ∧ q1 = q ∧ rest = [])) := by
  unfold c1_io_get_tree_txn
  simp only [c1_emit]
  by_cases h0 : env.err (c.calls ++ [c1_call.record_type2len c1_rec_type.C1_TYPE_TXN]) ≠ 0
  · rw [if_pos h0]
    refine ⟨_, q, [c1_call.record_type2len c1_rec_type.C1_TYPE_TXN], rfl, by decide, by decide,
      by decide, by decide, by decide, ?_⟩
    intro l0 sz t1 l1 l2 l3 t2 l4 e0 _ _ _ _ _ _ _ hz
    rw [e0] at hz
    exact absurd hz h0
  · rw [if_neg h0]
    obtain ⟨err, q1, extra, hres, k1, k2, k3, k4, k5, hn⟩ :=
      c1_io_get_tree_txn_loop_first env ci
        (c1_io_encoded_size c ci.ci_total)
        ((env.reclen (c.calls ++ [c1_call.record_type2len c1_rec_type.C1_TYPE_TXN]) * 2) % 2 ^ 32)
        0 { c with calls := c.calls ++ [c1_call.record_type2len c1_rec_type.C1_TYPE_TXN] } q
        _ _ rfl rfl
    refine ⟨err, q1, [c1_call.record_type2len c1_rec_type.C1_TYPE_TXN] ++ extra, ?_, ?_, ?_, ?_,
      ?_, ?_, ?_⟩
    · have hsz : c1_io_encoded_size
          { c with calls := c.calls ++ [c1_call.record_type2len c1_rec_type.C1_TYPE_TXN] }
          ci.ci_total = c1_io_encoded_size c ci.ci_total := rfl
      rw [hsz]
      rw [show (0 + 2 : Nat) = 2 from rfl] at hres
      rw [hres]
      simp only [List.append_assoc]
    · rw [List.countP_append]
      simpa [c1_call_is_current_tree] using k1
    · rw [List.countP_append]
      simpa [c1_call_is_reserve_txn] using k2
    · rw [List.countP_append]
      simpa [c1_call_is_get_complete] using k3
    · rw [List.countP_append]
      simpa [c1_call_is_mark_complete] using k4
    · rw [List.countP_append]
      simpa [c1_call_is_next_tree] using k5
    · intro l0 sz t1 l1 l2 l3 t2 l4 e0 esz e1 el1 el2 el3 e2 el4 _ hnomem
      subst e0 esz e1 el1
      have := hn hnomem l2 l3 t2 l4 el2 el3 e2 el4
      simpa only [List.append_assoc] using this

/-- C12 at a concrete input: on the fresh one-worker engine, with a tree
collaborator whose `c1_tree_reserve_space_txn` always fails with `ENOMEM`,
`c1_io_get_tree_txn` makes one rollover from `c1_demo_tree` to
`c1_demo_tree2`, retries once and returns `ENOMEM`. -/
theorem C12_get_tree_txn_rollover_witness :
    c1_io_get_tree_txn c1_env_txn_nomem c1_demo_c0 c1_demo_ci
        (c1_io_queue_zero (c1q_addr.ioqv 0)) =
      some (merr ENOMEM, c1_io_queue_zero (c1q_addr.ioqv 0),
        { c1_demo_c0 with
          calls := c1_demo_c0.calls ++
            [c1_call.record_type2len c1_rec_type.C1_TYPE_TXN,
             c1_call.current_tree,
             c1_call.tree_reserve_space_txn c1_demo_tree c1_demo_txn_size,
             c1_call.tree_get_complete c1_demo_tree,
             c1_call.mark_tree_complete c1_demo_tree,
             c1_call.next_tree,
             c1_call.current_tree,
             c1_call.tree_reserve_space_txn c1_demo_tree2 c1_demo_txn_size] }) := by
  obtain ⟨err, q1, extra, h, -, -, -, -, -, hn⟩ :=
    C12_get_tree_txn_rollover c1_env_txn_nomem c1_demo_c0 c1_demo_ci
      (c1_io_queue_zero (c1q_addr.ioqv 0))
  obtain ⟨-, -, h3⟩ := hn _ _ _ _ _ _ _ _ rfl rfl rfl rfl rfl rfl rfl rfl (by decide) (by decide)
  obtain ⟨rest, hlog, -, hfail⟩ := h3 (by decide) (by decide)
  obtain ⟨he, hq, hr⟩ := hfail (by decide)
  rw [h, he, hq, hlog, hr]
  decide

/-! ### Tree reservation for a transaction: failures that are not `ENOMEM` -/

/-- The first reservation step: when `c1_tree_reserve_space_txn` fails on the
first attempt with an errno other than `ENOMEM`, `c1_io_get_tree_txn` returns
that error at once; there is no rollover. -/
theorem c1_io_get_tree_txn_reserve_txn_error (env : c1_env) (c : c1) (ci : c1_iterinfo)
    (q : c1_io_queue) (l0 l1 : List c1_call) (t1 : c1_tree)
    (hl0 : l0 = c.calls ++ [c1_call.record_type2len c1_rec_type.C1_TYPE_TXN])
    (ht1 : t1 = env.current_tree (l0 ++ [c1_call.current_tree]))
    (hl1 : l1 = l0 ++ [c1_call.current_tree] ++
      [c1_call.tree_reserve_space_txn t1
        (u64_add (c1_io_encoded_size c ci.ci_total) ((env.reclen l0 * 2) % 2 ^ 32))])
    (h0 : env.err l0 = 0) (he : env.err l1 ≠ 0) (hn : merr_errno (env.err l1) ≠ ENOMEM) :
    c1_io_get_tree_txn env c ci q = some (env.err l1, q, { c with calls := l1 }) := by
  subst hl0 ht1 hl1
  have hsz : ∀ l, c1_io_encoded_size { c with calls := l } ci.ci_total =
      c1_io_encoded_size c ci.ci_total := fun _ => rfl
  unfold c1_io_get_tree_txn c1_io_get_tree_txn_loop c1_io_get_tree_txn_pass
  simp only [c1_emit, h0, ne_eq, not_true_eq_false, if_false, hsz]
  rw [if_pos ⟨he, Or.inl hn⟩]

/-- The second reservation step: when `c1_tree_reserve_space_txn` succeeds and
`c1_tree_reserve_space` fails on the first attempt with an errno other than
`ENOMEM`, `c1_io_get_tree_txn` returns that error at once; there is no
rollover. -/
theorem c1_io_get_tree_txn_reserve_error (env : c1_env) (c : c1) (ci : c1_iterinfo)
    (q : c1_io_queue) (l0 l1 l2 : List c1_call) (t1 : c1_tree)
    (hl0 : l0 = c.calls ++ [c1_call.record_type2len c1_rec_type.C1_TYPE_TXN])
    (ht1 : t1 = env.current_tree (l0 ++ [c1_call.current_tree]))
    (hl1 : l1 = l0 ++ [c1_call.current_tree] ++
      [c1_call.tree_reserve_space_txn t1
        (u64_add (c1_io_encoded_size c ci.ci_total) ((env.reclen l0 * 2) % 2 ^ 32))])
    (hl2 : l2 = l1 ++ [c1_call.tree_reserve_space t1 ((env.reclen l0 * 2) % 2 ^ 32) false])
    (h0 : env.err l0 = 0) (h1 : env.err l1 = 0) (he : env.err l2 ≠ 0)
    (hn : merr_errno (env.err l2) ≠ ENOMEM) :
    c1_io_get_tree_txn env c ci q =
      some (env.err l2,
        { q with c1q_idx := (env.reserve_out l2).1, c1q_mutation := (env.reserve_out l2).2 },
        { c with calls := l2 }) := by
  subst hl0 ht1 hl1 hl2
  have hsz : ∀ l, c1_io_encoded_size { c with calls := l } ci.ci_total =
      c1_io_encoded_size c ci.ci_total := fun _ => rfl
  unfold c1_io_get_tree_txn c1_io_get_tree_txn_loop c1_io_get_tree_txn_pass
  simp only [c1_emit, c1_tree_reserve_space, h0, h1, ne_eq, not_true_eq_false, if_false, hsz,
    false_and, if_true]
  rw [if_pos ⟨he, Or.inl hn⟩]

/-- A first pass that falls through is followed by `c1_io_next_tree` on the
tree of that pass, and then the function returns: from the rollover when it
fails, from the retry pass otherwise. -/
theorem c1_io_get_tree_txn_loop_fall (env : c1_env) (ci : c1_iterinfo) (txsz recsz n : Nat)
    (c : c1) (q : c1_io_queue) (tree : c1_tree) (q1 : c1_io_queue) (c1 : c1)
    (hp : c1_io_get_tree_txn_pass env c ci q txsz recsz false = (c1_txn_pass.fall tree, q1, c1)) :
    ∃ err q2 rest,
      c1_io_get_tree_txn_loop env ci txsz recsz (n + 2) false c q =
        some (err, q2, { c1 with calls := c1.calls ++ [c1_call.tree_get_complete tree] ++
          [c1_call.mark_tree_complete tree] ++ rest }) := by
  unfold c1_io_get_tree_txn_loop
  rw [hp]
  simp only [Bool.false_eq_true, if_false]
  obtain ⟨n1, n2⟩ := c1_io_next_tree_log env c1 tree
  by_cases e2 : env.err (c1.calls ++ [c1_call.tree_get_complete tree] ++
      [c1_call.mark_tree_complete tree]) ≠ 0
  · rw [n1 e2]
    simp only [if_pos e2]
    exact ⟨env.err (c1.calls ++ [c1_call.tree_get_complete tree] ++
      [c1_call.mark_tree_complete tree]), q1, [], by simp only [List.append_nil]⟩
  · rw [n2 (not_not.mp e2)]
    simp only []
    by_cases e3 : env.err (c1.calls ++ [c1_call.tree_get_complete tree] ++
        [c1_call.mark_tree_complete tree] ++ [c1_call.next_tree]) ≠ 0
    · rw [if_pos e3]
      exact ⟨env.err (c1.calls ++ [c1_call.tree_get_complete tree] ++
        [c1_call.mark_tree_complete tree] ++ [c1_call.next_tree]), q1, [c1_call.next_tree], rfl⟩
    · rw [if_neg e3]
      obtain ⟨err, q2, rest, hres, -, -⟩ :=
        c1_io_get_tree_txn_loop_retry env ci txsz recsz n
          { c1 with calls := c1.calls ++ [c1_call.tree_get_complete tree] ++
              [c1_call.mark_tree_complete tree] ++ [c1_call.next_tree] } q1 _ _ rfl rfl
      rw [hres]
      refine ⟨err, q2, [c1_call.next_tree] ++ [c1_call.current_tree] ++
        [c1_call.tree_reserve_space_txn
          (env.current_tree (c1.calls ++ [c1_call.tree_get_complete tree] ++
            [c1_call.mark_tree_complete tree] ++ [c1_call.next_tree] ++ [c1_call.current_tree]))
          (u64_add txsz recsz)] ++ rest, ?_⟩
      simp only [List.append_assoc]

/-- A first pass in which `c1_tree_reserve_space_txn` and
`c1_tree_reserve_space` succeed and `c1_tree_reserve_space_iter` fails, with
whatever errno, falls through to the rollover. -/
theorem c1_io_get_tree_txn_pass_iter_error (env : c1_env) (c : c1) (ci : c1_iterinfo)
    (q : c1_io_queue) (txsz recsz : Nat) (l1 l2 l3 : List c1_call) (t1 : c1_tree)
    (ht1 : t1 = env.current_tree (c.calls ++ [c1_call.current_tree]))
    (hl1 : l1 = c.calls ++ [c1_call.current_tree] ++
      [c1_call.tree_reserve_space_txn t1 (u64_add txsz recsz)])
    (hl2 : l2 = l1 ++ [c1_call.tree_reserve_space t1 recsz false])
    (hl3 : l3 = l2 ++ [c1_call.tree_reserve_space_iter t1 c.c1_io.c1io_kmetasz
      c.c1_io.c1io_vmetasz c.c1_io.c1io_kvbmetasz c.stripsize ci])
    (h1 : env.err l1 = 0) (h2 : env.err l2 = 0) (he : env.err l3 ≠ 0) :
    c1_io_get_tree_txn_pass env c ci q txsz recsz false =
      (c1_txn_pass.fall t1,
       { q with c1q_idx := (env.reserve_out l2).1, c1q_mutation := (env.reserve_out l2).2 },
       { c with calls := l3 }) := by
  subst ht1 hl1 hl2 hl3
  unfold c1_io_get_tree_txn_pass
  simp only [c1_emit, c1_tree_reserve_space, h1, h2, ne_eq, not_true_eq_false, if_false,
    false_and, if_true, he, not_false_eq_true, true_and, Bool.false_eq_true, and_false]

/-- The third reservation step: when the first two steps succeed and
`c1_tree_reserve_space_iter` fails on the first attempt, with whatever errno,
`c1_io_get_tree_txn` does not return that error at once: it goes on to
`c1_io_next_tree`, which asks for the completion state of the tree and marks
the tree complete. -/
theorem c1_io_get_tree_txn_reserve_iter_error (env : c1_env) (c : c1) (ci : c1_iterinfo)
    (q : c1_io_queue) (l0 l1 l2 l3 : List c1_call) (t1 : c1_tree)
    (hl0 : l0 = c.calls ++ [c1_call.record_type2len c1_rec_type.C1_TYPE_TXN])
    (ht1 : t1 = env.current_tree (l0 ++ [c1_call.current_tree]))
    (hl1 : l1 = l0 ++ [c1_call.current_tree] ++
      [c1_call.tree_reserve_space_txn t1
        (u64_add (c1_io_encoded_size c ci.ci_total) ((env.reclen l0 * 2) % 2 ^ 32))])
    (hl2 : l2 = l1 ++ [c1_call.tree_reserve_space t1 ((env.reclen l0 * 2) % 2 ^ 32) false])
    (hl3 : l3 = l2 ++ [c1_call.tree_reserve_space_iter t1 c.c1_io.c1io_kmetasz
      c.c1_io.c1io_vmetasz c.c1_io.c1io_kvbmetasz c.stripsize ci])
    (h0 : env.err l0 = 0) (h1 : env.err l1 = 0) (h2 : env.err l2 = 0) (he : env.err l3 ≠ 0) :
    ∃ err q1 rest,
      c1_io_get_tree_txn env c ci q =
        some (err, q1, { c with calls := l3 ++ [c1_call.tree_get_complete t1] ++
          [c1_call.mark_tree_complete t1] ++ rest }) := by
  have hsz : ∀ l, c1_io_encoded_size { c with calls := l } ci.ci_total =
      c1_io_encoded_size c ci.ci_total := fun _ => rfl
  have hpass := c1_io_get_tree_txn_pass_iter_error env { c with calls := l0 } ci q
    (c1_io_encoded_size c ci.ci_total) ((env.reclen l0 * 2) % 2 ^ 32) l1 l2 l3 t1 ht1 hl1 hl2 hl3
    h1 h2 he
  obtain ⟨err, q2, rest, h⟩ := c1_io_get_tree_txn_loop_fall env ci _ _ 0 _ q _ _ _ hpass
  refine ⟨err, q2, rest, ?_⟩
  unfold c1_io_get_tree_txn
  simp only [c1_emit, ← hl0, h0, ne_eq, not_true_eq_false, if_false, hsz]
  exact h

/-- C13 (the code at the failing input): on the fresh one-worker engine, with
a tree whose `c1_tree_reserve_space_txn` and `c1_tree_reserve_space` succeed
and whose `c1_tree_reserve_space_iter` fails on the first attempt with an I/O
error, which is not `ENOMEM`.  `c1_io_get_tree_txn` does not return the I/O
error: it rolls over (`c1_tree_get_complete`, `c1_mark_tree_complete`,
`c1_next_tree`), retries the three steps on the new current tree
`c1_demo_tree2`, and returns success with that tree. -/
theorem C13_reserve_iter_failure_rolls_over :
    c1_env_iter_fails_once.err
      (c1_demo_c0.calls ++
        [c1_call.record_type2len c1_rec_type.C1_TYPE_TXN,
         c1_call.current_tree,
         c1_call.tree_reserve_space_txn c1_demo_tree c1_demo_txn_size,
         c1_call.tree_reserve_space c1_demo_tree 32 false,
         c1_call.tree_reserve_space_iter c1_demo_tree 16 16 16 4096 c1_demo_ci])
      = merr EIO_ERRNO ∧
    merr_errno (merr EIO_ERRNO) ≠ ENOMEM ∧
    c1_io_get_tree_txn c1_env_iter_fails_once c1_demo_c0 c1_demo_ci
        (c1_io_queue_zero (c1q_addr.ioqv 0)) =
      some (0,
        { c1_io_queue_zero (c1q_addr.ioqv 0) with
          c1q_tree := some c1_demo_tree2, c1q_idx := 0, c1q_mutation := 17 },
        { c1_demo_c0 with
          calls := c1_demo_c0.calls ++
            [c1_call.record_type2len c1_rec_type.C1_TYPE_TXN,
             c1_call.current_tree,
             c1_call.tree_reserve_space_txn c1_demo_tree c1_demo_txn_size,
             c1_call.tree_reserve_space c1_demo_tree 32 false,
             c1_call.tree_reserve_space_iter c1_demo_tree 16 16 16 4096 c1_demo_ci,
             c1_call.tree_get_complete c1_demo_tree,
             c1_call.mark_tree_complete c1_demo_tree,
             c1_call.next_tree,
             c1_call.current_tree,
             c1_call.tree_reserve_space_txn c1_demo_tree2 c1_demo_txn_size,
             c1_call.tree_reserve_space c1_demo_tree2 32 false,
             c1_call.tree_reserve_space_iter c1_demo_tree2 16 16 16 4096 c1_demo_ci] }) := by
  decide

/-! ### The worker loop while an error is latched -/

/-- With an error latched, a kvb-iter item is drained: the worker releases
the iterator and does nothing else. -/
theorem c1_io_worker_process_latched_kvb (env : c1_env) (fuel : Nat) (c : c1)
    (q : c1_io_queue) (iter : kvb_builder_iter) (ht : q.c1q_txn = false)
    (hi : q.c1q_iter = some iter) (hl : c.c1_io.c1io_err ≠ 0) :
    c1_io_worker_process env fuel c q =
      some ({ c with
              c1_io := { c.c1_io with c1io_pending := atomic_dec c.c1_io.c1io_pending },
              calls := c.calls ++ [c1_call.iter_put iter] }, some q) := by
  unfold c1_io_worker_process
  simp only [ht, hi, Bool.false_eq_true, if_false, hl, ne_eq, not_false_eq_true, if_true,
    c1_emit]

/-- A transaction-record item is written whether or not an error is latched;
a failing write latches its error, a successful one leaves the latch as it
was. -/
theorem c1_io_worker_process_txn (env : c1_env) (fuel : Nat) (c : c1) (q : c1_io_queue)
    (ht : q.c1q_txn = true) :
    c1_io_worker_process env fuel c q =
      some ({ c with
              c1_io := { c.c1_io with
                c1io_pending := atomic_dec c.c1_io.c1io_pending,
                c1io_err :=
                  if env.err (c.calls ++ [c1_txn_write q]) ≠ 0
                  then env.err (c.calls ++ [c1_txn_write q]) else c.c1_io.c1io_err },
              calls := c.calls ++ [c1_txn_write q] }, some q) := by
  unfold c1_io_worker_process
  simp only [ht, if_true, c1_emit, c1_txn_write]
  split_ifs <;> rfl

/-! ### The latched error and the pump -/

/-- The pump started with an error latched and ended by a clean end of
stream leaves no error latched: the last pass stores `err`, which is zero. -/
theorem c1_io_iter_kvbtxn_eos_latch (env : c1_env) (iter : kvb_builder_iter)
    (q : c1_io_queue) (bs : List c1_kvbundle) (fuel : Nat) (c : c1)
    (hs : c1_pump_script env q iter c1_pump_end.eos c.calls bs) (hf : bs.length < fuel) :
    ∃ c2, c1_io_iter_kvbtxn env iter q fuel c = some c2 ∧ c2.c1_io.c1io_err = 0 :=
  ⟨_, c1_io_iter_kvbtxn_script env iter q c1_pump_end.eos bs fuel c hs hf, rfl⟩

/-- The worker's processing of a transaction-record item keeps a latched
error latched. -/
theorem c1_io_worker_process_txn_latch (env : c1_env) (fuel : Nat) (c : c1) (q : c1_io_queue)
    (ht : q.c1q_txn = true) (hl : c.c1_io.c1io_err ≠ 0) :
    ∃ c2 lq, c1_io_worker_process env fuel c q = some (c2, lq) ∧ c2.c1_io.c1io_err ≠ 0 := by
  refine ⟨_, _, c1_io_worker_process_txn env fuel c q ht, ?_⟩
  simp only []
  split_ifs with he
  · exact he
  · exact hl

/-- Processing a popped item while an error is latched keeps it latched: a
record write can only replace the error by another, a fence does not touch
it, and a kvb-iter item is drained without entering the pump. -/
theorem c1_io_worker_process_latch (env : c1_env) (fuel : Nat) (c : c1) (q : c1_io_queue)
    (c2 : c1) (lq : Option c1_io_queue) (hl : c.c1_io.c1io_err ≠ 0)
    (h : c1_io_worker_process env fuel c q = some (c2, lq)) : c2.c1_io.c1io_err ≠ 0 := by
  by_cases ht : q.c1q_txn = true
  · rw [c1_io_worker_process_txn env fuel c q ht] at h
    simp only [Option.some.injEq, Prod.mk.injEq] at h
    rw [← h.1]
    simp only []
    split_ifs with he
    · exact he
    · exact hl
  · have ht2 : q.c1q_txn = false := by
      cases hq : q.c1q_txn
      · rfl
      · exact absurd hq ht
    rcases hi : q.c1q_iter with _ | iter
    · unfold c1_io_worker_process at h
      simp only [ht2, hi, Bool.false_eq_true, if_false, Option.some.injEq, Prod.mk.injEq] at h
      rw [← h.1]
      exact hl
    · rw [c1_io_worker_process_latched_kvb env fuel c q iter ht2 hi hl] at h
      simp only [Option.some.injEq, Prod.mk.injEq] at h
      rw [← h.1]
      exact hl

/-- A whole pass of the worker loop, run on its own, keeps a latched error
latched: the pump is entered only when no error is latched. -/
theorem c1_io_worker_step_latch (env : c1_env) (fuel i : Nat) (c c2 : c1)
    (hl : c.c1_io.c1io_err ≠ 0) (h : c1_io_worker_step env fuel i c = some c2) :
    c2.c1_io.c1io_err ≠ 0 := by
  obtain ⟨w0, w1, -, -, -, -, hcase⟩ := c1_io_worker_step_spec env fuel i c c2 h
  rcases hcase with ⟨-, -, -, he, -⟩ | ⟨q, cm, c3, lq, -, -, -, hp, -, hcm, -, -, he, -⟩
  · rw [he]
    exact hl
  · rw [he]
    exact c1_io_worker_process_latch env fuel cm q c3 lq (by rw [hcm]; exact hl) hp

/-- C14 (the code at the failing input): in the state `c1_demo_latched`,
reached by the run of scenario 5, the I/O error is latched.  The pump
`c1_io_iter_kvbtxn` run in that state on an iterator whose `get_next` stores
the null bundle and reports no error calls `get_next` and `iter->put` and
stores zero in the latched error: the engine is no longer failed.  The
worker loop reaches the pump in such a state when two workers interleave
(`c1_demo_race`): the latched error is zero when worker A tests it, the I/O
error after worker B's failed record write, and zero again after worker A's
pump has met the end of its stream. -/
theorem C14_pump_clears_latch :
    c1_demo_latched.c1_io.c1io_err = EIO_ERRNO ∧
    EIO_ERRNO ≠ 0 ∧
    (c1_io_iter_kvbtxn c1_env_kvb_fails c1_demo_iter c1_demo_item 1 c1_demo_latched).map
        (fun c => (c.c1_io.c1io_err, c.calls.drop c1_demo_latched.calls.length)) =
      some (0, [c1_call.iter_get_next c1_demo_iter, c1_call.iter_put c1_demo_iter]) ∧
    c1_demo_race = some (0, EIO_ERRNO, 0) := by
  decide

/-- C15: a pass of `c1_io_worker` on worker `i` that pops the item `q` from
the head of its FIFO while an error is latched.  If `q` is a kvb-iter item
with iterator `iter`, the pass makes exactly one collaborator call,
`iter->put(iter)` (so no `get_next` and no `c1_tree_issue_kvb`).  If `q` is a
transaction-record item, the pass makes exactly one collaborator call,
`c1_tree_issue_txn` with the tree, the worker index, the mutation id, the
record and the sync mode of `q`.  In both cases the pass returns, the item is
off the FIFO, the pending count is one less, and the error stays latched. -/
theorem C15_latched_worker_pass (env : c1_env) (fuel i : Nat) (c : c1) (w : c1_io_worker)
    (q : c1_io_queue) (rest : List c1_io_queue)
    (hw : c.c1_io.c1io_workerv.get? i = some w) (hrun : w.running = true)
    (hq : w.c1w_list = q :: rest) (hl : c.c1_io.c1io_err ≠ 0) :
    (∀ iter, q.c1q_txn = false → q.c1q_iter = some iter →
      ∃ c2, c1_io_worker_step env fuel i c = some c2 ∧
        c2.calls = c.calls ++ [c1_call.iter_put iter] ∧
        c2.c1_io.c1io_err = c.c1_io.c1io_err ∧
        c1io_fifo c2.c1_io.c1io_workerv i = rest ∧
        c2.c1_io.c1io_pending = atomic_dec c.c1_io.c1io_pending) ∧
    (q.c1q_txn = true →
      ∃ c2, c1_io_worker_step env fuel i c = some c2 ∧
        c2.calls = c.calls ++
          [c1_call.tree_issue_txn q.c1q_tree q.c1q_idx q.c1q_mutation q.c1q_txnbuf q.c1q_sync] ∧
        c2.c1_io.c1io_err ≠ 0 ∧
        c1io_fifo c2.c1_io.c1io_workerv i = rest ∧
        c2.c1_io.c1io_pending = atomic_dec c.c1_io.c1io_pending) := by
  obtain ⟨r1, r2, r3, -, r5, -⟩ := c1_io_worker_recycle_spec c.c1_io w
  have hstep : ∀ c2 lq,
      c1_io_worker_process env fuel
        { c with
          c1_io := { (c1_io_worker_recycle c.c1_io w).1 with
            c1io_workerv := c1io_workerv_update
              (fun _ => { (c1_io_worker_recycle c.c1_io w).2 with c1w_list := rest }) i
              (c1_io_worker_recycle c.c1_io w).1.c1io_workerv },
          history := c.history ++ [c1_event.pop i q] } q = some (c2, lq) →
      c1_io_worker_step env fuel i c =
        some { c2 with c1_io := { c2.c1_io with
          c1io_workerv :=
            c1io_workerv_update (fun x => { x with q := lq }) i c2.c1_io.c1io_workerv } } := by
    intro c2 lq hp
    unfold c1_io_worker_step
    rw [hw]
    simp only []
    rw [if_neg (by rw [hrun]; decide)]
    have hl2 : (c1_io_worker_recycle c.c1_io w).2.c1w_list = q :: rest := by rw [r5, hq]
    generalize c1_io_worker_recycle c.c1_io w = r at hp hl2
    obtain ⟨io, w2⟩ := r
    simp only at hp hl2 ⊢
    rw [hl2]
    simp only []
    rw [hp]
  constructor
  · intro iter ht hi
    refine ⟨_, hstep _ _ (c1_io_worker_process_latched_kvb env fuel _ q iter ht hi
      (by simp only [r3]; exact hl)), rfl, r3, ?_, ?_⟩
    · simp only [c1io_workerv_update_update, r1]
      rw [c1io_fifo_update, if_pos rfl, hw]
    · simp only [r2]
  · intro ht
    refine ⟨_, hstep _ _ (c1_io_worker_process_txn env fuel _ q ht), rfl, ?_, ?_, ?_⟩
    · simp only [r3]
      split_ifs with he
      · exact he
      · exact hl
    · simp only [c1io_workerv_update_update, r1]
      rw [c1io_fifo_update, if_pos rfl, hw]
    · simp only [r2]

/-- C15 at concrete inputs: in `c1_demo_backlog` the I/O error is latched and
the worker finds the begin record of transaction 42 at the head of its FIFO,
which it writes to the tree; in `c1_demo_backlog2` it finds the second batch,
whose iterator it releases without a `get_next` or a write. -/
theorem C15_latched_worker_pass_witness :
    c1_demo_backlog.c1_io.c1io_err = EIO_ERRNO ∧
    (∃ c2, c1_io_worker_step c1_env_kvb_fails 2 0 c1_demo_backlog = some c2 ∧
      c2.calls = c1_demo_backlog.calls ++
        [c1_call.tree_issue_txn (some c1_demo_tree) 0 12
          { c1t_segno := 3, c1t_gen := 1, c1t_txnid := 42, c1t_ingestid := C1_INVALID_SEQNO,
            c1t_cmd := c1_txn_cmd.C1_TYPE_TXN_BEGIN, c1t_flag := 1 } C1_INGEST_SYNC] ∧
      c2.c1_io.c1io_err ≠ 0 ∧
      (c1io_fifo c2.c1_io.c1io_workerv 0).length = 1 ∧
      c2.c1_io.c1io_pending = 1) ∧
    c1_demo_backlog2.c1_io.c1io_err = EIO_ERRNO ∧
    (∃ c2, c1_io_worker_step c1_env_kvb_fails 2 0 c1_demo_backlog2 = some c2 ∧
      c2.calls = c1_demo_backlog2.calls ++ [c1_call.iter_put c1_demo_iter] ∧
      c2.c1_io.c1io_err = EIO_ERRNO ∧
      c1io_fifo c2.c1_io.c1io_workerv 0 = [] ∧
      c2.c1_io.c1io_pending = 0) := by
  refine ⟨by decide, ?_, by decide, ?_⟩
  · obtain ⟨c2, h1, h2, h3, h4, h5⟩ :=
      (C15_latched_worker_pass c1_env_kvb_fails 2 0 c1_demo_backlog _ _ _ rfl rfl rfl
        (by decide)).2 rfl
    refine ⟨c2, h1, ?_, h3, ?_, ?_⟩
    · rw [h2]
      decide
    · rw [h4]
      decide
    · rw [h5]
      decide
  · obtain ⟨c2, h1, h2, h3, h4, h5⟩ :=
      (C15_latched_worker_pass c1_env_kvb_fails 2 0 c1_demo_backlog2 _ _ _ rfl rfl rfl
        (by decide)).1 c1_demo_iter rfl rfl
    refine ⟨c2, h1, h2, ?_, ?_, ?_⟩
    · rw [h3]
      decide
    · rw [h4]
    · rw [h5]
      decide
